import Mathlib

/-!
# go-clang-generate: the binding synthesizer of `function.go` and `naming.go`

A shallow embedding of `generateASTFunction`, `handleFunctionCursor`,
`generateFunction` and the struct-member getter (cmd/go-clang-generate/function.go)
and of the name trimming of naming.go.
The Go function `generateASTFunction` builds a `go/ast` declaration, hands it to
`format.Node`, and post-processes the text.  The embedding keeps the syntax tree
explicit: the nodes of `go/ast` that the function constructs are an inductive type,
the closures of the function are functions on an explicit generator state, and the
two loops over `f.Parameters` are folds.  `format.Node`, `unicode.IsUpper` and
`unicode.ToLower` (Go standard library) and the constant `CSChar` (declared outside
the files at hand) are parameters.
-/

namespace GoClang

/-! ## Data model -/

/-- The `Type` descriptor of the generator, with the fields `function.go` reads.
Every field has Go's zero value as default, as in a Go composite literal. -/
structure GoType where
  Name : String := ""
  CName : String := ""
  Primitive : String := ""
  PointerLevel : Int := 0
  IsPrimitive : Bool := false
  IsSlice : Bool := false
  LengthOfSlice : String := ""
  IsReturnArgument : Bool := false
  deriving DecidableEq, Repr

/-- Go `Receiver`: the name and type of the method receiver. -/
structure Receiver where
  Name : String := ""
  Typ : GoType := {}
  deriving DecidableEq, Repr

/-- Go `FunctionParameter`. -/
structure FunctionParameter where
  Name : String := ""
  CName : String := ""
  Typ : GoType := {}
  deriving DecidableEq, Repr

/-- Go `Function`. -/
structure Function where
  Name : String := ""
  CName : String := ""
  Comment : String := ""
  Parameters : List FunctionParameter := []
  ReturnType : GoType := {}
  Receiver : Receiver := {}
  Member : String := ""
  deriving DecidableEq, Repr

/-! ## The fragment of `go/ast` built by the generator -/

/-- The `go/token` values used by the generator. -/
inductive Token where
  | DEFINE | ASSIGN | VAR | AND | NEQ | GTR | INT
  deriving DecidableEq, Repr

/-- Expression nodes of `go/ast`.  An `*ast.Ident` in selector position is kept as
its name. -/
inductive Expr where
  | Ident (Name : String)
  | SelectorExpr (X : Expr) (Sel : String)
  | CallExpr (Fun : Expr) (Args : List Expr)
  | CompositeLit (Typ : Expr) (Elts : List Expr)
  | BasicLit (Kind : Token) (Value : String)
  | StarExpr (X : Expr)
  | ArrayType (Elt : Expr)
  | UnaryExpr (Op : Token) (X : Expr)
  | BinaryExpr (X : Expr) (Op : Token) (Y : Expr)
  | IndexExpr (X : Expr) (Index : Expr)
  deriving Repr

/-- Statement nodes of `go/ast`.  `DeclStmt` is a `GenDecl` holding one
`ValueSpec`; a `BlockStmt` is its statement list. -/
inductive Stmt where
  | AssignStmt (Lhs : List Expr) (Tok : Token) (Rhs : List Expr)
  | DeferStmt (Call : Expr)
  | ExprStmt (X : Expr)
  | DeclStmt (Tok : Token) (Names : List String) (Typ : Expr)
  | IfStmt (Cond : Expr) (Body : List Stmt)
  | RangeStmt (Key : Expr) (Tok : Token) (X : Expr) (Body : List Stmt)
  | ReturnStmt (Results : List Expr)
  deriving Repr

/-- An `ast.Field`: optional names and an optional type. -/
structure Field where
  Names : List String := []
  Typ : Option Expr := none
  deriving Repr

/-- An `ast.FuncType`: `Params` is `nil` until the generator allocates it. -/
structure FuncType where
  Params : Option (List Field) := none
  Results : List Field := []
  deriving Repr

/-- An `ast.FuncDecl`. -/
structure FuncDecl where
  Recv : Option (List Field) := none
  Name : String := ""
  Typ : FuncType := {}
  Body : List Stmt := []
  deriving Repr

/-- The mutable locals of `generateASTFunction`: the declaration under
construction, the result list of `retur`, the argument list of `call`, and the
three flags. -/
structure GenState where
  astFunc : FuncDecl := {}
  retur : List Expr := []
  callArgs : List Expr := []
  hasReturnArguments : Bool := false
  hasDeclaration : Bool := false
  goToCTypeConversions : Bool := false
  deriving Repr

/-! ## The closures of `generateASTFunction` -/

def accessMember (vname member : String) : Expr :=
  .SelectorExpr (.Ident vname) member

def addStatement (s : GenState) (stmt : Stmt) : GenState :=
  { s with astFunc := { s.astFunc with Body := s.astFunc.Body ++ [stmt] } }

def addAssignment (s : GenState) (vname : String) (e : Expr) : GenState :=
  addStatement s (.AssignStmt [.Ident vname] .DEFINE [e])

def addAssignmentToO (s : GenState) (e : Expr) : GenState :=
  addAssignment s "o" e

def addDefer (s : GenState) (call : Expr) : GenState :=
  addStatement s (.DeferStmt call)

/-- The fake statement `REMOVE()` that stands for an empty line. -/
def emptyLineStmt : Stmt := .ExprStmt (.CallExpr (.Ident "REMOVE") [])

def addEmptyLine (s : GenState) : GenState :=
  addStatement s emptyLineStmt

def addReturnItem (s : GenState) (item : Expr) : GenState :=
  { s with retur := s.retur ++ [item] }

def doCall (vname method : String) (args : List Expr) : Expr :=
  .CallExpr (accessMember vname method) args

def doCast (typ : String) (args : List Expr) : Expr :=
  .CallExpr (.Ident typ) args

def doCompose (typ : String) (v : Expr) : Expr :=
  .CompositeLit (.Ident typ) [v]

def doCType (c : String) : Expr :=
  accessMember "C" c

def doCCast (typ : String) (args : List Expr) : Expr :=
  doCall "C" typ args

def doField (CSChar : String) (name : String) (typ : GoType) : Field :=
  let names : List String := if name != "" then [name] else []
  let t : Option Expr :=
    if typ.Name != "" then
      let t0 : Expr :=
        if typ.PointerLevel > 0 && typ.CName == CSChar then .Ident "string"
        else .Ident typ.Name
      if typ.IsSlice then some (.ArrayType t0) else some t0
    else none
  { Names := names, Typ := t }

def addReturnType (CSChar : String) (s : GenState) (name : String) (typ : GoType) :
    GenState :=
  { s with astFunc := { s.astFunc with
      Typ := { s.astFunc.Typ with
        Results := s.astFunc.Typ.Results ++ [doField CSChar name typ] } } }

def doZero : Expr := .BasicLit .INT "0"

/-- The loop `for i := 1; i < PointerLevel; i++ { sliceType = &ast.StarExpr{X: sliceType} }`,
run for `n` iterations. -/
def starLoop : Nat → Expr → Expr
  | 0, e => e
  | n + 1, e => starLoop n (.StarExpr e)

/-! ## The first loop: declarations for the parameters -/

/-- The assignment `f.Parameters[0].Name = f.Receiver.Name`. -/
def setFirstName : List FunctionParameter → String → List FunctionParameter
  | [], _ => []
  | p :: ps, n => { p with Name := n } :: ps

/-- The statement of line 514:
`astFunc.Type.Params.List = append(astFunc.Type.Params.List, doField(p.Name, p.Type))`. -/
def addParam (CSChar : String) (s : GenState) (p : FunctionParameter) : GenState :=
  { s with astFunc := { s.astFunc with
      Typ := { s.astFunc.Typ with
        Params := s.astFunc.Typ.Params.map (fun l => l ++ [doField CSChar p.Name p.Typ]) } } }

/-- The element type of the backing array of slice parameter `p`. -/
def sliceType (CSChar : String) (p : FunctionParameter) : Expr :=
  let t0 : Expr :=
    if p.Typ.PointerLevel > 0 && p.Typ.CName == CSChar then doCType "char"
    else doCType p.Typ.Primitive
  starLoop (p.Typ.PointerLevel - 1).toNat t0

/-- The statements of the element-copy loop for slice parameter `p`. -/
def loopStatements (CSChar : String) (p : FunctionParameter) : List Stmt :=
  if p.Typ.CName == CSChar then
    [ .AssignStmt [.Ident "ci_str"] .DEFINE
        [doCCast "CString" [.IndexExpr (.Ident p.Name) (.Ident "i")]],
      .DeferStmt (doCCast "free" [doCall "unsafe" "Pointer" [.Ident "ci_str"]]),
      .AssignStmt [.IndexExpr (.Ident ("ca_" ++ p.Name)) (.Ident "i")] .ASSIGN
        [.Ident "ci_str"] ]
  else
    [ .AssignStmt [.IndexExpr (.Ident ("ca_" ++ p.Name)) (.Ident "i")] .ASSIGN
        [.SelectorExpr (.IndexExpr (.Ident p.Name) (.Ident "i")) "c"] ]

/-- The branch `if p.Type.IsSlice { ... }` of the first loop. -/
def declSlice (CSChar : String) (s : GenState) (p : FunctionParameter) : GenState :=
  let s := { s with hasDeclaration := true }
  let s := addAssignment s ("ca_" ++ p.Name)
    (doCast "make" [.ArrayType (sliceType CSChar p), doCast "len" [.Ident p.Name]])
  let s := addStatement s (.DeclStmt .VAR ["cp_" ++ p.Name] (.StarExpr (sliceType CSChar p)))
  let s := addStatement s
    (.IfStmt (.BinaryExpr (doCast "len" [.Ident p.Name]) .GTR doZero)
      [ .AssignStmt [.Ident ("cp_" ++ p.Name)] .ASSIGN
          [.UnaryExpr .AND (.IndexExpr (.Ident ("ca_" ++ p.Name)) doZero)] ])
  addStatement s (.RangeStmt (.Ident "i") .DEFINE (.Ident p.Name) (loopStatements CSChar p))

/-- The branch `else if p.Type.IsReturnArgument { ...; continue }` of the first loop. -/
def declReturnArgument (CSChar : String) (s : GenState) (p : FunctionParameter) : GenState :=
  let s := { s with hasReturnArguments := true }
  let retType : String := if p.Typ.Name == "cxstring" then "string" else p.Typ.Name
  let s := addReturnType CSChar s "" { Name := retType }
  let varType0 : Expr :=
    if p.Typ.Primitive != "" then doCType p.Typ.Primitive else .Ident p.Typ.Name
  let varType : Expr := if p.Typ.IsSlice then .ArrayType varType0 else varType0
  let s := addStatement s (.DeclStmt .VAR [p.Name] varType)
  let s := if p.Typ.Name == "cxstring" then addDefer s (doCall p.Name "Dispose" []) else s
  if p.Typ.Primitive != "" then addReturnItem s (doCast p.Typ.Name [.Ident p.Name])
  else if p.Typ.Name == "cxstring" then addReturnItem s (doCall p.Name "String" [])
  else addReturnItem s (.Ident p.Name)

/-- One iteration of `for i, p := range f.Parameters` (lines 249-515); `recvName`
is `f.Receiver.Name`. -/
def declParam (CSChar recvName : String) (s : GenState) (ip : Nat × FunctionParameter) :
    GenState :=
  if ip.1 == 0 && recvName != "" then s
  else if ip.2.Typ.LengthOfSlice != "" then s
  else if ip.2.Typ.IsSlice then addParam CSChar (declSlice CSChar s ip.2) ip.2
  else if ip.2.Typ.IsReturnArgument then declReturnArgument CSChar s ip.2
  else addParam CSChar s ip.2

/-! ## The second loop: arguments of the foreign call -/

/-- One iteration of `for _, p := range f.Parameters` (lines 524-598). -/
def callParam (CSChar : String) (s : GenState) (p : FunctionParameter) : GenState :=
  let r : GenState × Expr :=
    if p.Typ.IsSlice then (s, .Ident ("cp_" ++ p.Name))
    else if p.Typ.Primitive != "" then
      if p.Typ.PointerLevel == 1 && p.Typ.CName == CSChar then
        let s := { s with goToCTypeConversions := true }
        let s := addAssignment s ("c_" ++ p.Name) (doCCast "CString" [.Ident p.Name])
        let s := addDefer s
          (doCCast "free" [doCall "unsafe" "Pointer" [.Ident ("c_" ++ p.Name)]])
        (s, .Ident ("c_" ++ p.Name))
      else if p.Typ.Primitive == "cxstring" then (s, accessMember p.Name "c")
      else if p.Typ.IsReturnArgument then (s, .Ident p.Name)
      else if p.Typ.LengthOfSlice != "" then
        (s, doCCast p.Typ.Primitive [doCast "len" [.Ident p.Typ.LengthOfSlice]])
      else (s, doCCast p.Typ.Primitive [.Ident p.Name])
    else (s, accessMember p.Name "c")
  let pf : Expr := if p.Typ.IsReturnArgument then .UnaryExpr .AND r.2 else r.2
  { r.1 with callArgs := r.1.callArgs ++ [pf] }

/-! ## The return shape -/

/-- Lines 605-696: the return-shape decision, with `call` the finished foreign call. -/
def addReturn (CSChar : String) (f : Function) (call : Expr) (s : GenState) : GenState :=
  if f.ReturnType.Name != "void" || s.hasReturnArguments then
    let s :=
      if f.ReturnType.Name == "cxstring" then
        let s := addAssignmentToO s (doCompose "cxstring" call)
        let s := addDefer s (doCall "o" "Dispose" [])
        let s := addEmptyLine s
        let s := addReturnItem s (doCall "o" "String" [])
        addReturnType CSChar s "" { Name := "string" }
      else
        let s := if f.ReturnType.Name != "void" then addReturnType CSChar s "" f.ReturnType else s
        if f.ReturnType.Name == "bool" && f.ReturnType.Primitive != "" then
          let s := addAssignmentToO s call
          let s := addEmptyLine s
          addReturnItem s
            (.BinaryExpr (.Ident "o") .NEQ (doCCast f.ReturnType.Primitive [doZero]))
        else if f.ReturnType.CName == CSChar && f.ReturnType.PointerLevel == 1 then
          addReturnItem s (doCCast "GoString" [call])
        else if f.ReturnType.Name == "time.Time" then
          addReturnItem s (doCall "time" "Unix" [doCast "int64" [call], doZero])
        else if f.ReturnType.Name == "void" then
          addEmptyLine (addStatement s (.ExprStmt call))
        else
          let convCall : Expr :=
            if f.ReturnType.Primitive == "" then doCompose f.ReturnType.Name call
            else doCast f.ReturnType.Name [call]
          if s.hasReturnArguments then
            let s := addAssignmentToO s convCall
            let s := addEmptyLine s
            addReturnItem s (.Ident "o")
          else addReturnItem s convCall
    addStatement s (.ReturnStmt s.retur)
  else addStatement s (.ExprStmt call)

/-! ## `generateASTFunction` -/

/-- The record behind the pointer `f` when `generateASTFunction` returns: line 239
overwrites the name of the first parameter. -/
def finalFunction (f : Function) : Function :=
  if f.Parameters.length != 0 then
    if f.Receiver.Name != "" then
      { f with Parameters := setFirstName f.Parameters f.Receiver.Name }
    else f
  else f

/-- The generator state after line 232: the fresh declaration, with the receiver
attached when there is one and the function has a parameter. -/
def initState (CSChar : String) (f : Function) : GenState :=
  let s : GenState := { astFunc := { Name := f.Name, Typ := { Results := [] }, Body := [] } }
  if f.Receiver.Name != "" then
    if f.Parameters.length > 0 then
      { s with astFunc := { s.astFunc with
          Recv := some [doField CSChar f.Receiver.Name f.Receiver.Typ] } }
    else s
  else s

/-- Lines 237-603: the block `if len(f.Parameters) != 0 { ... }`, run on the record
`f` as line 239 leaves it. -/
def paramBlock (CSChar : String) (f : Function) (s : GenState) : GenState :=
  if f.Parameters.length != 0 then
    let s := { s with astFunc := { s.astFunc with
      Typ := { s.astFunc.Typ with Params := some [] } } }
    let s := f.Parameters.enum.foldl (declParam CSChar f.Receiver.Name) s
    let s := if s.hasReturnArguments || s.hasDeclaration then addEmptyLine s else s
    let s := f.Parameters.foldl (callParam CSChar) s
    if s.goToCTypeConversions then addEmptyLine s else s
  else s

/-- The foreign call `call` as it stands at line 604: `C.<CName>(...)` with the
arguments the second loop appended. -/
def foreignCall (CSChar : String) (f : Function) : Expr :=
  let f1 := finalFunction f
  doCCast f1.CName (paramBlock CSChar f1 (initState CSChar f)).callArgs

/-- The syntax tree `astFunc` that `generateASTFunction` hands to `format.Node`,
together with the record `f` as the call leaves it. -/
def generateAST (CSChar : String) (f : Function) : FuncDecl × Function :=
  let s := initState CSChar f
  let f1 := finalFunction f
  let s := paramBlock CSChar f1 s
  let call := foreignCall CSChar f
  let s := addReturn CSChar f1 call s
  (s.astFunc, f1)

/-- `generateASTFunction`: the emitted text (`none` when `format.Node` fails and the
function panics) and the record `f` after the call.  `formatNode` stands for
`format.Node` of the Go standard library. -/
def generateASTFunction (CSChar : String) (formatNode : FuncDecl → Except String String)
    (f : Function) : Option String × Function :=
  let r := generateAST CSChar f
  match formatNode r.1 with
  | .error _ => (none, r.2)
  | .ok sss =>
    let sss := sss.replace "REMOVE()" ""
    let sss := if r.2.Comment != "" then r.2.Comment ++ "\n" ++ sss else sss
    (some sss, r.2)

/-! ## What one iteration emits

The loops only ever append to the lists of the generator state and raise its
flags.  `Emit` records what a stretch of the function appends; `GenState.emit`
applies it.  The lemmas below show each iteration of both loops to be such an
append, which turns the folds into concatenations. -/

/-- What a stretch of `generateASTFunction` appends to the lists of the generator
state, and the flags it raises. -/
structure Emit where
  params : List Field := []
  results : List Field := []
  stmts : List Stmt := []
  items : List Expr := []
  args : List Expr := []
  retArg : Bool := false
  decl : Bool := false
  conv : Bool := false

/-- Appending `e` to the state `s`. -/
def GenState.emit (s : GenState) (e : Emit) : GenState :=
  { astFunc :=
      { Recv := s.astFunc.Recv
        Name := s.astFunc.Name
        Typ :=
          { Params := s.astFunc.Typ.Params.map (fun l => l ++ e.params)
            Results := s.astFunc.Typ.Results ++ e.results }
        Body := s.astFunc.Body ++ e.stmts }
    retur := s.retur ++ e.items
    callArgs := s.callArgs ++ e.args
    hasReturnArguments := s.hasReturnArguments || e.retArg
    hasDeclaration := s.hasDeclaration || e.decl
    goToCTypeConversions := s.goToCTypeConversions || e.conv }

/-- Sequential composition of two emissions. -/
def Emit.append (a b : Emit) : Emit :=
  { params := a.params ++ b.params
    results := a.results ++ b.results
    stmts := a.stmts ++ b.stmts
    items := a.items ++ b.items
    args := a.args ++ b.args
    retArg := a.retArg || b.retArg
    decl := a.decl || b.decl
    conv := a.conv || b.conv }

/-- The first loop skips the parameter at index 0 when a receiver is designated. -/
def isReceiverParam (recvName : String) (ip : Nat × FunctionParameter) : Bool :=
  ip.1 == 0 && recvName != ""

/-- The first loop skips the parameter as a length-of-slice parameter. -/
def isLengthParam (recvName : String) (ip : Nat × FunctionParameter) : Bool :=
  !isReceiverParam recvName ip && ip.2.Typ.LengthOfSlice != ""

/-- The first loop takes the branch `if p.Type.IsSlice`. -/
def isSliceParam (recvName : String) (ip : Nat × FunctionParameter) : Bool :=
  !isReceiverParam recvName ip && ip.2.Typ.LengthOfSlice == "" && ip.2.Typ.IsSlice

/-- The first loop takes the branch `else if p.Type.IsReturnArgument`: the parameter
is an output argument. -/
def isOutputArgument (recvName : String) (ip : Nat × FunctionParameter) : Bool :=
  !isReceiverParam recvName ip && ip.2.Typ.LengthOfSlice == "" && !ip.2.Typ.IsSlice
    && ip.2.Typ.IsReturnArgument

/-- The first loop reaches line 514 and declares the parameter. -/
def isDeclaredParam (recvName : String) (ip : Nat × FunctionParameter) : Bool :=
  !isReceiverParam recvName ip && ip.2.Typ.LengthOfSlice == ""
    && (ip.2.Typ.IsSlice || !ip.2.Typ.IsReturnArgument)

/-- The four statements emitted for a slice parameter (lines 277-443). -/
def sliceStmts (CSChar : String) (p : FunctionParameter) : List Stmt :=
  [ .AssignStmt [.Ident ("ca_" ++ p.Name)] .DEFINE
      [doCast "make" [.ArrayType (sliceType CSChar p), doCast "len" [.Ident p.Name]]],
    .DeclStmt .VAR ["cp_" ++ p.Name] (.StarExpr (sliceType CSChar p)),
    .IfStmt (.BinaryExpr (doCast "len" [.Ident p.Name]) .GTR doZero)
      [ .AssignStmt [.Ident ("cp_" ++ p.Name)] .ASSIGN
          [.UnaryExpr .AND (.IndexExpr (.Ident ("ca_" ++ p.Name)) doZero)] ],
    .RangeStmt (.Ident "i") .DEFINE (.Ident p.Name) (loopStatements CSChar p) ]

/-- The declared result type of an output argument (lines 448-457). -/
def outArgField (CSChar : String) (p : FunctionParameter) : Field :=
  doField CSChar "" { Name := if p.Typ.Name == "cxstring" then "string" else p.Typ.Name }

/-- The statements emitted for an output argument (lines 459-491). -/
def outArgStmts (p : FunctionParameter) : List Stmt :=
  let varType0 : Expr :=
    if p.Typ.Primitive != "" then doCType p.Typ.Primitive else .Ident p.Typ.Name
  let varType : Expr := if p.Typ.IsSlice then .ArrayType varType0 else varType0
  .DeclStmt .VAR [p.Name] varType ::
    (if p.Typ.Name == "cxstring" then [.DeferStmt (doCall p.Name "Dispose" [])] else [])

/-- The return expression of an output argument (lines 494-509). -/
def outArgValue (p : FunctionParameter) : Expr :=
  if p.Typ.Primitive != "" then doCast p.Typ.Name [.Ident p.Name]
  else if p.Typ.Name == "cxstring" then doCall p.Name "String" []
  else .Ident p.Name

/-- What one iteration of the first loop emits. -/
def declEmit (CSChar recvName : String) (ip : Nat × FunctionParameter) : Emit :=
  { params := if isDeclaredParam recvName ip then [doField CSChar ip.2.Name ip.2.Typ] else []
    results := if isOutputArgument recvName ip then [outArgField CSChar ip.2] else []
    stmts :=
      if isSliceParam recvName ip then sliceStmts CSChar ip.2
      else if isOutputArgument recvName ip then outArgStmts ip.2
      else []
    items := if isOutputArgument recvName ip then [outArgValue ip.2] else []
    retArg := isOutputArgument recvName ip
    decl := isSliceParam recvName ip }

/-- The second loop takes the branch that copies a Go string into a C string. -/
def isCStringParam (CSChar : String) (p : FunctionParameter) : Bool :=
  !p.Typ.IsSlice && p.Typ.Primitive != "" && p.Typ.PointerLevel == 1 && p.Typ.CName == CSChar

/-- The expression `pf` of the second loop before the address-of wrapping. -/
def callArgBase (CSChar : String) (p : FunctionParameter) : Expr :=
  if p.Typ.IsSlice then .Ident ("cp_" ++ p.Name)
  else if p.Typ.Primitive != "" then
    if p.Typ.PointerLevel == 1 && p.Typ.CName == CSChar then .Ident ("c_" ++ p.Name)
    else if p.Typ.Primitive == "cxstring" then accessMember p.Name "c"
    else if p.Typ.IsReturnArgument then .Ident p.Name
    else if p.Typ.LengthOfSlice != "" then
      doCCast p.Typ.Primitive [doCast "len" [.Ident p.Typ.LengthOfSlice]]
    else doCCast p.Typ.Primitive [.Ident p.Name]
  else accessMember p.Name "c"

/-- The argument the second loop appends to the foreign call for `p`. -/
def callArg (CSChar : String) (p : FunctionParameter) : Expr :=
  if p.Typ.IsReturnArgument then .UnaryExpr .AND (callArgBase CSChar p)
  else callArgBase CSChar p

/-- The two statements emitted for a C-string parameter (lines 536-554). -/
def cstringStmts (p : FunctionParameter) : List Stmt :=
  [ .AssignStmt [.Ident ("c_" ++ p.Name)] .DEFINE [doCCast "CString" [.Ident p.Name]],
    .DeferStmt (doCCast "free" [doCall "unsafe" "Pointer" [.Ident ("c_" ++ p.Name)]]) ]

/-- What one iteration of the second loop emits. -/
def callEmit (CSChar : String) (p : FunctionParameter) : Emit :=
  { stmts := if isCStringParam CSChar p then cstringStmts p else []
    args := [callArg CSChar p]
    conv := isCStringParam CSChar p }

/-- What the whole first loop emits over the indexed parameters `l`. -/
def declEmits (CSChar recvName : String) (l : List (Nat × FunctionParameter)) : Emit :=
  { params := (l.filter (isDeclaredParam recvName)).map
      (fun ip => doField CSChar ip.2.Name ip.2.Typ)
    results := (l.filter (isOutputArgument recvName)).map (fun ip => outArgField CSChar ip.2)
    stmts := l.flatMap (fun ip => (declEmit CSChar recvName ip).stmts)
    items := (l.filter (isOutputArgument recvName)).map (fun ip => outArgValue ip.2)
    retArg := l.any (isOutputArgument recvName)
    decl := l.any (isSliceParam recvName) }

/-- What the whole second loop emits over the parameters `l`. -/
def callEmits (CSChar : String) (l : List FunctionParameter) : Emit :=
  { stmts := l.flatMap (fun p => (callEmit CSChar p).stmts)
    args := l.map (callArg CSChar)
    conv := l.any (isCStringParam CSChar) }

/-- What lines 237-603 emit for the record `f` (as line 239 leaves it). -/
def paramEmit (CSChar : String) (f : Function) : Emit :=
  let d := declEmits CSChar f.Receiver.Name f.Parameters.enum
  let c := callEmits CSChar f.Parameters
  { params := d.params
    results := d.results
    stmts := d.stmts ++ (if d.retArg || d.decl then [emptyLineStmt] else []) ++ c.stmts
      ++ (if c.conv then [emptyLineStmt] else [])
    items := d.items
    args := c.args
    retArg := d.retArg
    decl := d.decl
    conv := c.conv }

/-- The generator state at line 604, before the return shape is decided. -/
def midState (CSChar : String) (f : Function) : GenState :=
  let e := paramEmit CSChar (finalFunction f)
  { astFunc :=
      { Recv := (initState CSChar f).astFunc.Recv
        Name := f.Name
        Typ :=
          { Params := if f.Parameters.length != 0 then some e.params else none
            Results := e.results }
        Body := e.stmts }
    retur := e.items
    callArgs := e.args
    hasReturnArguments := e.retArg
    hasDeclaration := e.decl
    goToCTypeConversions := e.conv }

/-- The reshaped foreign call of the last return shape (lines 665-672): a composite
literal for a type without primitive representation, a cast otherwise. -/
def convCall (f : Function) (call : Expr) : Expr :=
  if f.ReturnType.Primitive == "" then doCompose f.ReturnType.Name call
  else doCast f.ReturnType.Name [call]

/-- What lines 607-687 emit ahead of the return statement, by return shape;
`hra` is the flag `hasReturnArguments`. -/
def returnEmit (CSChar : String) (f : Function) (call : Expr) (hra : Bool) : Emit :=
  if f.ReturnType.Name == "cxstring" then
    { stmts := [ .AssignStmt [.Ident "o"] .DEFINE [doCompose "cxstring" call],
                 .DeferStmt (doCall "o" "Dispose" []), emptyLineStmt ]
      items := [doCall "o" "String" []]
      results := [doField CSChar "" { Name := "string" }] }
  else if f.ReturnType.Name == "bool" && f.ReturnType.Primitive != "" then
    { stmts := [.AssignStmt [.Ident "o"] .DEFINE [call], emptyLineStmt]
      items := [.BinaryExpr (.Ident "o") .NEQ (doCCast f.ReturnType.Primitive [doZero])]
      results := [doField CSChar "" f.ReturnType] }
  else if f.ReturnType.CName == CSChar && f.ReturnType.PointerLevel == 1 then
    { items := [doCCast "GoString" [call]]
      results := if f.ReturnType.Name != "void" then [doField CSChar "" f.ReturnType] else [] }
  else if f.ReturnType.Name == "time.Time" then
    { items := [doCall "time" "Unix" [doCast "int64" [call], doZero]]
      results := [doField CSChar "" f.ReturnType] }
  else if f.ReturnType.Name == "void" then
    { stmts := [.ExprStmt call, emptyLineStmt] }
  else if hra then
    { stmts := [.AssignStmt [.Ident "o"] .DEFINE [convCall f call], emptyLineStmt]
      items := [.Ident "o"]
      results := [doField CSChar "" f.ReturnType] }
  else
    { items := [convCall f call]
      results := [doField CSChar "" f.ReturnType] }

/-- The output arguments of `f` with their indices, in parameter order: the
parameters for which the first loop takes the branch of line 444. -/
def outputArguments (f : Function) : List (Nat × FunctionParameter) :=
  f.Parameters.enum.filter (isOutputArgument f.Receiver.Name)

/-- The return expressions of the output arguments of `f`, in parameter order. -/
def outArgValues (f : Function) : List Expr :=
  (outputArguments f).map (fun ip => outArgValue ip.2)

/-- The declared result types of the output arguments of `f`, in parameter order. -/
def outArgFields (CSChar : String) (f : Function) : List Field :=
  (outputArguments f).map (fun ip => outArgField CSChar ip.2)

/-- The flag `hasReturnArguments` at line 604. -/
def hasOutputArgument (f : Function) : Bool :=
  f.Parameters.enum.any (isOutputArgument f.Receiver.Name)

/-- The statements lines 237-603 put into the body. -/
def paramStmts (CSChar : String) (f : Function) : List Stmt :=
  (paramEmit CSChar (finalFunction f)).stmts

/-- The statement is a `return`. -/
def Stmt.isReturn : Stmt → Bool
  | .ReturnStmt _ => true
  | _ => false

mutual
/-- The statement is or contains a `return`. -/
def Stmt.hasReturn : Stmt → Bool
  | .ReturnStmt _ => true
  | .IfStmt _ b => hasReturnList b
  | .RangeStmt _ _ _ b => hasReturnList b
  | _ => false
/-- Some statement of the list is or contains a `return`. -/
def hasReturnList : List Stmt → Bool
  | [] => false
  | s :: ss => s.hasReturn || hasReturnList ss
end

/-- A function returning `uint16` with one output argument `x`. -/
def exampleOutputArgument : Function :=
  { Name := "getCount", CName := "clang_getCount",
    ReturnType := { Name := "uint16", Primitive := "uint" },
    Parameters :=
      [{ Name := "x",
         Typ := { Name := "uint16", Primitive := "uint", IsReturnArgument := true } }] }

/-- A `void` function with a struct parameter and a C-string parameter. -/
def exampleVoid : Function :=
  { Name := "disposeIndex", CName := "clang_disposeIndex",
    ReturnType := { Name := "void" },
    Receiver := { Name := "i", Typ := { Name := "Index" } },
    Parameters :=
      [ { Name := "index", Typ := { Name := "Index" } },
        { Name := "path", Typ := { Name := "int8", CName := "schar", Primitive := "schar",
                                   PointerLevel := 1 } } ] }

/-- A function returning `cxstring` with one output argument `line`. -/
def exampleStringWithOutput : Function :=
  { Name := "getSpelling", CName := "clang_getSpelling",
    ReturnType := { Name := "cxstring" },
    Parameters :=
      [{ Name := "line",
         Typ := { Name := "uint16", Primitive := "uint", IsReturnArgument := true } }] }

/-- A function returning `cxstring` without parameters. -/
def exampleString : Function :=
  { Name := "getClangVersion", CName := "clang_getClangVersion",
    ReturnType := { Name := "cxstring" } }

/-- The declared result `string`. -/
def stringField : Field := { Names := [], Typ := some (.Ident "string") }

/-- A zero-parameter constructor with a designated receiver and a struct-valued
return type. -/
def exampleCreateIndex : Function :=
  { Name := "create_index", CName := "clang_create_index",
    ReturnType := { Name := "Index" },
    Receiver := { Name := "i", Typ := { Name := "Index" } } }

/-- A zero-parameter function with a designated receiver whose return type is
`cxstring`, without primitive representation. -/
def exampleVersion : Function :=
  { Name := "getClangVersion", CName := "clang_getClangVersion",
    ReturnType := { Name := "cxstring" },
    Receiver := { Name := "c", Typ := { Name := "Clang" } } }

/-- A zero-parameter function with a designated receiver whose return type is
`time.Time`, without primitive representation. -/
def exampleTime : Function :=
  { Name := "getTime", CName := "clang_getTime",
    ReturnType := { Name := "time.Time" },
    Receiver := { Name := "c", Typ := { Name := "Clang" } } }

/-- A `void` function with a slice parameter `files` and its length parameter. -/
def exampleSlice : Function :=
  { Name := "parse", CName := "clang_parse",
    ReturnType := { Name := "void" },
    Parameters :=
      [ { Name := "files", Typ := { Name := "File", Primitive := "CXFile", IsSlice := true } },
        { Name := "numFiles",
          Typ := { Name := "uint16", Primitive := "uint", LengthOfSlice := "files" } } ] }

/-- A `void` method whose receiver parameter, the first one, is a slice. -/
def exampleSliceReceiver : Function :=
  { Name := "reset", CName := "clang_reset",
    ReturnType := { Name := "void" },
    Receiver := { Name := "r", Typ := { Name := "File" } },
    Parameters := [{ Name := "files", Typ := { Name := "File", IsSlice := true } }] }

/-- A `void` function whose only parameter is a slice and also names a slice it is
the length of. -/
def exampleSliceLength : Function :=
  { Name := "reset", CName := "clang_reset",
    ReturnType := { Name := "void" },
    Parameters :=
      [{ Name := "files", Typ := { Name := "File", IsSlice := true, LengthOfSlice := "xs" } }] }

/-- A `void` function whose only parameter is a slice flagged as return argument. -/
def exampleSliceOutput : Function :=
  { Name := "fill", CName := "clang_fill",
    ReturnType := { Name := "void" },
    Parameters :=
      [{ Name := "files",
         Typ := { Name := "File", Primitive := "CXFile", IsSlice := true,
                  IsReturnArgument := true } }] }

/-- A function whose `int` result is surfaced as `bool`. -/
def exampleBool : Function :=
  { Name := "isConst", CName := "clang_isConst",
    ReturnType := { Name := "bool", CName := "int", Primitive := "int" },
    Receiver := { Name := "t", Typ := { Name := "Type" } },
    Parameters := [{ Name := "typ", Typ := { Name := "Type" } }] }

/-- A boolean-from-primitive return type that is also flagged as slice. -/
def exampleBoolSlice : Function :=
  { Name := "isConst", CName := "clang_isConst",
    ReturnType := { Name := "bool", CName := "int", Primitive := "int", IsSlice := true } }

/-- A boolean-from-primitive return type that is a character pointer. -/
def exampleBoolCharPointer : Function :=
  { Name := "isConst", CName := "clang_isConst",
    ReturnType := { Name := "bool", CName := "schar", Primitive := "schar", PointerLevel := 2 } }

/-- The declared result `bool`. -/
def boolField : Field := { Names := [], Typ := some (.Ident "bool") }

/-- A slice parameter whose length parameter has a type without primitive
representation. -/
def exampleLengthStruct : Function :=
  { Name := "parse", CName := "clang_parse",
    ReturnType := { Name := "void" },
    Parameters :=
      [ { Name := "files", Typ := { Name := "File", Primitive := "CXFile", IsSlice := true } },
        { Name := "numFiles", Typ := { Name := "Count", LengthOfSlice := "files" } } ] }

/-- The parameters of `f` other than the receiver parameter, with their indices. -/
def nonReceiverParams (f : Function) : List (Nat × FunctionParameter) :=
  f.Parameters.enum.filter (fun ip => !isReceiverParam f.Receiver.Name ip)

/-- A formatter for closed examples: it prints the name of the declaration. -/
def formatName (d : FuncDecl) : Except String String := .ok d.Name

/-! ## naming.go

Go strings are modelled as Lean strings.  `len` and indexing count bytes, so the
UTF-8 encoding is made explicit; `unicode.IsUpper` and `unicode.ToLower` of the Go
standard library are parameters. -/

/-- The `Type` of package `gen`, with the field `naming.go` reads. -/
structure GenType where
  GoName : String := ""
  deriving DecidableEq, Repr

/-- The UTF-8 encoding of a code point: the bytes a Go string holds for it. -/
def utf8Bytes (c : Char) : List Nat :=
  let v := c.toNat
  if v ≤ 0x7f then [v]
  else if v ≤ 0x7ff then [0xc0 + v / 64, 0x80 + v % 64]
  else if v ≤ 0xffff then [0xe0 + v / 4096, 0x80 + v / 64 % 64, 0x80 + v % 64]
  else [0xf0 + v / 262144, 0x80 + v / 4096 % 64, 0x80 + v / 64 % 64, 0x80 + v % 64]

/-- The bytes of a Go string.  Go strings are modelled as Lean strings, that is, as
the byte sequences that are valid UTF-8. -/
def goBytes (s : String) : List Nat := s.data.flatMap utf8Bytes

/-- Go `len(s)`: the number of bytes of `s`. -/
def len (s : String) : Nat := (goBytes s).length

/-- Go `rune(s[i])`: the byte at index `i` read as a code point. -/
def runeAt (s : String) (i : Nat) : Char := Char.ofNat ((goBytes s).getD i 0)

/-- Go `strings.TrimPrefix`. -/
def TrimPrefix (s pre : String) : String :=
  if pre.data.isPrefixOf s.data then ⟨s.data.drop pre.data.length⟩ else s

/-- Go `strings.TrimSuffix`. -/
def TrimSuffix (s suf : String) : String :=
  if suf.data.isSuffixOf s.data then ⟨s.data.take (s.data.length - suf.data.length)⟩ else s

/-- Go `strings.HasPrefix`. -/
def HasPrefix (s pre : String) : Bool := pre.data.isPrefixOf s.data

/-- `TrimLanguagePrefix` of naming.go. -/
def TrimLanguagePrefix (name : String) : String :=
  let name := TrimPrefix name "CX_CXX"
  let name := TrimPrefix name "CXX"
  let name := TrimPrefix name "CX"
  let name := TrimPrefix name "ObjC"
  let name := TrimPrefix name "_"
  name

/-- Lines 70-72 of naming.go: the capitalized `Get` is trimmed when the name has more
than four bytes and the byte at index 3 is an upper-case code point.  `IsUpper` is
`unicode.IsUpper` of the Go standard library. -/
def trimGet (IsUpper : Char → Bool) (name : String) : String :=
  if len name > 4 && IsUpper (runeAt name 3) then TrimPrefix name "Get" else name

/-- `TrimCommonFunctionNamePrefix` of naming.go. -/
def TrimCommonFunctionNamePrefix (IsUpper : Char → Bool) (name : String) : String :=
  let name := TrimPrefix name "create"
  let name := TrimPrefix name "get"
  let name := trimGet IsUpper name
  let name := TrimLanguagePrefix name
  name

/-- The statement of lines 43-47 and again of lines 49-53 of naming.go: trim `g_`,
or else `g`, from `name`, a trim counting when it changes the length. -/
def trimOwner (name g : String) : String :=
  if len (TrimPrefix name (g ++ "_")) != len name then TrimPrefix name (g ++ "_")
  else if len (TrimPrefix name g) != len name then TrimPrefix name g
  else name

/-- The value of `name` at line 57 of naming.go, before the empty name is replaced. -/
def trimSteps (IsUpper : Char → Bool) (name : String) (typ : GenType) : String :=
  let name := TrimCommonFunctionNamePrefix IsUpper name
  let name := trimOwner name typ.GoName
  let name :=
    if len (TrimSuffix typ.GoName "Kind") != len typ.GoName then
      trimOwner name (TrimSuffix typ.GoName "Kind")
    else name
  TrimCommonFunctionNamePrefix IsUpper name

/-- `TrimCommonFunctionName` of naming.go. -/
def TrimCommonFunctionName (IsUpper : Char → Bool) (name : String) (typ : GenType) : String :=
  let name := trimSteps IsUpper name typ
  if name == "" then typ.GoName else name

/-- `CommonReceiverName` of naming.go; `IsUpper` and `ToLower` are `unicode.IsUpper`
and `unicode.ToLower` of the Go standard library. -/
def CommonReceiverName (IsUpper : Char → Bool) (ToLower : Char → Char) (s : String) : String :=
  ⟨s.data.foldl (fun n c => if IsUpper c then n ++ [ToLower c] else n) []⟩

/-- An owner type whose name starts with a language prefix. -/
def exampleObjCKind : GenType := { GoName := "ObjCPropertyAttrKind" }

/-- An owner type whose name no trimming step touches. -/
def exampleCursor : GenType := { GoName := "Cursor" }

/-- A capitalized word: an upper-case letter followed by letters that are not
upper-case. -/
def isCapitalizedWord (IsUpper : Char → Bool) : List Char → Bool
  | [] => false
  | c :: rest => IsUpper c && rest.all (fun d => !IsUpper d)

/-- The first letter of each word, lower-cased. -/
def loweredInitials (ToLower : Char → Char) (words : List (List Char)) : List Char :=
  words.flatMap (fun w => (w.head?.map ToLower).toList)

/-! ## `handleFunctionCursor` -/

/-- Modelled from the spec: `receiverName` of package main, called by
`handleFunctionCursor` and `generateFunction`, is not among the source files.  The
spec's `receiverNameFor` concatenates the lower-cased capital letters of the type
name, which is `CommonReceiverName` of naming.go. -/
def receiverName (IsUpper : Char → Bool) (ToLower : Char → Char) (s : String) : String :=
  CommonReceiverName IsUpper ToLower s

/-- An argument of a function cursor: `cursor.Argument(i)` with its `DisplayName()`
and its `Type()`, a type handle of the introspection layer. -/
structure CursorArgument (τ : Type) where
  DisplayName : String := ""
  Typ : τ

/-- What `handleFunctionCursor` reads off a `clang.Cursor`: `Spelling()`,
`RawCommentText()`, `ResultType()` and the arguments, `NumArguments()` many. -/
structure Cursor (τ : Type) where
  Spelling : String := ""
  RawCommentText : String := ""
  ResultType : τ
  Arguments : List (CursorArgument τ) := []

/-- The loop of lines 50-69 of `handleFunctionCursor`; an error of `getType` is the
panic of line 60. -/
def handleArguments {τ : Type} (getType : τ → Except String GoType)
    (IsUpper : Char → Bool) (ToLower : Char → Char) :
    List (CursorArgument τ) → Except String (List FunctionParameter)
  | [] => .ok []
  | param :: rest =>
    match getType param.Typ with
    | .error err => .error err
    | .ok typ =>
      let p : FunctionParameter :=
        { CName := param.DisplayName, Name := param.DisplayName, Typ := typ }
      let p : FunctionParameter :=
        if p.Name == "" then { p with Name := receiverName IsUpper ToLower p.Typ.Name } else p
      match handleArguments getType IsUpper ToLower rest with
      | .error err => .error err
      | .ok ps => .ok (p :: ps)

/-- `handleFunctionCursor`: the `Function` record of a function cursor, or the error
it panics with.  `getType` and `cleanDoxygenComment` are collaborators outside the
files at hand. -/
def handleFunctionCursor {τ : Type} (getType : τ → Except String GoType)
    (cleanDoxygenComment : String → String) (IsUpper : Char → Bool)
    (ToLower : Char → Char) (cursor : Cursor τ) : Except String Function :=
  let f : Function :=
    { CName := cursor.Spelling, Comment := cleanDoxygenComment cursor.RawCommentText,
      Parameters := [] }
  let f : Function := { f with Name := TrimPrefix f.CName "clang_" }
  match getType cursor.ResultType with
  | .error err => .error err
  | .ok typ =>
    let f : Function := { f with ReturnType := typ }
    match handleArguments getType IsUpper ToLower cursor.Arguments with
    | .error err => .error err
    | .ok ps => .ok { f with Parameters := ps }

/-- A function cursor with one unnamed argument of a primitive type. -/
def exampleUnnamedArgument : Cursor GoType :=
  { Spelling := "clang_clang_setLimit", ResultType := { Name := "void" },
    Arguments := [{ DisplayName := "", Typ := { Name := "uint16", Primitive := "uint" } }] }

/-- A function cursor with a named and an unnamed argument of struct types. -/
def exampleNamedArgument : Cursor GoType :=
  { Spelling := "clang_getCursor", ResultType := { Name := "Cursor" },
    Arguments :=
      [ { DisplayName := "tu", Typ := { Name := "TranslationUnit" } },
        { DisplayName := "", Typ := { Name := "SourceLocation" } } ] }

/-- The name the loop of lines 50-69 gives to a parameter. -/
def parameterName (IsUpper : Char → Bool) (ToLower : Char → Char) (displayName : String)
    (typ : GoType) : String :=
  if displayName == "" then receiverName IsUpper ToLower typ.Name else displayName

/-- The statement is `defer v.Dispose()`. -/
def Stmt.isDisposeOf (v : String) : Stmt → Bool
  | .DeferStmt (.CallExpr (.SelectorExpr (.Ident x) m) []) => x == v && m == "Dispose"
  | _ => false

/-- A `cxstring` function with a `cxstring` output argument and a C-string
parameter. -/
def exampleStringDisposal : Function :=
  { Name := "getDiagnosticOption", CName := "clang_getDiagnosticOption",
    ReturnType := { Name := "cxstring" },
    Parameters :=
      [ { Name := "path", Typ := { Name := "int8", CName := "schar", Primitive := "schar",
                                   PointerLevel := 1 } },
        { Name := "disable", Typ := { Name := "cxstring", IsReturnArgument := true } } ] }

/-- A function with a `const char *` parameter, a `char **` parameter and a struct
parameter. -/
def exampleCharPointers : Function :=
  { Name := "setOptions", CName := "clang_setOptions",
    ReturnType := { Name := "void" },
    Parameters :=
      [ { Name := "path", Typ := { Name := "int8", CName := "schar", Primitive := "schar",
                                   PointerLevel := 1 } },
        { Name := "argv", Typ := { Name := "int8", CName := "schar", Primitive := "schar",
                                   PointerLevel := 2 } },
        { Name := "index", Typ := { Name := "Index" } } ] }

/-- The expression is an address-of expression `&x`. -/
def Expr.isAddressOf : Expr → Bool
  | .UnaryExpr .AND _ => true
  | _ => false

/-- The parameter at index `i` as both loops read it: line 239 has given the
receiver's name to the first parameter. -/
def renamedParam (recvName : String) (i : Nat) (p : FunctionParameter) : FunctionParameter :=
  if isReceiverParam recvName (i, p) then { p with Name := recvName } else p

/-! ## The struct-member getter and `generateFunction` -/

/-- The field read by the getter: `<receiver>.c.<member>`. -/
def getterField (f : Function) : String :=
  f.Receiver.Name ++ ".c." ++ f.Member

/-- The action `if ge $.ReturnType.PointerLevel 1` of the getter template around the
text `s`. -/
def ifPointer (f : Function) (s : String) : String :=
  if f.ReturnType.PointerLevel ≥ 1 then s else ""

/-- The right-hand side of `value :=` in the getter template (line 719). -/
def getterValue (f : Function) : String :=
  if f.ReturnType.Name == "bool" then getterField f
  else
    f.ReturnType.Name ++
      (if f.ReturnType.IsPrimitive then "(" ++ ifPointer f "*" ++ getterField f ++ ")"
       else "\x7b" ++ ifPointer f "*" ++ getterField f ++ "\x7d")

/-- The expression after `return` in the getter template (line 720). -/
def getterReturn (f : Function) : String :=
  if f.ReturnType.Name == "bool" then "value != C.int(0)"
  else ifPointer f "&" ++ "value"

/-- `generateFunctionStructMemberGetter`: the text the template of lines 717-722
yields for `f`. -/
def generateFunctionStructMemberGetter (f : Function) : String :=
  f.Comment ++ "\nfunc (" ++ f.Receiver.Name ++ " " ++ f.Receiver.Typ.Name ++ ") "
    ++ f.Name ++ "() " ++ ifPointer f "*" ++ f.ReturnType.Name ++ " \x7b\n\tvalue := "
    ++ getterValue f ++ "\n\treturn " ++ getterReturn f ++ "\n\x7d\n"

/-- `generateFunction`.  The helpers `trimClangPrefix` and `upperFirstCharacter` and
the constants `GoInt16` and `GoBool` are declared outside the files at hand. -/
def generateFunction (GoInt16 GoBool : String) (trimClangPrefix : String → String)
    (upperFirstCharacter : String → String) (IsUpper : Char → Bool) (ToLower : Char → Char)
    (name cname comment member : String) (typ : GoType) : Function :=
  let receiverType := trimClangPrefix cname
  let recvName := receiverName IsUpper ToLower receiverType
  let functionName := upperFirstCharacter name
  let typ : GoType := if typ.IsPrimitive then { typ with Primitive := typ.Name } else typ
  let typ : GoType :=
    if (HasPrefix name "has" || HasPrefix name "is") && typ.Name == GoInt16 then
      { typ with Name := GoBool }
    else typ
  { Name := functionName, CName := cname, Comment := comment, Parameters := [],
    ReturnType := typ, Receiver := { Name := recvName, Typ := { Name := receiverType } },
    Member := member }

/-- The reshaping rule of the synthesizer's last return shape (lines 665-672) applied
to the text `field`: a composite literal of the return type when `Primitive` is
empty, a cast to the return type otherwise. -/
def reshapedBySynthesizerRule (f : Function) (field : String) : String :=
  if f.ReturnType.Primitive == "" then f.ReturnType.Name ++ "\x7b" ++ field ++ "\x7d"
  else f.ReturnType.Name ++ "(" ++ field ++ ")"

/-- A getter for a `bool` member. -/
def exampleGetterBool : Function :=
  { Name := "IsConst", CName := "CXType", Member := "isConst",
    ReturnType := { Name := "bool", Primitive := "int16", IsPrimitive := true },
    Receiver := { Name := "t", Typ := { Name := "Type" } } }

/-- A getter for a struct member held by pointer. -/
def exampleGetterPointer : Function :=
  { Name := "Parent", CName := "CXCursor", Member := "parent",
    ReturnType := { Name := "Cursor", PointerLevel := 1 },
    Receiver := { Name := "c", Typ := { Name := "Cursor" } } }

/-- A getter whose return type is flagged primitive and names no primitive. -/
def exampleGetterFlagged : Function :=
  { Name := "Kind", CName := "CXCursor", Member := "kind",
    ReturnType := { Name := "CursorKind", IsPrimitive := true },
    Receiver := { Name := "c", Typ := { Name := "Cursor" } } }

/-- A return type named `void` that is a depth-1 character pointer, with one output
argument `line`. -/
def exampleVoidCharPointer : Function :=
  { Name := "getLine", CName := "clang_getLine",
    ReturnType := { Name := "void", CName := "schar", PointerLevel := 1 },
    Parameters :=
      [{ Name := "line",
         Typ := { Name := "uint16", Primitive := "uint", IsReturnArgument := true } }] }

/-- The return shape that returns a value the declaration has no result for: the
branch of line 643 (a depth-1 character pointer) taken for a type named `void`, for
which line 621 declares no result. -/
def isVoidCharPointer (CSChar : String) (f : Function) : Bool :=
  f.ReturnType.Name == "void" && f.ReturnType.CName == CSChar
    && f.ReturnType.PointerLevel == 1

/-- The function `clang_getDiagnosticOption`: a `cxstring` result, a struct parameter
and a `cxstring` output argument, here with the display name `o`. -/
def exampleStringNamedO : Function :=
  { Name := "getDiagnosticOption", CName := "clang_getDiagnosticOption",
    ReturnType := { Name := "cxstring" },
    Parameters :=
      [ { Name := "diag", CName := "diag", Typ := { Name := "Diagnostic" } },
        { Name := "o", CName := "o",
          Typ := { Name := "cxstring", IsReturnArgument := true } } ] }

/-- The function cursor of `clang_getDiagnosticOption` in a header that names the
output argument `o`; the type handles are the resolved descriptors. -/
def exampleCursorNamedO : Cursor GoType :=
  { Spelling := "clang_getDiagnosticOption", ResultType := { Name := "cxstring" },
    Arguments :=
      [ { DisplayName := "diag", Typ := { Name := "Diagnostic" } },
        { DisplayName := "o", Typ := { Name := "cxstring", IsReturnArgument := true } } ] }

/-- The expression is the identifier `v`. -/
def Expr.isIdent (v : String) : Expr → Bool
  | .Ident x => x == v
  | _ => false

/-- The expression is the literal `0`, as `doZero` builds it. -/
def Expr.isZero : Expr → Bool
  | .BasicLit .INT v => v == "0"
  | _ => false

mutual
/-- The index expression `a[0]` occurs in the expression. -/
def Expr.indexesZero (a : String) : Expr → Bool
  | .Ident _ => false
  | .SelectorExpr x _ => x.indexesZero a
  | .CallExpr fn args => fn.indexesZero a || indexesZeroList a args
  | .CompositeLit t elts => t.indexesZero a || indexesZeroList a elts
  | .BasicLit _ _ => false
  | .StarExpr x => x.indexesZero a
  | .ArrayType x => x.indexesZero a
  | .UnaryExpr _ x => x.indexesZero a
  | .BinaryExpr x _ y => x.indexesZero a || y.indexesZero a
  | .IndexExpr x i => (x.isIdent a && i.isZero) || x.indexesZero a || i.indexesZero a
/-- The index expression `a[0]` occurs in one of the expressions. -/
def indexesZeroList (a : String) : List Expr → Bool
  | [] => false
  | e :: es => e.indexesZero a || indexesZeroList a es
end

mutual
/-- The index expression `a[0]` occurs in the statement, at any depth. -/
def Stmt.indexesZero (a : String) : Stmt → Bool
  | .AssignStmt lhs _ rhs => indexesZeroList a lhs || indexesZeroList a rhs
  | .DeferStmt c => c.indexesZero a
  | .ExprStmt x => x.indexesZero a
  | .DeclStmt _ _ t => t.indexesZero a
  | .IfStmt c b => c.indexesZero a || stmtsIndexZero a b
  | .RangeStmt k _ x b => k.indexesZero a || x.indexesZero a || stmtsIndexZero a b
  | .ReturnStmt rs => indexesZeroList a rs
/-- The index expression `a[0]` occurs in one of the statements, at any depth. -/
def stmtsIndexZero (a : String) : List Stmt → Bool
  | [] => false
  | s :: ss => s.indexesZero a || stmtsIndexZero a ss
end

mutual
/-- The statement assigns to the variable `v`, itself or in a nested block: `v` is on
the left-hand side of an assignment or is the key of a `range` loop. -/
def Stmt.assigns (v : String) : Stmt → Bool
  | .AssignStmt lhs _ _ => lhs.any (Expr.isIdent v)
  | .IfStmt _ b => assignsList v b
  | .RangeStmt k _ _ b => k.isIdent v || assignsList v b
  | _ => false
/-- One of the statements assigns to the variable `v`. -/
def assignsList (v : String) : List Stmt → Bool
  | [] => false
  | s :: ss => s.assigns v || assignsList v ss
end

/-- The guard of lines 309-343 for the slice parameter named `name`:
`if len(name) > 0 { cp_name = &ca_name[0] }`. -/
def sliceGuard (name : String) : Stmt :=
  .IfStmt (.BinaryExpr (doCast "len" [.Ident name]) .GTR doZero)
    [ .AssignStmt [.Ident ("cp_" ++ name)] .ASSIGN
        [.UnaryExpr .AND (.IndexExpr (.Ident ("ca_" ++ name)) doZero)] ]

/-- The statement assigns to `cp_name` or indexes `ca_name[0]`, at any depth. -/
def Stmt.touchesBacking (name : String) (s : Stmt) : Bool :=
  s.assigns ("cp_" ++ name) || s.indexesZero ("ca_" ++ name)

/-! ## The loops as concatenations -/

theorem GenState.emit_nil (s : GenState) : s.emit {} = s := by
  rcases s with ⟨⟨recv, name, ⟨params, results⟩, body⟩, retur, args, a, b, c⟩
  cases params <;> simp [GenState.emit]

theorem GenState.emit_emit (s : GenState) (a b : Emit) :
    (s.emit a).emit b = s.emit (a.append b) := by
  rcases s with ⟨⟨recv, name, ⟨params, results⟩, body⟩, retur, args, x, y, z⟩
  cases params <;> simp [GenState.emit, Emit.append, Bool.or_assoc]

theorem declParam_eq (CSChar recvName : String) (s : GenState) (ip : Nat × FunctionParameter) :
    declParam CSChar recvName s ip = s.emit (declEmit CSChar recvName ip) := by
  rcases s with ⟨⟨recv, name, ⟨params, results⟩, body⟩, retur, args, x, y, z⟩
  unfold declParam declEmit isDeclaredParam isOutputArgument isSliceParam isReceiverParam
  by_cases h0 : (ip.1 == 0 && recvName != "") = true
  · cases params <;> simp [h0, GenState.emit]
  · by_cases hl : ip.2.Typ.LengthOfSlice = ""
    · by_cases hs : ip.2.Typ.IsSlice = true
      · cases params <;>
          simp [h0, hl, hs, GenState.emit, addParam, declSlice, addStatement, addAssignment,
            sliceStmts]
      · by_cases hr : ip.2.Typ.IsReturnArgument = true
        · by_cases hp : ip.2.Typ.Primitive = "" <;> by_cases hx : ip.2.Typ.Name = "cxstring" <;>
            cases params <;>
            simp [h0, hl, hs, hr, hp, hx, GenState.emit, declReturnArgument, addStatement,
              addDefer, addReturnItem, addReturnType, outArgStmts, outArgField, outArgValue]
        · cases params <;> simp [h0, hl, hs, hr, GenState.emit, addParam]
    · cases params <;> simp [h0, hl, GenState.emit]

theorem callParam_eq (CSChar : String) (s : GenState) (p : FunctionParameter) :
    callParam CSChar s p = s.emit (callEmit CSChar p) := by
  rcases s with ⟨⟨recv, name, ⟨params, results⟩, body⟩, retur, args, x, y, z⟩
  unfold callParam callEmit callArg callArgBase isCStringParam
  by_cases hs : p.Typ.IsSlice = true
  · cases params <;> simp [hs, GenState.emit]
  · by_cases hp : p.Typ.Primitive = ""
    · cases params <;> simp [hs, hp, GenState.emit]
    · by_cases hc : p.Typ.PointerLevel = 1 ∧ p.Typ.CName = CSChar
      · cases params <;>
          simp [hs, hp, hc, GenState.emit, addStatement, addAssignment, addDefer, cstringStmts]
      · by_cases hx : p.Typ.Primitive = "cxstring"
        · cases params <;> simp [hs, hp, hc, hx, GenState.emit]
        · by_cases hr : p.Typ.IsReturnArgument = true
          · cases params <;> simp [hs, hp, hc, hx, hr, GenState.emit]
          · by_cases hl : p.Typ.LengthOfSlice = "" <;> cases params <;>
              simp [hs, hp, hc, hx, hr, hl, GenState.emit]

theorem foldl_declParam (CSChar recvName : String) (l : List (Nat × FunctionParameter))
    (s : GenState) :
    l.foldl (declParam CSChar recvName) s = s.emit (declEmits CSChar recvName l) := by
  induction l generalizing s with
  | nil => simpa [declEmits] using (GenState.emit_nil s).symm
  | cons ip l ih =>
    rw [List.foldl_cons, ih, declParam_eq, GenState.emit_emit]
    congr 1
    simp only [Emit.append, declEmits, declEmit, List.flatMap_cons, List.any_cons,
      List.filter_cons]
    by_cases h1 : isDeclaredParam recvName ip = true <;>
      by_cases h2 : isOutputArgument recvName ip = true <;> simp [h1, h2]

theorem foldl_callParam (CSChar : String) (l : List FunctionParameter) (s : GenState) :
    l.foldl (callParam CSChar) s = s.emit (callEmits CSChar l) := by
  induction l generalizing s with
  | nil => simpa [callEmits] using (GenState.emit_nil s).symm
  | cons p l ih =>
    rw [List.foldl_cons, ih, callParam_eq, GenState.emit_emit]
    congr 1

theorem finalFunction_length (f : Function) :
    (finalFunction f).Parameters.length = f.Parameters.length := by
  unfold finalFunction
  split
  · split
    · cases h : f.Parameters <;> simp [setFirstName]
    · rfl
  · rfl

theorem paramBlock_initState (CSChar : String) (f : Function) :
    paramBlock CSChar (finalFunction f) (initState CSChar f) = midState CSChar f := by
  unfold paramBlock
  rw [finalFunction_length]
  by_cases hlen : f.Parameters.length = 0
  · have hnil : f.Parameters = [] := List.length_eq_zero.mp hlen
    have hfin : finalFunction f = f := by simp [finalFunction, hlen]
    simp [hlen, midState, paramEmit, hfin, hnil, declEmits, callEmits, initState]
  · have hrecv : (finalFunction f).Receiver.Name = f.Receiver.Name := by
      unfold finalFunction; split <;> [split; skip] <;> rfl
    simp only [hlen, bne_iff_ne, ne_eq, not_false_eq_true, ↓reduceIte, foldl_declParam,
      foldl_callParam, midState, paramEmit, hrecv]
    have hd1 : (declEmits CSChar f.Receiver.Name (finalFunction f).Parameters.enum).args = [] := rfl
    have hd2 : (declEmits CSChar f.Receiver.Name (finalFunction f).Parameters.enum).conv
        = false := rfl
    have hc1 : (callEmits CSChar (finalFunction f).Parameters).params = [] := rfl
    have hc2 : (callEmits CSChar (finalFunction f).Parameters).results = [] := rfl
    have hc3 : (callEmits CSChar (finalFunction f).Parameters).items = [] := rfl
    have hc4 : (callEmits CSChar (finalFunction f).Parameters).retArg = false := rfl
    have hc5 : (callEmits CSChar (finalFunction f).Parameters).decl = false := rfl
    generalize declEmits CSChar f.Receiver.Name (finalFunction f).Parameters.enum = d at *
    generalize callEmits CSChar (finalFunction f).Parameters = c at *
    rcases d with ⟨dp, dr, ds, di, da, d1, d2, d3⟩
    rcases c with ⟨cp, cr, cs, ci, ca, c1, c2, c3⟩
    simp only at hd1 hd2 hc1 hc2 hc3 hc4 hc5
    subst hd1 hd2 hc1 hc2 hc3 hc4 hc5
    have hi : initState CSChar f =
        { astFunc := { Recv := (initState CSChar f).astFunc.Recv, Name := f.Name } } := by
      unfold initState; split <;> [split; skip] <;> rfl
    rw [hi]
    generalize (initState CSChar f).astFunc.Recv = recv
    cases d1 <;> cases d2 <;> cases c3 <;>
      simp [GenState.emit, addEmptyLine, addStatement, emptyLineStmt]

/-! ## The return shape as an emission -/

theorem addReturn_eq (CSChar : String) (f : Function) (call : Expr) (s : GenState) :
    addReturn CSChar f call s =
      if f.ReturnType.Name != "void" || s.hasReturnArguments then
        addStatement (s.emit (returnEmit CSChar f call s.hasReturnArguments))
          (.ReturnStmt (s.retur ++ (returnEmit CSChar f call s.hasReturnArguments).items))
      else addStatement s (.ExprStmt call) := by
  rcases s with ⟨⟨recv, name, ⟨params, results⟩, body⟩, retur, args, x, y, z⟩
  unfold addReturn returnEmit
  by_cases hc : (f.ReturnType.Name != "void" || x) = true
  · simp only [hc, if_true]
    by_cases h1 : f.ReturnType.Name = "cxstring"
    · cases params <;>
        simp [h1, GenState.emit, addStatement, addAssignmentToO, addAssignment, addDefer,
          addEmptyLine, addReturnItem, addReturnType]
    · by_cases h2 : f.ReturnType.Name = "bool" ∧ ¬f.ReturnType.Primitive = ""
      · cases params <;>
          simp [h1, h2, GenState.emit, addStatement, addAssignmentToO, addAssignment,
            addEmptyLine, addReturnItem, addReturnType]
      · by_cases h3 : f.ReturnType.CName = CSChar ∧ f.ReturnType.PointerLevel = 1
        · by_cases hv : f.ReturnType.Name = "void" <;> cases params <;>
            simp [h1, h2, h3, hv, GenState.emit, addStatement, addReturnItem, addReturnType]
        · by_cases h4 : f.ReturnType.Name = "time.Time"
          · cases params <;>
              simp [h1, h2, h3, h4, GenState.emit, addStatement, addReturnItem, addReturnType]
          · by_cases h5 : f.ReturnType.Name = "void"
            · cases params <;>
                simp [h1, h2, h3, h4, h5, GenState.emit, addStatement, addEmptyLine]
            · cases x <;> cases params <;>
                simp [h1, h2, h3, h4, h5, GenState.emit, addStatement, addAssignmentToO,
                  addAssignment, addEmptyLine, addReturnItem, addReturnType, convCall]
  · simp only [hc]; rfl

theorem finalFunction_recv (f : Function) : (finalFunction f).Receiver = f.Receiver := by
  unfold finalFunction; split <;> [split; skip] <;> rfl

theorem finalFunction_cname (f : Function) : (finalFunction f).CName = f.CName := by
  unfold finalFunction; split <;> [split; skip] <;> rfl

theorem finalFunction_returnType (f : Function) :
    (finalFunction f).ReturnType = f.ReturnType := by
  unfold finalFunction; split <;> [split; skip] <;> rfl

theorem declEmits_finalFunction (CSChar : String) (f : Function) :
    declEmits CSChar f.Receiver.Name (finalFunction f).Parameters.enum =
      declEmits CSChar f.Receiver.Name f.Parameters.enum := by
  unfold finalFunction
  by_cases hr : f.Receiver.Name = ""
  · simp [hr]
  · cases hp : f.Parameters with
    | nil => simp [hp]
    | cons p ps =>
      simp [hr, hp, setFirstName, List.enum_cons, declEmits, declEmit, isDeclaredParam,
        isOutputArgument, isSliceParam, isReceiverParam, List.filter_cons]

theorem foreignCall_eq (CSChar : String) (f : Function) :
    foreignCall CSChar f =
      doCCast f.CName ((finalFunction f).Parameters.map (callArg CSChar)) := by
  unfold foreignCall
  simp only [paramBlock_initState, finalFunction_cname]
  rfl

theorem generateAST_fst (CSChar : String) (f : Function) :
    (generateAST CSChar f).1 =
      (addReturn CSChar (finalFunction f) (foreignCall CSChar f) (midState CSChar f)).astFunc := by
  unfold generateAST
  simp only [paramBlock_initState]

theorem midState_retur (CSChar : String) (f : Function) :
    (midState CSChar f).retur = outArgValues f := by
  simp only [midState, paramEmit, finalFunction_recv, declEmits_finalFunction]
  rfl

theorem midState_results (CSChar : String) (f : Function) :
    (midState CSChar f).astFunc.Typ.Results = outArgFields CSChar f := by
  simp only [midState, paramEmit, finalFunction_recv, declEmits_finalFunction]
  rfl

theorem midState_hasReturnArguments (CSChar : String) (f : Function) :
    (midState CSChar f).hasReturnArguments = hasOutputArgument f := by
  simp only [midState, paramEmit, finalFunction_recv, declEmits_finalFunction]
  rfl

theorem returnEmit_finalFunction (CSChar : String) (f : Function) (call : Expr) (hra : Bool) :
    returnEmit CSChar (finalFunction f) call hra = returnEmit CSChar f call hra := by
  unfold returnEmit convCall
  rw [finalFunction_returnType]

/-- The body of the emitted declaration: the statements for the parameters, the
statements of the return shape, and the return statement; or, when nothing is
returned, the statements for the parameters and the bare foreign call. -/
theorem generateAST_body (CSChar : String) (f : Function) :
    (generateAST CSChar f).1.Body =
      if f.ReturnType.Name != "void" || hasOutputArgument f then
        paramStmts CSChar f
          ++ (returnEmit CSChar f (foreignCall CSChar f) (hasOutputArgument f)).stmts
          ++ [.ReturnStmt (outArgValues f
                ++ (returnEmit CSChar f (foreignCall CSChar f) (hasOutputArgument f)).items)]
      else paramStmts CSChar f ++ [.ExprStmt (foreignCall CSChar f)] := by
  rw [generateAST_fst, addReturn_eq, finalFunction_returnType, midState_hasReturnArguments,
    midState_retur, returnEmit_finalFunction]
  split <;> simp [addStatement, GenState.emit, midState, paramStmts]

/-- The declared results of the emitted declaration: the types of the output
arguments, then the type the return shape declares. -/
theorem generateAST_results (CSChar : String) (f : Function) :
    (generateAST CSChar f).1.Typ.Results =
      if f.ReturnType.Name != "void" || hasOutputArgument f then
        outArgFields CSChar f
          ++ (returnEmit CSChar f (foreignCall CSChar f) (hasOutputArgument f)).results
      else outArgFields CSChar f := by
  rw [generateAST_fst, addReturn_eq, finalFunction_returnType, midState_hasReturnArguments,
    returnEmit_finalFunction]
  split <;> simp [addStatement, GenState.emit, midState_results]

/-! ## No `return` among the statements for the parameters -/

theorem hasReturnList_append (l₁ l₂ : List Stmt) :
    hasReturnList (l₁ ++ l₂) = (hasReturnList l₁ || hasReturnList l₂) := by
  induction l₁ with
  | nil => simp [hasReturnList]
  | cons a l ih => simp [hasReturnList, ih, Bool.or_assoc]

theorem hasReturnList_flatMap {α : Type} (l : List α) (g : α → List Stmt)
    (h : ∀ a ∈ l, hasReturnList (g a) = false) : hasReturnList (l.flatMap g) = false := by
  induction l with
  | nil => simp [hasReturnList]
  | cons a l ih =>
    simp only [List.flatMap_cons, hasReturnList_append, Bool.or_eq_false_iff]
    exact ⟨h a (List.mem_cons_self _ _), ih (fun b hb => h b (List.mem_cons_of_mem _ hb))⟩

theorem isReturn_of_hasReturnList {l : List Stmt} (h : hasReturnList l = false) :
    ∀ st ∈ l, st.isReturn = false := by
  induction l with
  | nil => simp
  | cons a l ih =>
    simp only [hasReturnList, Bool.or_eq_false_iff] at h
    intro st hst
    rcases List.mem_cons.mp hst with rfl | hl
    · cases st <;> simp_all [Stmt.isReturn, Stmt.hasReturn]
    · exact ih h.2 st hl

theorem paramStmts_hasReturn (CSChar : String) (f : Function) :
    hasReturnList (paramStmts CSChar f) = false := by
  unfold paramStmts paramEmit
  simp only [hasReturnList_append, Bool.or_eq_false_iff]
  refine ⟨⟨⟨?_, ?_⟩, ?_⟩, ?_⟩
  · apply hasReturnList_flatMap
    intro ip _
    simp only [declEmit]
    split
    · simp [sliceStmts, loopStatements, hasReturnList, Stmt.hasReturn]
      split <;> simp [hasReturnList, Stmt.hasReturn]
    · split
      · simp only [outArgStmts]
        split <;> simp [hasReturnList, Stmt.hasReturn] <;>
          split <;> simp [hasReturnList, Stmt.hasReturn]
      · rfl
  · split <;> simp [hasReturnList, Stmt.hasReturn, emptyLineStmt]
  · apply hasReturnList_flatMap
    intro p _
    simp only [callEmit]
    split <;> simp [cstringStmts, hasReturnList, Stmt.hasReturn]
  · split <;> simp [hasReturnList, Stmt.hasReturn, emptyLineStmt]

/-! ## The order of the returned values (C1) -/

theorem hasOutputArgument_iff (f : Function) :
    hasOutputArgument f = true ↔
      ∃ i p, f.Parameters[i]? = some p ∧ isOutputArgument f.Receiver.Name (i, p) = true := by
  simp only [hasOutputArgument, List.any_eq_true, Prod.exists, List.mk_mem_enum_iff_getElem?]

theorem filter_isReturn_of_hasReturnList {l : List Stmt} (h : hasReturnList l = false) :
    l.filter Stmt.isReturn = [] := by
  rw [List.filter_eq_nil_iff]
  intro st hst
  simp [isReturn_of_hasReturnList h st hst]

/-- The last return shape: none of the earlier shapes applies. -/
theorem returnEmit_otherwise (CSChar : String) (f : Function) (call : Expr) (hra : Bool)
    (hvoid : f.ReturnType.Name ≠ "void") (hcx : f.ReturnType.Name ≠ "cxstring")
    (hbool : ¬(f.ReturnType.Name = "bool" ∧ f.ReturnType.Primitive ≠ ""))
    (hchar : ¬(f.ReturnType.CName = CSChar ∧ f.ReturnType.PointerLevel = 1))
    (htime : f.ReturnType.Name ≠ "time.Time") :
    returnEmit CSChar f call hra =
      if hra then
        { stmts := [.AssignStmt [.Ident "o"] .DEFINE [convCall f call], emptyLineStmt]
          items := [.Ident "o"]
          results := [doField CSChar "" f.ReturnType] }
      else
        { items := [convCall f call]
          results := [doField CSChar "" f.ReturnType] } := by
  simp [returnEmit, hvoid, hcx, hbool, hchar, htime]

/-- C1 (amended): in the last return shape, with at least one output argument, the
return statement lists the output-argument values in parameter order first and the
reshaped foreign-call result `o` last; `o` is bound to the reshaped call. -/
theorem C1_result_listed_last (CSChar : String) (f : Function)
    (hvoid : f.ReturnType.Name ≠ "void") (hcx : f.ReturnType.Name ≠ "cxstring")
    (hbool : ¬(f.ReturnType.Name = "bool" ∧ f.ReturnType.Primitive ≠ ""))
    (hchar : ¬(f.ReturnType.CName = CSChar ∧ f.ReturnType.PointerLevel = 1))
    (htime : f.ReturnType.Name ≠ "time.Time")
    (hout : ∃ i p, f.Parameters[i]? = some p ∧
      isOutputArgument f.Receiver.Name (i, p) = true) :
    (generateAST CSChar f).1.Body.filter Stmt.isReturn
        = [.ReturnStmt (outArgValues f ++ [.Ident "o"])]
      ∧ (generateAST CSChar f).1.Body.getLast?
        = some (.ReturnStmt (outArgValues f ++ [.Ident "o"]))
      ∧ outArgValues f ≠ []
      ∧ Stmt.AssignStmt [.Ident "o"] .DEFINE [convCall f (foreignCall CSChar f)]
          ∈ (generateAST CSChar f).1.Body := by
  have hra : hasOutputArgument f = true := (hasOutputArgument_iff f).mpr hout
  have hne : outArgValues f ≠ [] := by
    obtain ⟨i, p, hp, hio⟩ := hout
    have hmem : (i, p) ∈ outputArguments f := by
      simp [outputArguments, List.mem_filter, List.mk_mem_enum_iff_getElem?, hp, hio]
    intro h
    simp [outArgValues] at h
    simp [h] at hmem
  have hps := filter_isReturn_of_hasReturnList (paramStmts_hasReturn CSChar f)
  rw [generateAST_body, hra, returnEmit_otherwise CSChar f _ true hvoid hcx hbool hchar htime]
  simp [hne, hps, Stmt.isReturn, emptyLineStmt, List.filter_cons]

/-- C1, the claim refuted: for a `uint16` function with one output argument `x` the
return statement is `return uint16(x), o`, so `o` is listed last, not first. -/
theorem C1_result_listed_first_counterexample :
    (exampleOutputArgument.ReturnType.Name ≠ "void"
      ∧ exampleOutputArgument.ReturnType.Name ≠ "cxstring"
      ∧ exampleOutputArgument.ReturnType.Name ≠ "bool"
      ∧ exampleOutputArgument.ReturnType.PointerLevel ≠ 1
      ∧ exampleOutputArgument.ReturnType.Name ≠ "time.Time"
      ∧ hasOutputArgument exampleOutputArgument = true)
    ∧ (generateAST "schar" exampleOutputArgument).1.Body.filter Stmt.isReturn
        = [.ReturnStmt [doCast "uint16" [.Ident "x"], .Ident "o"]]
    ∧ Stmt.ReturnStmt [doCast "uint16" [.Ident "x"], .Ident "o"]
        ≠ .ReturnStmt (.Ident "o" :: outArgValues exampleOutputArgument) := by
  refine ⟨⟨by decide, by decide, by decide, by decide, by decide, rfl⟩, rfl, ?_⟩
  simp [outArgValues, outputArguments, doCast]

/-- C1 (amended) at `exampleOutputArgument`: the return statement is
`return uint16(x), o`. -/
theorem C1_result_listed_last_witness :
    (generateAST "schar" exampleOutputArgument).1.Body.filter Stmt.isReturn
        = [.ReturnStmt (outArgValues exampleOutputArgument ++ [.Ident "o"])]
      ∧ (generateAST "schar" exampleOutputArgument).1.Body.getLast?
        = some (.ReturnStmt (outArgValues exampleOutputArgument ++ [.Ident "o"]))
      ∧ outArgValues exampleOutputArgument ≠ []
      ∧ Stmt.AssignStmt [.Ident "o"] .DEFINE
          [convCall exampleOutputArgument (foreignCall "schar" exampleOutputArgument)]
          ∈ (generateAST "schar" exampleOutputArgument).1.Body :=
  C1_result_listed_last "schar" exampleOutputArgument (by decide) (by decide) (by decide)
    (by decide) (by decide) ⟨0, _, rfl, rfl⟩

/-! ## Nothing to return (C2) -/

theorem hasOutputArgument_eq_false (f : Function)
    (hno : ∀ p ∈ f.Parameters, p.Typ.IsReturnArgument = false) :
    hasOutputArgument f = false := by
  rw [Bool.eq_false_iff]
  intro h
  obtain ⟨i, p, hp, hio⟩ := (hasOutputArgument_iff f).mp h
  have hmem : p ∈ f.Parameters := List.mem_iff_getElem?.mpr ⟨i, hp⟩
  simp [isOutputArgument, hno p hmem] at hio

theorem outputArguments_eq_nil (f : Function) (h : hasOutputArgument f = false) :
    outputArguments f = [] := by
  unfold outputArguments
  rw [List.filter_eq_nil_iff]
  intro ip hip hio
  have : hasOutputArgument f = true := List.any_eq_true.mpr ⟨ip, hip, hio⟩
  simp [h] at this

/-- C2: a `void` function none of whose parameters is an output argument is emitted
with no declared result, without any `return` statement (nested blocks included),
and its body ends with the foreign call as a bare expression statement. -/
theorem C2_void_without_output_arguments (CSChar : String) (f : Function)
    (hvoid : f.ReturnType.Name = "void")
    (hno : ∀ p ∈ f.Parameters, p.Typ.IsReturnArgument = false) :
    (generateAST CSChar f).1.Typ.Results = []
      ∧ hasReturnList (generateAST CSChar f).1.Body = false
      ∧ (generateAST CSChar f).1.Body.getLast? = some (.ExprStmt (foreignCall CSChar f)) := by
  have hra := hasOutputArgument_eq_false f hno
  refine ⟨?_, ?_, ?_⟩
  · rw [generateAST_results]
    simp [hvoid, hra, outArgFields, outputArguments_eq_nil f hra]
  · rw [generateAST_body]
    simp [hvoid, hra, hasReturnList_append, paramStmts_hasReturn, hasReturnList,
      Stmt.hasReturn]
  · rw [generateAST_body]
    simp [hvoid, hra]

/-- C2 at `exampleVoid`, a `void` method with a C-string parameter. -/
theorem C2_void_without_output_arguments_witness :
    (exampleVoid.ReturnType.Name = "void"
      ∧ ∀ p ∈ exampleVoid.Parameters, p.Typ.IsReturnArgument = false)
    ∧ (generateAST "schar" exampleVoid).1.Typ.Results = []
      ∧ hasReturnList (generateAST "schar" exampleVoid).1.Body = false
      ∧ (generateAST "schar" exampleVoid).1.Body.getLast?
          = some (.ExprStmt (foreignCall "schar" exampleVoid)) :=
  ⟨⟨by decide, by decide⟩,
    C2_void_without_output_arguments "schar" exampleVoid (by decide) (by decide)⟩

/-! ## Owned-string results (C3) -/

theorem returnEmit_cxstring (CSChar : String) (f : Function) (call : Expr) (hra : Bool)
    (hcx : f.ReturnType.Name = "cxstring") :
    returnEmit CSChar f call hra =
      { stmts := [ .AssignStmt [.Ident "o"] .DEFINE [doCompose "cxstring" call],
                   .DeferStmt (doCall "o" "Dispose" []), emptyLineStmt ]
        items := [doCall "o" "String" []]
        results := [stringField] } := by
  simp [returnEmit, hcx, stringField, doField]

/-- C3 (amended): for a `cxstring` return type, `o` is bound to the foreign call
wrapped in a `cxstring` composite literal; the return statement lists the values of
the output arguments followed by `o.String()`, and the result list the types of the
output arguments followed by `string`; without output arguments `o.String()` is the
sole return value and `string` the sole declared result. -/
theorem C3_owned_string_return (CSChar : String) (f : Function)
    (hcx : f.ReturnType.Name = "cxstring") :
    Stmt.AssignStmt [.Ident "o"] .DEFINE [doCompose "cxstring" (foreignCall CSChar f)]
        ∈ (generateAST CSChar f).1.Body
      ∧ (generateAST CSChar f).1.Body.filter Stmt.isReturn
          = [.ReturnStmt (outArgValues f ++ [doCall "o" "String" []])]
      ∧ (generateAST CSChar f).1.Body.getLast?
          = some (.ReturnStmt (outArgValues f ++ [doCall "o" "String" []]))
      ∧ (generateAST CSChar f).1.Typ.Results = outArgFields CSChar f ++ [stringField]
      ∧ (hasOutputArgument f = false →
          (generateAST CSChar f).1.Body.filter Stmt.isReturn
              = [.ReturnStmt [doCall "o" "String" []]]
            ∧ (generateAST CSChar f).1.Typ.Results = [stringField]) := by
  have hps := filter_isReturn_of_hasReturnList (paramStmts_hasReturn CSChar f)
  have hv : f.ReturnType.Name ≠ "void" := by rw [hcx]; decide
  rw [generateAST_body, generateAST_results, returnEmit_cxstring CSChar f _ _ hcx]
  refine ⟨?_, ?_, ?_, ?_, ?_⟩
  · simp [hv]
  · simp [hv, hps, Stmt.isReturn, emptyLineStmt, List.filter_cons]
  · simp [hv]
  · simp [hv]
  · intro hra
    simp [hv, hps, Stmt.isReturn, emptyLineStmt, List.filter_cons, outArgValues,
      outArgFields, outputArguments_eq_nil f hra]

/-- C3 (amended) at `exampleString`: without output arguments the body returns
`o.String()` alone and the declared result is `string` alone. -/
theorem C3_owned_string_return_witness :
    exampleString.ReturnType.Name = "cxstring"
      ∧ hasOutputArgument exampleString = false
      ∧ (generateAST "schar" exampleString).1.Body.filter Stmt.isReturn
          = [.ReturnStmt [doCall "o" "String" []]]
      ∧ (generateAST "schar" exampleString).1.Typ.Results = [stringField] :=
  ⟨rfl, rfl, (C3_owned_string_return "schar" exampleString rfl).2.2.2.2 rfl⟩

/-- C3, the claim refuted: a `cxstring` function with an output argument `line`
returns `uint16(line), o.String()` and declares the results `uint16, string`, so
`o.String()` is not the sole return value. -/
theorem C3_sole_return_value_counterexample :
    exampleStringWithOutput.ReturnType.Name = "cxstring"
      ∧ (generateAST "schar" exampleStringWithOutput).1.Body.filter Stmt.isReturn
          = [.ReturnStmt [doCast "uint16" [.Ident "line"], doCall "o" "String" []]]
      ∧ (generateAST "schar" exampleStringWithOutput).1.Typ.Results
          = [{ Names := [], Typ := some (.Ident "uint16") }, stringField]
      ∧ (generateAST "schar" exampleStringWithOutput).1.Body.filter Stmt.isReturn
          ≠ [.ReturnStmt [doCall "o" "String" []]]
      ∧ (generateAST "schar" exampleStringWithOutput).1.Typ.Results ≠ [stringField] := by
  have h1 : (generateAST "schar" exampleStringWithOutput).1.Body.filter Stmt.isReturn
      = [.ReturnStmt [doCast "uint16" [.Ident "line"], doCall "o" "String" []]] := rfl
  have h2 : (generateAST "schar" exampleStringWithOutput).1.Typ.Results
      = [{ Names := [], Typ := some (.Ident "uint16") }, stringField] := rfl
  refine ⟨rfl, h1, h2, ?_, ?_⟩
  · rw [h1]; simp
  · rw [h2]; simp

/-! ## Receiver elision (C4) -/

theorem generateAST_recv (CSChar : String) (f : Function) :
    (generateAST CSChar f).1.Recv =
      if f.Receiver.Name ≠ "" ∧ f.Parameters ≠ [] then
        some [doField CSChar f.Receiver.Name f.Receiver.Typ]
      else none := by
  rw [generateAST_fst, addReturn_eq]
  have h : (midState CSChar f).astFunc.Recv =
      if f.Receiver.Name ≠ "" ∧ f.Parameters ≠ [] then
        some [doField CSChar f.Receiver.Name f.Receiver.Typ]
      else none := by
    simp only [midState, initState]
    by_cases hr : f.Receiver.Name = "" <;> by_cases hp : f.Parameters = [] <;>
      simp [hr, hp, List.length_pos]
  split <;> simpa [addStatement, GenState.emit] using h

theorem generateAST_params (CSChar : String) (f : Function) :
    (generateAST CSChar f).1.Typ.Params =
      if f.Parameters.length != 0 then
        some ((f.Parameters.enum.filter (isDeclaredParam f.Receiver.Name)).map
          (fun ip => doField CSChar ip.2.Name ip.2.Typ))
      else none := by
  rw [generateAST_fst, addReturn_eq]
  have h : (midState CSChar f).astFunc.Typ.Params =
      if f.Parameters.length != 0 then
        some ((f.Parameters.enum.filter (isDeclaredParam f.Receiver.Name)).map
          (fun ip => doField CSChar ip.2.Name ip.2.Typ))
      else none := by
    simp only [midState, paramEmit, finalFunction_recv, declEmits_finalFunction]
    rfl
  split <;> [skip; exact h]
  rw [← h]
  generalize midState CSChar f = s
  rcases s with ⟨⟨recv, name, ⟨params, results⟩, body⟩, retur, args, x, y, z⟩
  have hp : (returnEmit CSChar (finalFunction f) (foreignCall CSChar f) x).params = [] := by
    unfold returnEmit
    repeat' split
    all_goals rfl
  cases params <;> simp [addStatement, GenState.emit, hp]

/-- C4 (amended): the declaration carries a receiver exactly when `Receiver.Name`
is non-empty and there is at least one parameter.  A zero-parameter function with a
designated receiver and a return type without primitive representation that falls
in the last return shape (not `void`, not `cxstring`, not `time.Time`, not a depth-1
character pointer) is emitted without receiver and without parameter list, and its
body is the single statement returning the foreign call wrapped in a composite
literal of the return type. -/
theorem C4_receiver_elision (CSChar : String) (f : Function) :
    ((generateAST CSChar f).1.Recv.isSome = true ↔
        (f.Receiver.Name ≠ "" ∧ f.Parameters ≠ []))
      ∧ (f.Receiver.Name ≠ "" → f.Parameters ≠ [] →
          (generateAST CSChar f).1.Recv
            = some [doField CSChar f.Receiver.Name f.Receiver.Typ])
      ∧ (f.Parameters = [] → f.Receiver.Name ≠ "" → f.ReturnType.Primitive = "" →
          f.ReturnType.Name ≠ "void" → f.ReturnType.Name ≠ "cxstring" →
          f.ReturnType.Name ≠ "time.Time" →
          ¬(f.ReturnType.CName = CSChar ∧ f.ReturnType.PointerLevel = 1) →
          (generateAST CSChar f).1.Recv = none
            ∧ (generateAST CSChar f).1.Typ.Params = none
            ∧ (generateAST CSChar f).1.Body
              = [.ReturnStmt [doCompose f.ReturnType.Name (doCCast f.CName [])]]) := by
  refine ⟨?_, ?_, ?_⟩
  · rw [generateAST_recv]
    split <;> simp_all
  · intro hr hp
    rw [generateAST_recv]
    simp [hr, hp]
  · intro hp hr hprim hvoid hcx htime hchar
    have hra : hasOutputArgument f = false := by simp [hasOutputArgument, hp]
    have hfin : (finalFunction f).Parameters = [] := by
      apply List.length_eq_zero.mp
      rw [finalFunction_length, hp]; rfl
    have hbool : ¬(f.ReturnType.Name = "bool" ∧ f.ReturnType.Primitive ≠ "") := by
      simp [hprim]
    refine ⟨?_, ?_, ?_⟩
    · rw [generateAST_recv]; simp [hp]
    · rw [generateAST_params]; simp [hp]
    · rw [generateAST_body, hra,
        returnEmit_otherwise CSChar f _ false hvoid hcx hbool hchar htime, foreignCall_eq]
      simp [hvoid, paramStmts, paramEmit, hfin, declEmits, callEmits, outArgValues,
        outputArguments, hp, convCall, hprim]

/-- C4 (amended) at `exampleCreateIndex`: a free function whose body is
`return Index{C.clang_create_index()}`. -/
theorem C4_receiver_elision_witness :
    (exampleCreateIndex.Parameters = [] ∧ exampleCreateIndex.Receiver.Name ≠ ""
      ∧ exampleCreateIndex.ReturnType.Primitive = "")
    ∧ (generateAST "schar" exampleCreateIndex).1.Recv = none
    ∧ (generateAST "schar" exampleCreateIndex).1.Typ.Params = none
    ∧ (generateAST "schar" exampleCreateIndex).1.Body
        = [.ReturnStmt [doCompose "Index" (doCCast "clang_create_index" [])]] :=
  ⟨⟨rfl, by decide, rfl⟩,
    (C4_receiver_elision "schar" exampleCreateIndex).2.2 rfl (by decide) rfl (by decide)
      (by decide) (by decide) (by decide)⟩

/-- C4, the claim refuted: zero-parameter functions with a designated receiver and a
non-`void` return type without primitive representation whose bodies do not return
the foreign call wrapped in a composite literal of the return type.  For `cxstring`
the body returns `o.String()`; for `time.Time` it returns
`time.Unix(int64(C.clang_getTime()), 0)`. -/
theorem C4_composite_literal_counterexample :
    (exampleVersion.Parameters = [] ∧ exampleVersion.Receiver.Name ≠ ""
        ∧ exampleVersion.ReturnType.Primitive = "" ∧ exampleVersion.ReturnType.Name ≠ "void"
        ∧ (generateAST "schar" exampleVersion).1.Body.filter Stmt.isReturn
            = [.ReturnStmt [doCall "o" "String" []]]
        ∧ (generateAST "schar" exampleVersion).1.Body.filter Stmt.isReturn
            ≠ [.ReturnStmt [doCompose "cxstring" (doCCast "clang_getClangVersion" [])]])
      ∧ (exampleTime.Parameters = [] ∧ exampleTime.Receiver.Name ≠ ""
        ∧ exampleTime.ReturnType.Primitive = "" ∧ exampleTime.ReturnType.Name ≠ "void"
        ∧ (generateAST "schar" exampleTime).1.Body
            = [.ReturnStmt
                [doCall "time" "Unix" [doCast "int64" [doCCast "clang_getTime" []], doZero]]]
        ∧ (generateAST "schar" exampleTime).1.Body
            ≠ [.ReturnStmt [doCompose "time.Time" (doCCast "clang_getTime" [])]]) := by
  have h1 : (generateAST "schar" exampleVersion).1.Body.filter Stmt.isReturn
      = [.ReturnStmt [doCall "o" "String" []]] := rfl
  have h2 : (generateAST "schar" exampleTime).1.Body
      = [.ReturnStmt
          [doCall "time" "Unix" [doCast "int64" [doCCast "clang_getTime" []], doZero]]] := rfl
  refine ⟨⟨rfl, by decide, rfl, by decide, h1, ?_⟩,
    ⟨rfl, by decide, rfl, by decide, h2, ?_⟩⟩
  · rw [h1]; simp [doCall, doCompose]
  · rw [h2]; simp [doCall, doCompose]

/-! ## Slice parameters (C5) -/

theorem infix_flatMap_of_mem {α β : Type} (g : α → List β) {a : α} {l : List α}
    (h : a ∈ l) : g a <:+: l.flatMap g := by
  induction l with
  | nil => simp at h
  | cons b l ih =>
    rw [List.flatMap_cons]
    rcases List.mem_cons.mp h with rfl | hl
    · exact List.infix_append' [] _ _
    · exact (ih hl).trans (List.suffix_append _ _).isInfix

theorem finalFunction_getElem? (f : Function) (i : Nat)
    (h : i ≠ 0 ∨ f.Receiver.Name = "") :
    (finalFunction f).Parameters[i]? = f.Parameters[i]? := by
  unfold finalFunction
  by_cases hr : f.Receiver.Name = ""
  · simp [hr]
  · have hi : i ≠ 0 := h.resolve_right hr
    cases hp : f.Parameters with
    | nil => simp [hp]
    | cons p ps =>
      obtain ⟨j, rfl⟩ := Nat.exists_eq_succ_of_ne_zero hi
      simp [hr, hp, setFirstName]

theorem foreignCall_arg (CSChar : String) (f : Function) (i : Nat) (p : FunctionParameter)
    (hp : (finalFunction f).Parameters[i]? = some p) :
    ∃ args, foreignCall CSChar f = doCCast f.CName args
      ∧ args.length = f.Parameters.length ∧ args[i]? = some (callArg CSChar p) := by
  refine ⟨(finalFunction f).Parameters.map (callArg CSChar), foreignCall_eq CSChar f, ?_, ?_⟩
  · rw [List.length_map, finalFunction_length]
  · rw [List.getElem?_map, hp]; rfl

theorem paramStmts_infix_body (CSChar : String) (f : Function) :
    paramStmts CSChar f <:+: (generateAST CSChar f).1.Body := by
  rw [generateAST_body]
  split
  · rw [List.append_assoc]; exact List.infix_append' [] _ _
  · exact List.infix_append' [] _ _

theorem declStmts_infix_body (CSChar : String) (f : Function) (i : Nat)
    (p : FunctionParameter) (hp : f.Parameters[i]? = some p) :
    (declEmit CSChar f.Receiver.Name (i, p)).stmts <:+: (generateAST CSChar f).1.Body := by
  refine List.IsInfix.trans ?_ (paramStmts_infix_body CSChar f)
  have hmem : (i, p) ∈ f.Parameters.enum := List.mk_mem_enum_iff_getElem?.mpr hp
  have h1 := infix_flatMap_of_mem (fun ip => (declEmit CSChar f.Receiver.Name ip).stmts) hmem
  refine h1.trans ?_
  simp only [paramStmts, paramEmit, finalFunction_recv]
  rw [declEmits_finalFunction]
  simp only [declEmits, List.append_assoc]
  exact List.infix_append' [] _ _

/-! ## Boolean results (C6) -/

theorem returnEmit_bool (CSChar : String) (f : Function) (call : Expr) (hra : Bool)
    (hb : f.ReturnType.Name = "bool") (hp : f.ReturnType.Primitive ≠ "") :
    returnEmit CSChar f call hra =
      { stmts := [.AssignStmt [.Ident "o"] .DEFINE [call], emptyLineStmt]
        items := [.BinaryExpr (.Ident "o") .NEQ (doCCast f.ReturnType.Primitive [doZero])]
        results := [doField CSChar "" f.ReturnType] } := by
  simp [returnEmit, hb, hp]

/-- C6: for a boolean-from-primitive return type (`Name = bool`, `Primitive = P`
non-empty) the body ends with the binding of `o` to the raw foreign call, an empty
line and the return statement, whose last value is the comparison `o != C.P(0)`; the
statements before them hold no `return`.  When the descriptor is that of a plain
value, neither flagged as slice nor a character pointer, the declared result for that
value, the last one, is `bool`; output arguments come first in both lists. -/
theorem C6_bool_from_primitive (CSChar : String) (f : Function)
    (hb : f.ReturnType.Name = "bool") (hp : f.ReturnType.Primitive ≠ "") :
    (generateAST CSChar f).1.Body
        = paramStmts CSChar f ++
          [ .AssignStmt [.Ident "o"] .DEFINE [foreignCall CSChar f],
            emptyLineStmt,
            .ReturnStmt (outArgValues f ++
              [.BinaryExpr (.Ident "o") .NEQ (doCCast f.ReturnType.Primitive [doZero])]) ]
      ∧ hasReturnList (paramStmts CSChar f) = false
      ∧ (outArgValues f).length = (outArgFields CSChar f).length
      ∧ (f.ReturnType.IsSlice = false →
          ¬(f.ReturnType.PointerLevel > 0 ∧ f.ReturnType.CName = CSChar) →
          (generateAST CSChar f).1.Typ.Results = outArgFields CSChar f ++ [boolField]) := by
  have hv : f.ReturnType.Name ≠ "void" := by rw [hb]; decide
  rw [generateAST_body, generateAST_results, returnEmit_bool CSChar f _ _ hb hp]
  refine ⟨?_, paramStmts_hasReturn CSChar f, ?_, ?_⟩
  · simp [hv]
  · simp [outArgValues, outArgFields]
  · intro hs hc
    simp [hv, doField, hb, hs, hc, boolField]

/-- C6 at `exampleBool`: the body binds `o`, returns `o != C.int(0)`, and the declared
result is `bool`. -/
theorem C6_bool_from_primitive_witness :
    (exampleBool.ReturnType.Name = "bool" ∧ exampleBool.ReturnType.Primitive ≠ ""
        ∧ exampleBool.ReturnType.IsSlice = false
        ∧ ¬(exampleBool.ReturnType.PointerLevel > 0 ∧ exampleBool.ReturnType.CName = "schar"))
      ∧ (generateAST "schar" exampleBool).1.Body
          = [ .AssignStmt [.Ident "o"] .DEFINE [doCCast "clang_isConst" [accessMember "t" "c"]],
              emptyLineStmt,
              .ReturnStmt [.BinaryExpr (.Ident "o") .NEQ (doCCast "int" [doZero])] ]
      ∧ (generateAST "schar" exampleBool).1.Typ.Results = [boolField] :=
  ⟨⟨rfl, by decide, rfl, by decide⟩,
    (C6_bool_from_primitive "schar" exampleBool rfl (by decide)).1,
    (C6_bool_from_primitive "schar" exampleBool rfl (by decide)).2.2.2 rfl (by decide)⟩

/-- The descriptors the last part of the statement above leaves out: a
boolean-from-primitive return type flagged as slice is declared `[]bool`, one that
is a character pointer is declared `string` (`doField`, lines 180-194), while the
returned value stays the comparison. -/
theorem bool_result_of_flagged_descriptor :
    (generateAST "schar" exampleBoolSlice).1.Typ.Results
        = [{ Names := [], Typ := some (.ArrayType (.Ident "bool")) }]
      ∧ (generateAST "schar" exampleBoolCharPointer).1.Typ.Results
        = [{ Names := [], Typ := some (.Ident "string") }] :=
  ⟨rfl, rfl⟩

/-! ## Length parameters (C7) -/

theorem finalFunction_getElem?_typ (f : Function) (i : Nat) (p : FunctionParameter)
    (hp : f.Parameters[i]? = some p) :
    ∃ q, (finalFunction f).Parameters[i]? = some q ∧ q.Typ = p.Typ := by
  by_cases h : i ≠ 0 ∨ f.Receiver.Name = ""
  · exact ⟨p, by rw [finalFunction_getElem? f i h, hp], rfl⟩
  · have hi : i = 0 := by
      by_contra hne
      exact h (Or.inl hne)
    subst hi
    cases hps : f.Parameters with
    | nil => simp [hps] at hp
    | cons a l =>
      have ha : a = p := by simpa [hps] using hp
      subst ha
      unfold finalFunction
      by_cases hr : f.Receiver.Name = ""
      · exact ⟨a, by simp [hr, hps], rfl⟩
      · exact ⟨{ a with Name := f.Receiver.Name }, by simp [hr, hps, setFirstName], rfl⟩

/-- The branch of lines 567-576: for a length-of-slice parameter that is not itself a
slice or a return argument and whose type names a foreign primitive other than
`cxstring` and is not a depth-1 character pointer, the argument at its position in
the foreign call is `C.<Primitive>(len(s))`, with `s` the slice named by
`LengthOfSlice`. -/
theorem length_argument (CSChar : String) (f : Function) (i : Nat)
    (p : FunctionParameter) (hp : f.Parameters[i]? = some p)
    (hl : p.Typ.LengthOfSlice ≠ "") (hs : p.Typ.IsSlice = false)
    (hprim : p.Typ.Primitive ≠ "") (hcx : p.Typ.Primitive ≠ "cxstring")
    (hchar : ¬(p.Typ.PointerLevel = 1 ∧ p.Typ.CName = CSChar))
    (hret : p.Typ.IsReturnArgument = false) :
    ∃ args, foreignCall CSChar f = doCCast f.CName args
      ∧ args.length = f.Parameters.length
      ∧ args[i]? = some (doCCast p.Typ.Primitive
          [doCast "len" [.Ident p.Typ.LengthOfSlice]]) := by
  obtain ⟨q, hq, hqt⟩ := finalFunction_getElem?_typ f i p hp
  obtain ⟨args, h1, h2, h3⟩ := foreignCall_arg CSChar f i q hq
  refine ⟨args, h1, h2, ?_⟩
  rw [h3]
  simp [callArg, callArgBase, hqt, hl, hs, hprim, hcx, hchar, hret]

/-- The length parameter `numFiles` of `exampleSlice`, of the primitive type `uint`:
the argument is `C.uint(len(files))`. -/
theorem length_argument_example :
    ∃ args, foreignCall "schar" exampleSlice = doCCast "clang_parse" args
      ∧ args.length = 2
      ∧ args[1]? = some (doCCast "uint" [doCast "len" [.Ident "files"]]) :=
  length_argument "schar" exampleSlice 1
    { Name := "numFiles",
      Typ := { Name := "uint16", Primitive := "uint", LengthOfSlice := "files" } }
    rfl (by decide) rfl (by decide) (by decide) (by decide) rfl

/-- C7 at the failing input: the slice `files` and its length parameter `numFiles`,
whose type `Count` has no primitive representation.  The first loop leaves
`numFiles` undeclared (line 255: length parameters are filled by the slice itself),
but the second loop reaches the length test of line 567 only inside the branch for
primitives: the foreign call receives `numFiles.c`, built from the parameter's own
name, and not a cast of `len(files)`. -/
theorem C7_length_argument_own_name :
    exampleLengthStruct.Parameters[1]?
        = some { Name := "numFiles", Typ := { Name := "Count", LengthOfSlice := "files" } }
      ∧ (generateAST "schar" exampleLengthStruct).1.Typ.Params
        = some [{ Names := ["files"], Typ := some (.ArrayType (.Ident "File")) }]
      ∧ (generateAST "schar" exampleLengthStruct).1.Body.getLast?
        = some (.ExprStmt
            (doCCast "clang_parse" [.Ident "cp_files", accessMember "numFiles" "c"]))
      ∧ foreignCall "schar" exampleLengthStruct
        = doCCast "clang_parse" [.Ident "cp_files", accessMember "numFiles" "c"]
      ∧ (∀ typ : String, foreignCall "schar" exampleLengthStruct
          ≠ doCCast "clang_parse"
              [.Ident "cp_files", doCCast typ [doCast "len" [.Ident "files"]]]) := by
  have h : foreignCall "schar" exampleLengthStruct
      = doCCast "clang_parse" [.Ident "cp_files", accessMember "numFiles" "c"] := rfl
  refine ⟨rfl, rfl, rfl, h, ?_⟩
  intro typ
  rw [h]
  simp [doCCast, doCall, accessMember]

/-! ## The declared signature (C8) -/

theorem classes_length (r : String) (l : List (Nat × FunctionParameter)) :
    (l.filter (isDeclaredParam r)).length + (l.filter (isOutputArgument r)).length
        + (l.filter (isLengthParam r)).length
      = (l.filter (fun ip => !isReceiverParam r ip)).length := by
  induction l with
  | nil => rfl
  | cons ip l ih =>
    rcases Bool.eq_false_or_eq_true (isReceiverParam r ip) with h0 | h0 <;>
      by_cases hl : ip.2.Typ.LengthOfSlice = "" <;>
      rcases Bool.eq_false_or_eq_true ip.2.Typ.IsSlice with hs | hs <;>
      rcases Bool.eq_false_or_eq_true ip.2.Typ.IsReturnArgument with hr | hr <;>
      simp [List.filter_cons, isDeclaredParam, isOutputArgument, isLengthParam, h0, hl, hs,
        hr] <;>
      omega

theorem nonReceiverParams_length (f : Function) :
    (nonReceiverParams f).length =
      f.Parameters.length - (if f.Receiver.Name ≠ "" ∧ f.Parameters ≠ [] then 1 else 0) := by
  unfold nonReceiverParams
  cases hp : f.Parameters with
  | nil => simp
  | cons p ps =>
    have htail : (ps.enumFrom 1).filter (fun ip => !isReceiverParam f.Receiver.Name ip)
        = ps.enumFrom 1 := by
      rw [List.filter_eq_self]
      intro ip hip
      have := List.le_fst_of_mem_enumFrom hip
      have hne : ip.1 ≠ 0 := by omega
      simp [isReceiverParam, hne]
    rw [List.enum_cons, List.filter_cons, htail]
    by_cases hr : f.Receiver.Name = "" <;> simp [isReceiverParam, hr]

theorem filter_nonReceiverParams (f : Function) (q : Nat × FunctionParameter → Bool)
    (hq : ∀ ip, q ip = true → isReceiverParam f.Receiver.Name ip = false) :
    (nonReceiverParams f).filter q = f.Parameters.enum.filter q := by
  unfold nonReceiverParams
  rw [List.filter_filter]
  apply List.filter_congr
  intro ip _
  cases h : q ip
  · rfl
  · simp [hq ip h]

theorem returnEmit_results_length (CSChar : String) (f : Function) (call : Expr)
    (hra : Bool) : (returnEmit CSChar f call hra).results.length ≤ 1 := by
  unfold returnEmit
  repeat' split
  all_goals simp

/-- C8: every non-receiver parameter is accounted for exactly once in the declared
signature.  In the order in which the first loop tests them: a length-of-slice
parameter is neither declared nor a result; otherwise a non-slice output argument is
one declared result, typed `string` for `cxstring`, and no declared parameter;
every other parameter is one declared parameter.  The declared parameters and the
results of the output arguments keep the parameter order, at most one further result
follows for the return type, and the three classes add up to the non-receiver
parameters. -/
theorem C8_signature_accounting (CSChar : String) (f : Function) :
    (∀ ip ∈ nonReceiverParams f,
        (ip.2.Typ.LengthOfSlice ≠ "" →
          isLengthParam f.Receiver.Name ip = true ∧ isDeclaredParam f.Receiver.Name ip = false
            ∧ isOutputArgument f.Receiver.Name ip = false)
        ∧ (ip.2.Typ.LengthOfSlice = "" → ip.2.Typ.IsSlice = false →
            ip.2.Typ.IsReturnArgument = true →
          isLengthParam f.Receiver.Name ip = false ∧ isDeclaredParam f.Receiver.Name ip = false
            ∧ isOutputArgument f.Receiver.Name ip = true)
        ∧ (ip.2.Typ.LengthOfSlice = "" →
            (ip.2.Typ.IsSlice = true ∨ ip.2.Typ.IsReturnArgument = false) →
          isLengthParam f.Receiver.Name ip = false ∧ isDeclaredParam f.Receiver.Name ip = true
            ∧ isOutputArgument f.Receiver.Name ip = false))
      ∧ (generateAST CSChar f).1.Typ.Params.getD []
          = ((nonReceiverParams f).filter (isDeclaredParam f.Receiver.Name)).map
              (fun ip => doField CSChar ip.2.Name ip.2.Typ)
      ∧ (∃ ret, (generateAST CSChar f).1.Typ.Results
          = ((nonReceiverParams f).filter (isOutputArgument f.Receiver.Name)).map
              (fun ip => outArgField CSChar ip.2) ++ ret ∧ ret.length ≤ 1)
      ∧ ((generateAST CSChar f).1.Typ.Params.getD []).length
          + ((nonReceiverParams f).filter (isOutputArgument f.Receiver.Name)).length
          + ((nonReceiverParams f).filter (isLengthParam f.Receiver.Name)).length
        = (nonReceiverParams f).length
      ∧ (nonReceiverParams f).length
        = f.Parameters.length
            - (if f.Receiver.Name ≠ "" ∧ f.Parameters ≠ [] then 1 else 0) := by
  have hdecl := filter_nonReceiverParams f (isDeclaredParam f.Receiver.Name)
    (by intro ip h; cases h0 : isReceiverParam f.Receiver.Name ip <;>
          simp_all [isDeclaredParam])
  have hout := filter_nonReceiverParams f (isOutputArgument f.Receiver.Name)
    (by intro ip h; cases h0 : isReceiverParam f.Receiver.Name ip <;>
          simp_all [isOutputArgument])
  have hparams : (generateAST CSChar f).1.Typ.Params.getD []
      = ((nonReceiverParams f).filter (isDeclaredParam f.Receiver.Name)).map
          (fun ip => doField CSChar ip.2.Name ip.2.Typ) := by
    rw [generateAST_params, hdecl]
    by_cases hp : f.Parameters = []
    · simp [hp]
    · have : f.Parameters.length ≠ 0 := fun h => hp (List.length_eq_zero.mp h)
      simp [this]
  refine ⟨?_, hparams, ?_, ?_, nonReceiverParams_length f⟩
  · intro ip hip
    have h0 : isReceiverParam f.Receiver.Name ip = false := by
      have := (List.mem_filter.mp hip).2
      simpa using this
    refine ⟨?_, ?_, ?_⟩
    · intro hl
      simp [isLengthParam, isDeclaredParam, isOutputArgument, h0, hl]
    · intro hl hs hr
      simp [isLengthParam, isDeclaredParam, isOutputArgument, h0, hl, hs, hr]
    · intro hl hsr
      rcases hsr with hs | hr
      · simp [isLengthParam, isDeclaredParam, isOutputArgument, h0, hl, hs]
      · simp [isLengthParam, isDeclaredParam, isOutputArgument, h0, hl, hr]
  · rw [generateAST_results, hout]
    split
    · exact ⟨_, rfl, returnEmit_results_length CSChar f _ _⟩
    · exact ⟨[], by simp [outArgFields, outputArguments], by simp⟩
  · rw [hparams, List.length_map]
    have h := classes_length f.Receiver.Name (nonReceiverParams f)
    have hall : (nonReceiverParams f).filter (fun ip => !isReceiverParam f.Receiver.Name ip)
        = nonReceiverParams f := by
      unfold nonReceiverParams
      rw [List.filter_filter]
      apply List.filter_congr
      intro ip _
      simp
    rw [hall] at h
    exact h

/-! ## The record behind `f` (C9, C10) -/

theorem finalFunction_idem (f : Function) : finalFunction (finalFunction f) = finalFunction f := by
  unfold finalFunction
  by_cases hr : f.Receiver.Name = ""
  · simp [hr]
  · cases hp : f.Parameters with
    | nil => simp [hp]
    | cons p ps => simp [hr, hp, setFirstName]

theorem initState_finalFunction (CSChar : String) (f : Function) :
    initState CSChar (finalFunction f) = initState CSChar f := by
  have hn : (finalFunction f).Name = f.Name := by
    unfold finalFunction; split <;> [split; skip] <;> rfl
  unfold initState
  rw [finalFunction_recv, finalFunction_length, hn]

theorem generateAST_finalFunction (CSChar : String) (f : Function) :
    generateAST CSChar (finalFunction f) = generateAST CSChar f := by
  unfold generateAST foreignCall
  simp only [finalFunction_idem, initState_finalFunction]

theorem generateASTFunction_snd (CSChar : String)
    (formatNode : FuncDecl → Except String String) (f : Function) :
    (generateASTFunction CSChar formatNode f).2 = finalFunction f := by
  unfold generateASTFunction
  dsimp only
  split <;> rfl

/-- C9: synthesizing `f` and then the record as the first call left it yields the
same result, and leaves the record as it was after the first call. -/
theorem C9_idempotent (CSChar : String) (formatNode : FuncDecl → Except String String)
    (f : Function) :
    (generateASTFunction CSChar formatNode (generateASTFunction CSChar formatNode f).2).1
        = (generateASTFunction CSChar formatNode f).1
      ∧ (generateASTFunction CSChar formatNode (generateASTFunction CSChar formatNode f).2).2
        = (generateASTFunction CSChar formatNode f).2 := by
  have h2 := generateASTFunction_snd CSChar formatNode f
  have h : generateASTFunction CSChar formatNode (finalFunction f)
      = generateASTFunction CSChar formatNode f := by
    unfold generateASTFunction
    rw [generateAST_finalFunction]
  rw [h2, h]
  exact ⟨rfl, h2⟩

/-- C10 (amended): the call leaves every field of `f` unchanged except the name of
the first parameter, which is overwritten with `Receiver.Name` when that is
non-empty; the other parameters are unchanged, and so is `f` as a whole when
`Receiver.Name` is empty or there is no parameter. -/
theorem C10_frame (CSChar : String) (formatNode : FuncDecl → Except String String)
    (f : Function) :
    (generateASTFunction CSChar formatNode f).2
        = { f with Parameters :=
              if f.Receiver.Name ≠ "" then setFirstName f.Parameters f.Receiver.Name
              else f.Parameters }
      ∧ (∀ p ps, f.Parameters = p :: ps → f.Receiver.Name ≠ "" →
          (generateASTFunction CSChar formatNode f).2.Parameters
            = { p with Name := f.Receiver.Name } :: ps)
      ∧ (f.Receiver.Name = "" ∨ f.Parameters = [] →
          (generateASTFunction CSChar formatNode f).2 = f) := by
  have h2 := generateASTFunction_snd CSChar formatNode f
  rw [h2]
  refine ⟨?_, ?_, ?_⟩
  · unfold finalFunction
    by_cases hr : f.Receiver.Name = ""
    · simp [hr]
    · cases hp : f.Parameters with
      | nil =>
        rcases f with ⟨n, c, m, ps, rt, rc, mb⟩
        simp only at hp
        subst hp
        simp [setFirstName]
      | cons p ps => simp [hr, hp]
  · intro p ps hp hr
    simp [finalFunction, hp, hr, setFirstName]
  · rintro (hr | hp)
    · simp [finalFunction, hr]
    · simp [finalFunction, hp]

/-- C10 (amended) at `exampleVoid`: the first parameter is renamed to `i`, the second
is untouched. -/
theorem C10_frame_witness :
    (exampleVoid.Receiver.Name ≠ "")
      ∧ (generateASTFunction "schar" formatName exampleVoid).2.Parameters
        = [ { Name := "i", Typ := { Name := "Index" } },
            { Name := "path", Typ := { Name := "int8", CName := "schar", Primitive := "schar",
                                       PointerLevel := 1 } } ] :=
  ⟨by decide,
    (C10_frame "schar" formatName exampleVoid).2.1 _ _ rfl (by decide)⟩

/-- C10, the claim refuted: with the receiver `i` designated, the call renames the
first parameter of the record from `index` to `i`. -/
theorem C10_unchanged_counterexample :
    (exampleVoid.Parameters.map (fun p => p.Name) = ["index", "path"])
      ∧ ((generateASTFunction "schar" formatName exampleVoid).2.Parameters.map
          (fun p => p.Name) = ["i", "path"])
      ∧ (generateASTFunction "schar" formatName exampleVoid).2 ≠ exampleVoid := by
  refine ⟨rfl, rfl, ?_⟩
  decide

/-! ## Trimming strings (naming.go) -/

theorem TrimPrefix_matched (s pre : String) (h : pre.data <+: s.data) :
    s.data = pre.data ++ (TrimPrefix s pre).data := by
  obtain ⟨t, ht⟩ := h
  have hp : pre.data.isPrefixOf s.data = true := List.isPrefixOf_iff_prefix.mpr ⟨t, ht⟩
  simp [TrimPrefix, hp, ← ht]

theorem TrimPrefix_unmatched (s pre : String) (h : ¬ pre.data <+: s.data) :
    TrimPrefix s pre = s := by
  have hp : pre.data.isPrefixOf s.data = false := by
    rw [Bool.eq_false_iff]
    exact fun hc => h (List.isPrefixOf_iff_prefix.mp hc)
  simp [TrimPrefix, hp]

theorem TrimPrefix_suffix (s pre : String) : (TrimPrefix s pre).data <:+ s.data := by
  unfold TrimPrefix
  split
  · exact List.drop_suffix _ _
  · exact List.suffix_refl _

theorem TrimPrefix_empty (pre : String) : TrimPrefix "" pre = "" := by
  have h := TrimPrefix_suffix "" pre
  have hd : (TrimPrefix "" pre).data = [] := List.suffix_nil.mp h
  exact String.ext hd

theorem TrimLanguagePrefix_suffix (name : String) :
    (TrimLanguagePrefix name).data <:+ name.data := by
  unfold TrimLanguagePrefix
  exact (TrimPrefix_suffix _ _).trans <| (TrimPrefix_suffix _ _).trans <|
    (TrimPrefix_suffix _ _).trans <| (TrimPrefix_suffix _ _).trans (TrimPrefix_suffix _ _)

theorem trimGet_suffix (IsUpper : Char → Bool) (name : String) :
    (trimGet IsUpper name).data <:+ name.data := by
  unfold trimGet
  split
  · exact TrimPrefix_suffix _ _
  · exact List.suffix_refl _

theorem TrimCommonFunctionNamePrefix_suffix (IsUpper : Char → Bool) (name : String) :
    (TrimCommonFunctionNamePrefix IsUpper name).data <:+ name.data := by
  unfold TrimCommonFunctionNamePrefix
  exact (TrimLanguagePrefix_suffix _).trans <| (trimGet_suffix _ _).trans <|
    (TrimPrefix_suffix _ _).trans (TrimPrefix_suffix _ _)

theorem trimOwner_suffix (name g : String) : (trimOwner name g).data <:+ name.data := by
  unfold trimOwner
  split
  · exact TrimPrefix_suffix _ _
  · split
    · exact TrimPrefix_suffix _ _
    · exact List.suffix_refl _

theorem trimSteps_suffix_trimmed (IsUpper : Char → Bool) (name : String) (typ : GenType) :
    (trimSteps IsUpper name typ).data
      <:+ (TrimCommonFunctionNamePrefix IsUpper name).data := by
  unfold trimSteps
  refine (TrimCommonFunctionNamePrefix_suffix _ _).trans ?_
  dsimp only
  split
  · exact (trimOwner_suffix _ _).trans (trimOwner_suffix _ _)
  · exact trimOwner_suffix _ _

theorem trimSteps_suffix (IsUpper : Char → Bool) (name : String) (typ : GenType) :
    (trimSteps IsUpper name typ).data <:+ name.data :=
  (trimSteps_suffix_trimmed IsUpper name typ).trans
    (TrimCommonFunctionNamePrefix_suffix IsUpper name)

theorem foldl_TrimPrefix_removed (lits : List String) (s : String) :
    ∃ removed : List String, removed.Sublist lits
      ∧ s.data = removed.flatMap String.data ++ (lits.foldl TrimPrefix s).data := by
  induction lits generalizing s with
  | nil => exact ⟨[], List.Sublist.slnil, by simp⟩
  | cons p lits ih =>
    obtain ⟨removed, hsub, heq⟩ := ih (TrimPrefix s p)
    by_cases hp : p.data <+: s.data
    · refine ⟨p :: removed, hsub.cons₂ p, ?_⟩
      rw [List.foldl_cons, List.flatMap_cons, List.append_assoc, ← heq]
      exact TrimPrefix_matched s p hp
    · refine ⟨removed, hsub.cons p, ?_⟩
      rw [List.foldl_cons, ← heq, TrimPrefix_unmatched s p hp]

/-- C18: `TrimLanguagePrefix` tries `CX_CXX`, `CXX`, `CX`, `ObjC` and `_` in that
order, each once: a literal that is a prefix of what is left at its turn is removed,
another one leaves the name as it is.  So the name is the removed literals, a
sublist of the five in their order, followed by the result; the result is a suffix
of the name; and `CXCXFoo` becomes `CXFoo`. -/
theorem C18_language_prefix (name : String) :
    TrimLanguagePrefix name = ["CX_CXX", "CXX", "CX", "ObjC", "_"].foldl TrimPrefix name
      ∧ (∀ s pre : String,
          (pre.data <+: s.data → s.data = pre.data ++ (TrimPrefix s pre).data)
            ∧ (¬ pre.data <+: s.data → TrimPrefix s pre = s))
      ∧ (∃ removed : List String,
          removed.Sublist ["CX_CXX", "CXX", "CX", "ObjC", "_"]
            ∧ name.data = removed.flatMap String.data ++ (TrimLanguagePrefix name).data)
      ∧ (TrimLanguagePrefix name).data <:+ name.data
      ∧ TrimLanguagePrefix "CXCXFoo" = "CXFoo" := by
  have hfold : TrimLanguagePrefix name
      = ["CX_CXX", "CXX", "CX", "ObjC", "_"].foldl TrimPrefix name := rfl
  refine ⟨hfold, ?_, ?_, TrimLanguagePrefix_suffix name, by decide⟩
  · exact fun s pre => ⟨TrimPrefix_matched s pre, TrimPrefix_unmatched s pre⟩
  · rw [hfold]
    exact foldl_TrimPrefix_removed _ name

/-- C12: when the trimming steps leave nothing the result is `typ.GoName`; the result
is non-empty whenever `typ.GoName` is; and when the trimming steps leave something,
or `typ.GoName` is empty, the result is what they leave, a suffix of `name`. -/
theorem C12_constructor_fallback (IsUpper : Char → Bool) (name : String) (typ : GenType) :
    (trimSteps IsUpper name typ = "" →
        TrimCommonFunctionName IsUpper name typ = typ.GoName)
      ∧ (typ.GoName ≠ "" → TrimCommonFunctionName IsUpper name typ ≠ "")
      ∧ (trimSteps IsUpper name typ ≠ "" →
          TrimCommonFunctionName IsUpper name typ = trimSteps IsUpper name typ
            ∧ (TrimCommonFunctionName IsUpper name typ).data <:+ name.data)
      ∧ (typ.GoName = "" →
          (TrimCommonFunctionName IsUpper name typ).data <:+ name.data) := by
  unfold TrimCommonFunctionName
  by_cases h : trimSteps IsUpper name typ = ""
  · simp [h]
    intro hg
    simp [hg]
  · simp [h]
    exact ⟨trimSteps_suffix IsUpper name typ, fun _ => trimSteps_suffix IsUpper name typ⟩

/-! ## The owner's own name (C11) -/

theorem utf8Bytes_ne_nil (c : Char) : utf8Bytes c ≠ [] := by
  unfold utf8Bytes
  dsimp only
  split
  · simp
  · split
    · simp
    · split <;> simp

theorem len_eq_zero {s : String} (h : len s = 0) : s = "" := by
  apply String.ext
  cases hd : s.data with
  | nil => rfl
  | cons c l =>
    have h0 : (goBytes s).length = 0 := h
    rw [goBytes, hd, List.flatMap_cons, List.length_append] at h0
    have := utf8Bytes_ne_nil c
    have hl : (utf8Bytes c).length = 0 := by omega
    exact absurd (List.length_eq_zero.mp hl) this

theorem trimOwner_empty (g : String) : trimOwner "" g = "" := by
  unfold trimOwner
  simp [TrimPrefix_empty]

theorem trimOwner_self (g : String) : trimOwner g g = "" := by
  have h1 : TrimPrefix g (g ++ "_") = g := by
    apply TrimPrefix_unmatched
    intro h
    have := h.length_le
    simp at this
  have h2 : TrimPrefix g g = "" := by
    have h := TrimPrefix_matched g g (List.prefix_refl _)
    apply String.ext
    exact List.self_eq_append_right.mp h
  unfold trimOwner
  rw [h1, h2]
  by_cases hg : len g = 0
  · simp [len_eq_zero hg]
  · have : len "" = 0 := rfl
    simp [this, hg]
    intro h
    exact absurd h.symm hg

theorem TrimCommonFunctionNamePrefix_empty (IsUpper : Char → Bool) :
    TrimCommonFunctionNamePrefix IsUpper "" = "" :=
  String.ext (List.suffix_nil.mp (TrimCommonFunctionNamePrefix_suffix IsUpper ""))

theorem trimSteps_of_fixed (IsUpper : Char → Bool) (typ : GenType)
    (h : TrimCommonFunctionNamePrefix IsUpper typ.GoName = typ.GoName) :
    trimSteps IsUpper typ.GoName typ = "" := by
  unfold trimSteps
  simp only [h, trimOwner_self, trimOwner_empty, ite_self,
    TrimCommonFunctionNamePrefix_empty]

/-- C11 (amended): trimming the owner's own name against the owner returns the owner
name when `TrimCommonFunctionNamePrefix` leaves that name unchanged; in general it
does so exactly when the prefix trimming leaves the name unchanged or the trimming
steps leave nothing of it. -/
theorem C11_owner_round_trip (IsUpper : Char → Bool) (typ : GenType) :
    (TrimCommonFunctionNamePrefix IsUpper typ.GoName = typ.GoName →
        TrimCommonFunctionName IsUpper typ.GoName typ = typ.GoName)
      ∧ (TrimCommonFunctionName IsUpper typ.GoName typ = typ.GoName ↔
          (TrimCommonFunctionNamePrefix IsUpper typ.GoName = typ.GoName
            ∨ trimSteps IsUpper typ.GoName typ = "")) := by
  have hempty : trimSteps IsUpper typ.GoName typ = "" →
      TrimCommonFunctionName IsUpper typ.GoName typ = typ.GoName := by
    intro h
    simp [TrimCommonFunctionName, h]
  refine ⟨fun h => hempty (trimSteps_of_fixed IsUpper typ h), ?_, ?_⟩
  · intro h
    by_cases he : trimSteps IsUpper typ.GoName typ = ""
    · exact Or.inr he
    · left
      have hs : TrimCommonFunctionName IsUpper typ.GoName typ
          = trimSteps IsUpper typ.GoName typ := by
        simp [TrimCommonFunctionName, he]
      have h1 := trimSteps_suffix_trimmed IsUpper typ.GoName typ
      have h2 := TrimCommonFunctionNamePrefix_suffix IsUpper typ.GoName
      rw [← hs, h] at h1
      exact String.ext
        (h2.eq_of_length (Nat.le_antisymm h2.length_le h1.length_le))
  · rintro (h | h)
    · exact hempty (trimSteps_of_fixed IsUpper typ h)
    · exact hempty h

/-- C11 (amended) at the owner `Cursor`, a name no trimming step touches. -/
theorem C11_owner_round_trip_witness :
    TrimCommonFunctionNamePrefix Char.isUpper exampleCursor.GoName = exampleCursor.GoName
      ∧ TrimCommonFunctionName Char.isUpper exampleCursor.GoName exampleCursor
        = exampleCursor.GoName :=
  ⟨by decide, (C11_owner_round_trip Char.isUpper exampleCursor).1 (by decide)⟩

/-- C11, the claim refuted: the owner name `ObjCPropertyAttrKind` loses its language
prefix and comes back as `PropertyAttrKind`. -/
theorem C11_round_trip_counterexample :
    TrimCommonFunctionName Char.isUpper exampleObjCKind.GoName exampleObjCKind
        = "PropertyAttrKind"
      ∧ TrimCommonFunctionName Char.isUpper exampleObjCKind.GoName exampleObjCKind
        ≠ exampleObjCKind.GoName := by
  decide

/-! ## The capitalized `Get` (C17) -/

theorem utf8Bytes_ascii (c : Char) (h : c.toNat ≤ 127) : utf8Bytes c = [c.toNat] := by
  simp [utf8Bytes, h]

theorem goBytes_Get (c : Char) (rest : List Char) (h : c.toNat ≤ 127) :
    goBytes ⟨'G' :: 'e' :: 't' :: c :: rest⟩
      = 71 :: 101 :: 116 :: c.toNat :: goBytes ⟨rest⟩ := by
  simp only [goBytes, List.flatMap_cons, utf8Bytes_ascii c h]
  rfl

theorem len_pos_of_ne_nil (rest : List Char) (h : rest ≠ []) : 0 < len ⟨rest⟩ := by
  rcases Nat.eq_zero_or_pos (len ⟨rest⟩) with h0 | h0
  · have := len_eq_zero h0
    exact absurd (congrArg String.data this) h
  · exact h0

theorem trimGet_ascii (IsUpper : Char → Bool) (c : Char) (rest : List Char)
    (h : c.toNat ≤ 127) :
    trimGet IsUpper ⟨'G' :: 'e' :: 't' :: c :: rest⟩
      = if rest ≠ [] ∧ IsUpper c = true then ⟨c :: rest⟩
        else ⟨'G' :: 'e' :: 't' :: c :: rest⟩ := by
  have hlen : len ⟨'G' :: 'e' :: 't' :: c :: rest⟩ = 4 + len ⟨rest⟩ := by
    simp only [len, goBytes_Get c rest h, List.length_cons]
    omega
  have hrune : runeAt ⟨'G' :: 'e' :: 't' :: c :: rest⟩ 3 = c := by
    simp [runeAt, goBytes_Get c rest h]
  have htrim : TrimPrefix ⟨'G' :: 'e' :: 't' :: c :: rest⟩ "Get" = ⟨c :: rest⟩ := by
    simp [TrimPrefix, List.isPrefixOf]
  unfold trimGet
  rw [hlen, hrune, htrim]
  by_cases hr : rest = []
  · subst hr
    have h0 : len ⟨[]⟩ = 0 := rfl
    simp [h0]
  · have := len_pos_of_ne_nil rest hr
    have h4 : 4 + len ⟨rest⟩ > 4 := by omega
    simp [hr, h4]

/-- C17 (amended): `TrimCommonFunctionNamePrefix` trims a leading `create`, then a
leading `get`, then a leading `Get` when the name has more than four bytes and the
byte after `Get` is an upper-case code point, and then the language prefixes.  When
an ASCII character follows `Get`, the `Get` is trimmed exactly when that character
is upper-case and something follows it; a name not starting with `Get` is left as
it is by that step. -/
theorem C17_common_prefix (IsUpper : Char → Bool) (name : String) :
    TrimCommonFunctionNamePrefix IsUpper name
        = TrimLanguagePrefix
            (trimGet IsUpper (TrimPrefix (TrimPrefix name "create") "get"))
      ∧ (∀ n : String, trimGet IsUpper n
          = if len n > 4 ∧ IsUpper (runeAt n 3) = true then TrimPrefix n "Get" else n)
      ∧ (∀ (c : Char) (rest : List Char), c.toNat ≤ 127 →
          trimGet IsUpper ⟨'G' :: 'e' :: 't' :: c :: rest⟩
            = if rest ≠ [] ∧ IsUpper c = true then ⟨c :: rest⟩
              else ⟨'G' :: 'e' :: 't' :: c :: rest⟩)
      ∧ (∀ n : String, ¬ "Get".data <+: n.data → trimGet IsUpper n = n) := by
  refine ⟨rfl, ?_, fun c rest h => trimGet_ascii IsUpper c rest h, ?_⟩
  · intro n
    simp [trimGet]
  · intro n hn
    unfold trimGet
    split
    · exact TrimPrefix_unmatched n "Get" hn
    · rfl

/-- C17, the claim refuted: in `GetX` the `Get` is followed by the upper-case letter
`X` and stays, because the name is not longer than four bytes; in `GetXy` it is
trimmed. -/
theorem C17_get_followed_by_upper_counterexample :
    Char.isUpper 'X' = true
      ∧ TrimCommonFunctionNamePrefix Char.isUpper "GetX" = "GetX"
      ∧ TrimCommonFunctionNamePrefix Char.isUpper "GetX" ≠ "X"
      ∧ TrimCommonFunctionNamePrefix Char.isUpper "GetXy" = "Xy" := by
  decide

/-! ## Receiver names (C13) -/

theorem foldl_receiver (IsUpper : Char → Bool) (ToLower : Char → Char) (l acc : List Char) :
    l.foldl (fun n c => if IsUpper c then n ++ [ToLower c] else n) acc
      = acc ++ (l.filter IsUpper).map ToLower := by
  induction l generalizing acc with
  | nil => simp
  | cons c l ih =>
    rw [List.foldl_cons, ih]
    by_cases hc : IsUpper c = true
    · simp [hc, List.filter_cons]
    · simp [hc, List.filter_cons]

theorem CommonReceiverName_data (IsUpper : Char → Bool) (ToLower : Char → Char) (s : String) :
    (CommonReceiverName IsUpper ToLower s).data = (s.data.filter IsUpper).map ToLower := by
  simp [CommonReceiverName, foldl_receiver]

theorem filter_capitalizedWords (IsUpper : Char → Bool) (ToLower : Char → Char)
    (words : List (List Char)) (h : ∀ w ∈ words, isCapitalizedWord IsUpper w = true) :
    (words.flatten.filter IsUpper).map ToLower = loweredInitials ToLower words
      ∧ (loweredInitials ToLower words).length = words.length := by
  induction words with
  | nil => simp [loweredInitials]
  | cons w ws ih =>
    have hw := h w (List.mem_cons_self _ _)
    obtain ⟨ih1, ih2⟩ := ih (fun v hv => h v (List.mem_cons_of_mem _ hv))
    cases w with
    | nil => simp [isCapitalizedWord] at hw
    | cons c rest =>
      simp only [isCapitalizedWord, Bool.and_eq_true, List.all_eq_true,
        Bool.not_eq_true'] at hw
      have hrest : rest.filter IsUpper = [] := by
        rw [List.filter_eq_nil_iff]
        intro d hd
        simp [hw.2 d hd]
      constructor
      · simp only [List.flatten_cons, List.cons_append, List.filter_cons, hw.1, if_true,
          List.filter_append, hrest, List.nil_append, List.map_cons, ih1]
        simp [loweredInitials]
      · simp only [loweredInitials, List.flatMap_cons, List.head?_cons, Option.map_some',
          Option.toList_some, List.singleton_append, List.length_cons] at ih2 ⊢
        omega

/-- C13: `CommonReceiverName` is the upper-case letters of `s`, in order, each
lower-cased.  It is non-empty exactly when `s` contains an upper-case letter, and
for a name made of `k` capitalized words it is the `k` lower-cased initials. -/
theorem C13_receiver_name (IsUpper : Char → Bool) (ToLower : Char → Char) (s : String) :
    (CommonReceiverName IsUpper ToLower s).data = (s.data.filter IsUpper).map ToLower
      ∧ (CommonReceiverName IsUpper ToLower s ≠ "" ↔ ∃ c ∈ s.data, IsUpper c = true)
      ∧ (∀ words : List (List Char),
          (∀ w ∈ words, isCapitalizedWord IsUpper w = true) → s.data = words.flatten →
          (CommonReceiverName IsUpper ToLower s).data = loweredInitials ToLower words
            ∧ (CommonReceiverName IsUpper ToLower s).length = words.length) := by
  have hd := CommonReceiverName_data IsUpper ToLower s
  refine ⟨hd, ?_, ?_⟩
  · rw [ne_eq, String.ext_iff, hd]
    simp [List.filter_eq_nil_iff]
  · intro words hw hs
    obtain ⟨h1, h2⟩ := filter_capitalizedWords IsUpper ToLower words hw
    rw [String.length, hd, hs, h1]
    exact ⟨rfl, h2⟩

/-- C13 at `TranslationUnit`, two capitalized words, with the ASCII letter classes:
the receiver name is `tu`. -/
theorem C13_receiver_name_witness :
    (∀ w ∈ ["Translation".data, "Unit".data], isCapitalizedWord Char.isUpper w = true)
      ∧ (CommonReceiverName Char.isUpper Char.toLower "TranslationUnit").data
          = loweredInitials Char.toLower ["Translation".data, "Unit".data]
      ∧ (CommonReceiverName Char.isUpper Char.toLower "TranslationUnit").length = 2
      ∧ CommonReceiverName Char.isUpper Char.toLower "TranslationUnit" = "tu" :=
  ⟨by decide,
    ((C13_receiver_name Char.isUpper Char.toLower "TranslationUnit").2.2
      ["Translation".data, "Unit".data] (by decide) rfl).1,
    ((C13_receiver_name Char.isUpper Char.toLower "TranslationUnit").2.2
      ["Translation".data, "Unit".data] (by decide) rfl).2,
    by decide⟩

/-! ## The extracted record (C14) -/

theorem handleArguments_cons {τ : Type} (getType : τ → Except String GoType)
    (IsUpper : Char → Bool) (ToLower : Char → Char) (a : CursorArgument τ)
    (rest : List (CursorArgument τ)) (t : GoType) (ps : List FunctionParameter)
    (ht : getType a.Typ = .ok t)
    (hps : handleArguments getType IsUpper ToLower rest = .ok ps) :
    handleArguments getType IsUpper ToLower (a :: rest)
      = .ok ({ Name := parameterName IsUpper ToLower a.DisplayName t,
               CName := a.DisplayName, Typ := t } :: ps) := by
  simp only [handleArguments, ht, hps, parameterName]
  by_cases hd : (a.DisplayName == "") = true <;> simp [hd]

theorem handleArguments_ok {τ : Type} (getType : τ → Except String GoType)
    (IsUpper : Char → Bool) (ToLower : Char → Char) (args : List (CursorArgument τ))
    (h : ∀ a ∈ args, ∃ t, getType a.Typ = .ok t) :
    ∃ ps, handleArguments getType IsUpper ToLower args = .ok ps
      ∧ ps.length = args.length
      ∧ ∀ (i : Nat) (a : CursorArgument τ), args[i]? = some a → ∃ p, ps[i]? = some p
          ∧ getType a.Typ = .ok p.Typ ∧ p.CName = a.DisplayName
          ∧ p.Name = parameterName IsUpper ToLower a.DisplayName p.Typ := by
  induction args with
  | nil => exact ⟨[], rfl, rfl, by simp⟩
  | cons a rest ih =>
    obtain ⟨t, ht⟩ := h a (List.mem_cons_self _ _)
    obtain ⟨ps, hps, hlen, hget⟩ := ih (fun b hb => h b (List.mem_cons_of_mem _ hb))
    refine ⟨_, handleArguments_cons getType IsUpper ToLower a rest t ps ht hps,
      by simp [hlen], ?_⟩
    intro i b hb
    cases i with
    | zero =>
      simp only [List.getElem?_cons_zero, Option.some.injEq] at hb
      subst hb
      exact ⟨{ Name := parameterName IsUpper ToLower a.DisplayName t,
               CName := a.DisplayName, Typ := t }, by simp, ht, rfl, rfl⟩
    | succ j =>
      simp only [List.getElem?_cons_succ] at hb ⊢
      exact hget j b hb

theorem TrimPrefix_append (pre rest : String) : TrimPrefix (pre ++ rest) pre = rest := by
  have hp : pre.data.isPrefixOf (pre ++ rest).data = true :=
    List.isPrefixOf_iff_prefix.mpr ⟨rest.data, by simp⟩
  simp [TrimPrefix, hp]

theorem receiverName_ne_empty (IsUpper : Char → Bool) (ToLower : Char → Char) (s : String) :
    receiverName IsUpper ToLower s ≠ "" ↔ ∃ c ∈ s.data, IsUpper c = true := by
  unfold receiverName
  rw [ne_eq, String.ext_iff, CommonReceiverName_data]
  simp [List.filter_eq_nil_iff]

/-- C14 (amended): when the return type and every argument type resolve,
`handleFunctionCursor` returns a `Function` whose `Name` is its `CName` with one
leading `clang_` removed and whose parameters follow the arguments: the name of a
parameter is the display name when that is non-empty and otherwise the receiver
name of its type name, so it is non-empty exactly when the display name is
non-empty or the type name contains an upper-case letter. -/
theorem C14_extracted_names {τ : Type} (getType : τ → Except String GoType)
    (cleanDoxygenComment : String → String) (IsUpper : Char → Bool)
    (ToLower : Char → Char) (cursor : Cursor τ)
    (hret : ∃ t, getType cursor.ResultType = .ok t)
    (hargs : ∀ a ∈ cursor.Arguments, ∃ t, getType a.Typ = .ok t) :
    ∃ f, handleFunctionCursor getType cleanDoxygenComment IsUpper ToLower cursor = .ok f
      ∧ f.CName = cursor.Spelling
      ∧ f.Name = TrimPrefix f.CName "clang_"
      ∧ (∀ rest : String, f.CName = "clang_" ++ rest → f.Name = rest)
      ∧ f.Parameters.length = cursor.Arguments.length
      ∧ ∀ (i : Nat) (a : CursorArgument τ), cursor.Arguments[i]? = some a →
          ∃ p, f.Parameters[i]? = some p
            ∧ getType a.Typ = .ok p.Typ
            ∧ (a.DisplayName ≠ "" → p.Name = a.DisplayName)
            ∧ (a.DisplayName = "" → p.Name = receiverName IsUpper ToLower p.Typ.Name)
            ∧ (p.Name ≠ "" ↔
                (a.DisplayName ≠ "" ∨ ∃ c ∈ p.Typ.Name.data, IsUpper c = true)) := by
  obtain ⟨t, ht⟩ := hret
  obtain ⟨ps, hps, hlen, hget⟩ := handleArguments_ok getType IsUpper ToLower _ hargs
  refine ⟨{ Name := TrimPrefix cursor.Spelling "clang_", CName := cursor.Spelling,
            Comment := cleanDoxygenComment cursor.RawCommentText, Parameters := ps,
            ReturnType := t },
    by simp only [handleFunctionCursor, ht, hps], rfl, rfl, ?_, hlen, ?_⟩
  · intro rest hrest
    have hc : cursor.Spelling = "clang_" ++ rest := hrest
    show TrimPrefix cursor.Spelling "clang_" = rest
    rw [hc, TrimPrefix_append]
  · intro i a ha
    obtain ⟨p, hp, hty, _, hname⟩ := hget i a ha
    refine ⟨p, hp, hty, ?_, ?_, ?_⟩
    · intro hd
      simp [hname, parameterName, hd]
    · intro hd
      simp [hname, parameterName, hd]
    · by_cases hd : a.DisplayName = ""
      · rw [hname]
        simp only [parameterName, hd, beq_self_eq_true, if_true, ne_eq, not_true_eq_false,
          false_or]
        exact receiverName_ne_empty IsUpper ToLower p.Typ.Name
      · simp [hname, parameterName, hd]

/-- C14 (amended) at `exampleNamedArgument`, with an identity type resolver and the
ASCII letter classes: the call returns, the function is named `getCursor`, the named
argument keeps its name `tu` and the unnamed one of type `SourceLocation` is named
`sl`. -/
theorem C14_extracted_names_witness :
    (handleFunctionCursor Except.ok id Char.isUpper Char.toLower exampleNamedArgument
        = .ok { Name := "getCursor", CName := "clang_getCursor",
                ReturnType := { Name := "Cursor" },
                Parameters :=
                  [ { Name := "tu", CName := "tu", Typ := { Name := "TranslationUnit" } },
                    { Name := "sl", CName := "", Typ := { Name := "SourceLocation" } } ] })
      ∧ ∃ f, handleFunctionCursor Except.ok id Char.isUpper Char.toLower
            exampleNamedArgument = .ok f
          ∧ f.CName = "clang_getCursor"
          ∧ f.Name = TrimPrefix f.CName "clang_"
          ∧ f.Parameters.length = 2 := by
  obtain ⟨f, hf, h1, h2, _, h4, _⟩ := C14_extracted_names Except.ok id Char.isUpper
    Char.toLower exampleNamedArgument ⟨_, rfl⟩ (fun a _ => ⟨_, rfl⟩)
  exact ⟨rfl, f, hf, h1, h2, h4⟩

/-- C14, the claim refuted: every type resolves, and the unnamed argument of type
`uint16`, a name without upper-case letter, becomes a parameter with the empty name.
One `clang_` is stripped from `clang_clang_setLimit`. -/
theorem C14_non_empty_name_counterexample :
    handleFunctionCursor Except.ok id Char.isUpper Char.toLower exampleUnnamedArgument
      = .ok { Name := "clang_setLimit", CName := "clang_clang_setLimit",
              ReturnType := { Name := "void" },
              Parameters :=
                [{ Name := "", CName := "",
                   Typ := { Name := "uint16", Primitive := "uint" } }] } := by
  rfl

/-! ## Disposal of the returned string (C15) -/

theorem paramStmts_eq (CSChar : String) (f : Function) :
    paramStmts CSChar f
      = f.Parameters.enum.flatMap (fun ip => (declEmit CSChar f.Receiver.Name ip).stmts)
        ++ (if (hasOutputArgument f || f.Parameters.enum.any (isSliceParam f.Receiver.Name))
            then [emptyLineStmt] else [])
        ++ (finalFunction f).Parameters.flatMap (fun p => (callEmit CSChar p).stmts)
        ++ (if (finalFunction f).Parameters.any (isCStringParam CSChar)
            then [emptyLineStmt] else []) := by
  simp only [paramStmts, paramEmit, finalFunction_recv]
  rw [declEmits_finalFunction]
  rfl

theorem not_mem_paramStmts (CSChar : String) (f : Function) (st : Stmt)
    (hdecl : ∀ ip, st ∉ (declEmit CSChar f.Receiver.Name ip).stmts)
    (hcall : ∀ p, st ∉ (callEmit CSChar p).stmts) (hempty : st ≠ emptyLineStmt) :
    st ∉ paramStmts CSChar f := by
  rw [paramStmts_eq]
  simp only [List.mem_append, List.mem_flatMap, not_or, not_exists, not_and]
  refine ⟨⟨⟨fun ip _ => hdecl ip, ?_⟩, fun p _ => hcall p⟩, ?_⟩
  · split <;> simp [hempty]
  · split <;> simp [hempty]

theorem bind_o_not_mem_paramStmts (CSChar : String) (f : Function) (e : Expr) :
    Stmt.AssignStmt [.Ident "o"] .DEFINE [e] ∉ paramStmts CSChar f := by
  apply not_mem_paramStmts
  · intro ip
    simp only [declEmit]
    split
    · simp [sliceStmts, String.ext_iff]
    · split
      · simp [outArgStmts]
      · simp
  · intro p
    simp only [callEmit]
    split
    · simp [cstringStmts, String.ext_iff]
    · simp
  · simp [emptyLineStmt]

theorem filter_isDisposeOf_paramStmts (CSChar : String) (f : Function) (v : String)
    (h : ∀ ip ∈ outputArguments f, ¬(ip.2.Name = v ∧ ip.2.Typ.Name = "cxstring")) :
    (paramStmts CSChar f).filter (Stmt.isDisposeOf v) = [] := by
  rw [List.filter_eq_nil_iff, paramStmts_eq]
  intro st hst
  simp only [List.mem_append, List.mem_flatMap] at hst
  rcases hst with ((⟨ip, hip, hst⟩ | hst) | ⟨p, _, hst⟩) | hst
  · simp only [declEmit] at hst
    split at hst
    · simp only [sliceStmts, List.mem_cons, List.mem_singleton, List.not_mem_nil,
        or_false] at hst
      rcases hst with rfl | rfl | rfl | rfl <;> simp [Stmt.isDisposeOf]
    · split at hst
      · rename_i hout
        have hmem : ip ∈ outputArguments f := List.mem_filter.mpr ⟨hip, hout⟩
        have hn := h ip hmem
        simp only [outArgStmts, List.mem_cons] at hst
        rcases hst with rfl | hst
        · simp [Stmt.isDisposeOf]
        · split at hst
          · rename_i hcx
            simp only [List.mem_singleton] at hst
            subst hst
            have hcx2 : ip.2.Typ.Name = "cxstring" := by simpa using hcx
            have hne : ¬ ip.2.Name = v := fun hv => hn ⟨hv, hcx2⟩
            simp [Stmt.isDisposeOf, doCall, accessMember, hne]
          · simp at hst
      · simp at hst
  · split at hst
    · simp only [List.mem_singleton] at hst
      subst hst
      simp [Stmt.isDisposeOf, emptyLineStmt]
    · simp at hst
  · simp only [callEmit] at hst
    split at hst
    · simp only [cstringStmts, List.mem_cons, List.mem_singleton, List.not_mem_nil,
        or_false] at hst
      rcases hst with rfl | rfl <;> simp [Stmt.isDisposeOf, doCCast, doCall, accessMember]
    · simp at hst
  · split at hst
    · simp only [List.mem_singleton] at hst
      subst hst
      simp [Stmt.isDisposeOf, emptyLineStmt]
    · simp at hst

/-- For a `cxstring` return type the body is the statements for the parameters,
which do not bind `o` with `:=`, followed by the binding of `o` to the wrapped foreign
call, the deferred `o.Dispose()`, an empty line and the return statement that reads
`o.String()`.  When no `cxstring` output argument is itself named `o`, it is the only
`defer o.Dispose()` of the body. -/
theorem owned_string_disposal (CSChar : String) (f : Function)
    (hcx : f.ReturnType.Name = "cxstring") :
    (generateAST CSChar f).1.Body
        = paramStmts CSChar f ++
          [ .AssignStmt [.Ident "o"] .DEFINE [doCompose "cxstring" (foreignCall CSChar f)],
            .DeferStmt (doCall "o" "Dispose" []),
            emptyLineStmt,
            .ReturnStmt (outArgValues f ++ [doCall "o" "String" []]) ]
      ∧ Stmt.AssignStmt [.Ident "o"] .DEFINE [doCompose "cxstring" (foreignCall CSChar f)]
          ∉ paramStmts CSChar f
      ∧ hasReturnList (paramStmts CSChar f) = false
      ∧ [ Stmt.DeferStmt (doCall "o" "Dispose" []), emptyLineStmt,
          .ReturnStmt (outArgValues f ++ [doCall "o" "String" []]) ].filter
            (Stmt.isDisposeOf "o")
          = [.DeferStmt (doCall "o" "Dispose" [])]
      ∧ ((∀ ip ∈ outputArguments f, ¬(ip.2.Name = "o" ∧ ip.2.Typ.Name = "cxstring")) →
          (generateAST CSChar f).1.Body.filter (Stmt.isDisposeOf "o")
            = [.DeferStmt (doCall "o" "Dispose" [])]) := by
  have hv : f.ReturnType.Name ≠ "void" := by rw [hcx]; decide
  have hbody : (generateAST CSChar f).1.Body
      = paramStmts CSChar f ++
        [ .AssignStmt [.Ident "o"] .DEFINE [doCompose "cxstring" (foreignCall CSChar f)],
          .DeferStmt (doCall "o" "Dispose" []),
          emptyLineStmt,
          .ReturnStmt (outArgValues f ++ [doCall "o" "String" []]) ] := by
    rw [generateAST_body, returnEmit_cxstring CSChar f _ _ hcx]
    simp [hv]
  have hfilter : [ Stmt.DeferStmt (doCall "o" "Dispose" []), emptyLineStmt,
        .ReturnStmt (outArgValues f ++ [doCall "o" "String" []]) ].filter
          (Stmt.isDisposeOf "o")
      = [.DeferStmt (doCall "o" "Dispose" [])] := by
    simp [List.filter_cons, Stmt.isDisposeOf, doCall, accessMember, emptyLineStmt]
  refine ⟨hbody, bind_o_not_mem_paramStmts CSChar f _, paramStmts_hasReturn CSChar f,
    hfilter, ?_⟩
  intro h
  rw [hbody, List.filter_append, filter_isDisposeOf_paramStmts CSChar f "o" h,
    List.nil_append, List.filter_cons]
  simp only [Stmt.isDisposeOf, Bool.false_eq_true, if_false]
  exact hfilter

/-- The body for `exampleStringDisposal`, whose `cxstring` output argument is named
`disable`: one `defer o.Dispose()`, after the binding of `o` and before the return. -/
theorem owned_string_disposal_example :
    (generateAST "schar" exampleStringDisposal).1.Body
        = [ .DeclStmt .VAR ["disable"] (.Ident "cxstring"),
            .DeferStmt (doCall "disable" "Dispose" []),
            emptyLineStmt,
            .AssignStmt [.Ident "c_path"] .DEFINE [doCCast "CString" [.Ident "path"]],
            .DeferStmt (doCCast "free" [doCall "unsafe" "Pointer" [.Ident "c_path"]]),
            emptyLineStmt,
            .AssignStmt [.Ident "o"] .DEFINE
              [doCompose "cxstring"
                (doCCast "clang_getDiagnosticOption"
                  [.Ident "c_path", .UnaryExpr .AND (accessMember "disable" "c")])],
            .DeferStmt (doCall "o" "Dispose" []),
            emptyLineStmt,
            .ReturnStmt [doCall "disable" "String" [], doCall "o" "String" []] ]
      ∧ (generateAST "schar" exampleStringDisposal).1.Body.filter (Stmt.isDisposeOf "o")
        = [.DeferStmt (doCall "o" "Dispose" [])] :=
  ⟨rfl, (owned_string_disposal "schar" exampleStringDisposal rfl).2.2.2.2 (by decide)⟩

/-- C15 at the failing input: `clang_getDiagnosticOption` with a `cxstring` output
argument that the header names `o`, a name `handleFunctionCursor` takes over as it
is (lines 54-57).  The body declares `var o cxstring` and defers
`o.Dispose()` for the output argument (lines 474-491), then binds `o := cxstring{...}`
to the wrapped foreign call and defers `o.Dispose()` again (lines 609-610): two
disposal statements for `o`, the first one ahead of the statement that binds the
returned value, and `o.String()` returned twice. -/
theorem C15_two_disposals :
    handleFunctionCursor Except.ok id Char.isUpper Char.toLower exampleCursorNamedO
        = .ok exampleStringNamedO
      ∧ exampleStringNamedO.ReturnType.Name = "cxstring"
      ∧ (generateAST "schar" exampleStringNamedO).1.Body
        = [ .DeclStmt .VAR ["o"] (.Ident "cxstring"),
            .DeferStmt (doCall "o" "Dispose" []),
            emptyLineStmt,
            .AssignStmt [.Ident "o"] .DEFINE
              [doCompose "cxstring"
                (doCCast "clang_getDiagnosticOption"
                  [accessMember "diag" "c", .UnaryExpr .AND (accessMember "o" "c")])],
            .DeferStmt (doCall "o" "Dispose" []),
            emptyLineStmt,
            .ReturnStmt [doCall "o" "String" [], doCall "o" "String" []] ]
      ∧ (generateAST "schar" exampleStringNamedO).1.Body.filter (Stmt.isDisposeOf "o")
        = [.DeferStmt (doCall "o" "Dispose" []), .DeferStmt (doCall "o" "Dispose" [])]
      ∧ ((generateAST "schar" exampleStringNamedO).1.Body.filter
          (Stmt.isDisposeOf "o")).length = 2 := by
  have h : (generateAST "schar" exampleStringNamedO).1.Body.filter (Stmt.isDisposeOf "o")
      = [.DeferStmt (doCall "o" "Dispose" []), .DeferStmt (doCall "o" "Dispose" [])] := rfl
  refine ⟨rfl, rfl, rfl, h, ?_⟩
  rw [h]
  rfl

/-! ## Declared input parameters (C16) -/

theorem callStmts_infix_body (CSChar : String) (f : Function) (i : Nat)
    (p : FunctionParameter) (hp : (finalFunction f).Parameters[i]? = some p) :
    (callEmit CSChar p).stmts <:+: (generateAST CSChar f).1.Body := by
  refine List.IsInfix.trans ?_ (paramStmts_infix_body CSChar f)
  have hmem : p ∈ (finalFunction f).Parameters := List.mem_iff_getElem?.mpr ⟨i, hp⟩
  have h1 := infix_flatMap_of_mem (fun q => (callEmit CSChar q).stmts) hmem
  refine h1.trans ?_
  rw [paramStmts_eq]
  exact List.infix_append _ _ _

theorem doField_typ (CSChar name : String) (typ : GoType) (hs : typ.IsSlice = false) :
    (doField CSChar name typ).Typ =
      if typ.Name = "" then none
      else if typ.PointerLevel > 0 ∧ typ.CName = CSChar then some (.Ident "string")
      else some (.Ident typ.Name) := by
  by_cases hn : typ.Name = ""
  · simp [doField, hn]
  · by_cases hc : typ.PointerLevel > 0 ∧ typ.CName = CSChar
    · simp [doField, hn, hs, hc]
    · simp [doField, hn, hs, hc]

theorem declared_mem_params (CSChar : String) (f : Function) (i : Nat)
    (p : FunctionParameter) (hp : f.Parameters[i]? = some p)
    (hd : isDeclaredParam f.Receiver.Name (i, p) = true) :
    ∃ fields, (generateAST CSChar f).1.Typ.Params = some fields
      ∧ doField CSChar p.Name p.Typ ∈ fields := by
  have hne : f.Parameters.length ≠ 0 := by
    intro h
    have := List.length_eq_zero.mp h
    simp [this] at hp
  refine ⟨(f.Parameters.enum.filter (isDeclaredParam f.Receiver.Name)).map
      (fun ip => doField CSChar ip.2.Name ip.2.Typ),
    by rw [generateAST_params]; simp [hne], ?_⟩
  exact List.mem_map.mpr ⟨(i, p),
    List.mem_filter.mpr ⟨List.mk_mem_enum_iff_getElem?.mpr hp, hd⟩, rfl⟩

/-- A declared non-slice input parameter `p` (not the receiver, not a
length-of-slice parameter, not flagged as slice or return argument) is declared
through `doField`: without type when its type name is empty, as `string` when it is
a character pointer of any depth, and with its type name otherwise.  The second loop
emits `c_p := C.CString(p)` and the deferred `C.free` and passes `c_p` when `p` has a
primitive, pointer depth 1 and character element; otherwise its iteration for `p`
emits no statement and passes an argument that is not `c_p`. -/
theorem declared_input_parameter (CSChar : String) (f : Function) (i : Nat)
    (p : FunctionParameter) (hp : f.Parameters[i]? = some p)
    (hr : i ≠ 0 ∨ f.Receiver.Name = "") (hl : p.Typ.LengthOfSlice = "")
    (hs : p.Typ.IsSlice = false) (hret : p.Typ.IsReturnArgument = false) :
    (∃ fields, (generateAST CSChar f).1.Typ.Params = some fields
        ∧ doField CSChar p.Name p.Typ ∈ fields)
      ∧ (doField CSChar p.Name p.Typ).Typ =
          (if p.Typ.Name = "" then none
           else if p.Typ.PointerLevel > 0 ∧ p.Typ.CName = CSChar then some (.Ident "string")
           else some (.Ident p.Typ.Name))
      ∧ (∃ args, foreignCall CSChar f = doCCast f.CName args
          ∧ args[i]? = some (callArg CSChar p))
      ∧ ((p.Typ.Primitive ≠ "" ∧ p.Typ.PointerLevel = 1 ∧ p.Typ.CName = CSChar) →
          [ Stmt.AssignStmt [.Ident ("c_" ++ p.Name)] .DEFINE
              [doCCast "CString" [.Ident p.Name]],
            .DeferStmt (doCCast "free" [doCall "unsafe" "Pointer" [.Ident ("c_" ++ p.Name)]]) ]
            <:+: (generateAST CSChar f).1.Body
          ∧ callArg CSChar p = .Ident ("c_" ++ p.Name))
      ∧ (¬(p.Typ.Primitive ≠ "" ∧ p.Typ.PointerLevel = 1 ∧ p.Typ.CName = CSChar) →
          (callEmit CSChar p).stmts = []
          ∧ callArg CSChar p ≠ .Ident ("c_" ++ p.Name)) := by
  have hnr : isReceiverParam f.Receiver.Name (i, p) = false := by
    rcases hr with h | h <;> simp [isReceiverParam, h]
  have hd : isDeclaredParam f.Receiver.Name (i, p) = true := by
    simp [isDeclaredParam, hnr, hl, hs, hret]
  have hfin : (finalFunction f).Parameters[i]? = some p := by
    rw [finalFunction_getElem? f i hr, hp]
  refine ⟨declared_mem_params CSChar f i p hp hd, doField_typ CSChar p.Name p.Typ hs,
    ?_, ?_, ?_⟩
  · obtain ⟨args, h1, _, h3⟩ := foreignCall_arg CSChar f i p hfin
    exact ⟨args, h1, h3⟩
  · intro hshape
    have hc : isCStringParam CSChar p = true := by
      simp [isCStringParam, hs, hshape.1, hshape.2.1, hshape.2.2]
    constructor
    · have h := callStmts_infix_body CSChar f i p hfin
      simpa [callEmit, hc, cstringStmts] using h
    · simp [callArg, callArgBase, hs, hret, hshape.1, hshape.2.1, hshape.2.2]
  · intro hshape
    have hc : isCStringParam CSChar p = false := by
      rw [Bool.eq_false_iff]
      intro h
      simp only [isCStringParam, Bool.and_eq_true, Bool.not_eq_true', bne_iff_ne, ne_eq,
        decide_eq_true_eq, beq_iff_eq] at h
      exact hshape ⟨h.1.1.2, h.1.2, h.2⟩
    constructor
    · simp [callEmit, hc]
    · simp only [callArg, callArgBase, hs, hret, Bool.false_eq_true, if_false]
      by_cases hprim : p.Typ.Primitive = ""
      · simp [hprim, accessMember]
      · have hnc : ¬(p.Typ.PointerLevel = 1 ∧ p.Typ.CName = CSChar) :=
          fun h => hshape ⟨hprim, h.1, h.2⟩
        simp only [bne_iff_ne, ne_eq, hprim, not_false_eq_true, if_true, Bool.and_eq_true,
          decide_eq_true_eq, beq_iff_eq, hnc, if_false, hl, not_true_eq_false]
        split <;> simp [accessMember, doCCast, doCall]

/-- C16 at the failing input: the parameter `argv` of `exampleCharPointers`, a
`char **` (character element, pointer depth 2).  `doField` (line 180) tests
`PointerLevel > 0` and declares it `string`, like the `const char *` parameter `path`;
the second loop (line 533) tests `PointerLevel == 1`, so only `path` is copied with
`C.CString`, freed and passed as `c_path`, while `argv` gets no statement and the
foreign call receives the cast `C.schar(argv)` of the Go string. -/
theorem C16_char_pointer_depth_two :
    exampleCharPointers.Parameters[1]?
        = some { Name := "argv", Typ := { Name := "int8", CName := "schar",
                                          Primitive := "schar", PointerLevel := 2 } }
      ∧ (generateAST "schar" exampleCharPointers).1.Typ.Params
        = some [ { Names := ["path"], Typ := some (.Ident "string") },
                 { Names := ["argv"], Typ := some (.Ident "string") },
                 { Names := ["index"], Typ := some (.Ident "Index") } ]
      ∧ (generateAST "schar" exampleCharPointers).1.Body
        = [ .AssignStmt [.Ident "c_path"] .DEFINE [doCCast "CString" [.Ident "path"]],
            .DeferStmt (doCCast "free" [doCall "unsafe" "Pointer" [.Ident "c_path"]]),
            emptyLineStmt,
            .ExprStmt (doCCast "clang_setOptions"
              [.Ident "c_path", doCCast "schar" [.Ident "argv"], accessMember "index" "c"]) ]
      ∧ foreignCall "schar" exampleCharPointers
        = doCCast "clang_setOptions"
            [.Ident "c_path", doCCast "schar" [.Ident "argv"], accessMember "index" "c"]
      ∧ foreignCall "schar" exampleCharPointers
        ≠ doCCast "clang_setOptions"
            [.Ident "c_path", .Ident "c_argv", accessMember "index" "c"] := by
  have h : foreignCall "schar" exampleCharPointers
      = doCCast "clang_setOptions"
          [.Ident "c_path", doCCast "schar" [.Ident "argv"], accessMember "index" "c"] := rfl
  refine ⟨rfl, rfl, rfl, h, ?_⟩
  rw [h]
  simp [doCCast, doCall]

/-! ## The arguments of the foreign call (C20) -/

theorem finalFunction_getElem?_renamed (f : Function) (i : Nat) (p : FunctionParameter)
    (hp : f.Parameters[i]? = some p) :
    (finalFunction f).Parameters[i]? = some (renamedParam f.Receiver.Name i p) := by
  by_cases h : i ≠ 0 ∨ f.Receiver.Name = ""
  · have hnr : isReceiverParam f.Receiver.Name (i, p) = false := by
      rcases h with h | h <;> simp [isReceiverParam, h]
    rw [finalFunction_getElem? f i h, hp, renamedParam, hnr]
    rfl
  · have hi : i = 0 := by
      by_contra hne
      exact h (Or.inl hne)
    have hr : f.Receiver.Name ≠ "" := fun hr => h (Or.inr hr)
    subst hi
    cases hps : f.Parameters with
    | nil => simp [hps] at hp
    | cons a l =>
      have ha : a = p := by simpa [hps] using hp
      subst ha
      simp [finalFunction, hps, hr, setFirstName, renamedParam, isReceiverParam]

theorem callArgBase_isAddressOf (CSChar : String) (p : FunctionParameter) :
    (callArgBase CSChar p).isAddressOf = false := by
  unfold callArgBase
  repeat' split
  all_goals rfl

theorem callArg_isAddressOf (CSChar : String) (p : FunctionParameter) :
    (callArg CSChar p).isAddressOf = p.Typ.IsReturnArgument := by
  unfold callArg
  split
  · rename_i h
    rw [h]; rfl
  · rename_i h
    rw [callArgBase_isAddressOf]
    simpa using h

/-- C20: the foreign call is `C.<CName>(...)` with one argument for each parameter,
in order, the receiver's parameter included; the argument at position `i` is the one
the second loop derives from the parameter at position `i` (read under the
receiver's name at position 0 of a method), and it is an address-of expression
exactly when that parameter has `IsReturnArgument` set. -/
theorem C20_call_arguments (CSChar : String) (f : Function) :
    ∃ args, foreignCall CSChar f = .CallExpr (.SelectorExpr (.Ident "C") f.CName) args
      ∧ args.length = f.Parameters.length
      ∧ ∀ (i : Nat) (p : FunctionParameter), f.Parameters[i]? = some p →
          args[i]? = some (callArg CSChar (renamedParam f.Receiver.Name i p))
            ∧ (renamedParam f.Receiver.Name i p).Typ = p.Typ
            ∧ ((callArg CSChar (renamedParam f.Receiver.Name i p)).isAddressOf = true
                ↔ p.Typ.IsReturnArgument = true) := by
  refine ⟨(finalFunction f).Parameters.map (callArg CSChar), foreignCall_eq CSChar f, ?_, ?_⟩
  · rw [List.length_map, finalFunction_length]
  · intro i p hp
    have ht : (renamedParam f.Receiver.Name i p).Typ = p.Typ := by
      unfold renamedParam
      split <;> rfl
    refine ⟨?_, ht, ?_⟩
    · rw [List.getElem?_map, finalFunction_getElem?_renamed f i p hp]
      rfl
    · rw [callArg_isAddressOf, ht]

/-! ## The struct-member getter (C19) -/

theorem ifPointer_of_lt (f : Function) (s : String) (h : f.ReturnType.PointerLevel < 1) :
    ifPointer f s = "" := by
  have : ¬ f.ReturnType.PointerLevel ≥ 1 := by omega
  simp [ifPointer, this]

theorem ifPointer_of_ge (f : Function) (s : String) (h : f.ReturnType.PointerLevel ≥ 1) :
    ifPointer f s = s := by
  simp [ifPointer, h]

theorem empty_append_string (s : String) : "" ++ s = s := by
  apply String.ext
  simp

/-- C19 (amended): the getter reads the field `r.c.m`.  For the return type `bool` it
binds the field and returns `value != C.int(0)`.  For another return type of pointer
depth below 1 it returns the field reshaped by the flag `IsPrimitive`: a cast to the
return type when the flag is set, a composite literal otherwise; that is the
synthesizer's rule, which tests `Primitive`, whenever the flag is set exactly when
`Primitive` is non-empty.  For pointer depth 1 or more the dereferenced field is
reshaped in the same way and the address of the result is returned.
`generateFunction` gives a type flagged primitive its name as `Primitive`. -/
theorem C19_member_getter (f : Function) :
    generateFunctionStructMemberGetter f
        = f.Comment ++ "\nfunc (" ++ f.Receiver.Name ++ " " ++ f.Receiver.Typ.Name ++ ") "
          ++ f.Name ++ "() " ++ ifPointer f "*" ++ f.ReturnType.Name ++ " \x7b\n\tvalue := "
          ++ getterValue f ++ "\n\treturn " ++ getterReturn f ++ "\n\x7d\n"
      ∧ (f.ReturnType.Name = "bool" →
          getterValue f = f.Receiver.Name ++ ".c." ++ f.Member
            ∧ getterReturn f = "value != C.int(0)")
      ∧ (f.ReturnType.Name ≠ "bool" → f.ReturnType.PointerLevel < 1 →
          getterValue f
              = (if f.ReturnType.IsPrimitive then
                  f.ReturnType.Name ++ ("(" ++ (f.Receiver.Name ++ ".c." ++ f.Member) ++ ")")
                else
                  f.ReturnType.Name
                    ++ ("\x7b" ++ (f.Receiver.Name ++ ".c." ++ f.Member) ++ "\x7d"))
            ∧ getterReturn f = "value"
            ∧ ((f.ReturnType.IsPrimitive = true ↔ f.ReturnType.Primitive ≠ "") →
                getterValue f
                  = reshapedBySynthesizerRule f (f.Receiver.Name ++ ".c." ++ f.Member)))
      ∧ (f.ReturnType.Name ≠ "bool" → f.ReturnType.PointerLevel ≥ 1 →
          getterValue f
              = (if f.ReturnType.IsPrimitive then
                  f.ReturnType.Name
                    ++ ("(" ++ "*" ++ (f.Receiver.Name ++ ".c." ++ f.Member) ++ ")")
                else
                  f.ReturnType.Name
                    ++ ("\x7b" ++ "*" ++ (f.Receiver.Name ++ ".c." ++ f.Member) ++ "\x7d"))
            ∧ getterReturn f = "&" ++ "value")
      ∧ (∀ (GoInt16 GoBool : String) (trimClangPrefix upperFirstCharacter : String → String)
          (IsUpper : Char → Bool) (ToLower : Char → Char)
          (name cname comment member : String) (typ : GoType),
          typ.IsPrimitive = true →
          (generateFunction GoInt16 GoBool trimClangPrefix upperFirstCharacter IsUpper
              ToLower name cname comment member typ).ReturnType.IsPrimitive = true
            ∧ (generateFunction GoInt16 GoBool trimClangPrefix upperFirstCharacter IsUpper
                ToLower name cname comment member typ).ReturnType.Primitive = typ.Name) := by
  refine ⟨rfl, ?_, ?_, ?_, ?_⟩
  · intro hb
    simp [getterValue, getterReturn, getterField, hb]
  · intro hb hp
    refine ⟨?_, ?_, ?_⟩
    · simp only [getterValue, getterField, beq_iff_eq, hb, if_false,
        ifPointer_of_lt f _ hp]
      split <;> simp [String.append_assoc, empty_append_string]
    · simp [getterReturn, hb, ifPointer_of_lt f _ hp, empty_append_string]
    · intro hiff
      simp only [getterValue, getterField, beq_iff_eq, hb, if_false,
        ifPointer_of_lt f _ hp, reshapedBySynthesizerRule]
      by_cases hprim : f.ReturnType.Primitive = ""
      · have hflag : f.ReturnType.IsPrimitive = false := by
          rw [Bool.eq_false_iff]
          exact fun h => hiff.mp h hprim
        simp [hprim, hflag, String.append_assoc, empty_append_string]
      · have hflag : f.ReturnType.IsPrimitive = true := hiff.mpr hprim
        simp [hprim, hflag, String.append_assoc, empty_append_string]
  · intro hb hp
    refine ⟨?_, ?_⟩
    · simp only [getterValue, getterField, beq_iff_eq, hb, if_false,
        ifPointer_of_ge f _ hp]
      split <;> rfl
    · simp [getterReturn, hb, ifPointer_of_ge f _ hp]
  · intro GoInt16 GoBool trimClangPrefix upperFirstCharacter IsUpper ToLower name cname
      comment member typ hprim
    simp only [generateFunction, hprim, if_true]
    split <;> exact ⟨rfl, rfl⟩

/-- C19 (amended) at `exampleGetterBool`: the getter binds `t.c.isConst` and returns
`value != C.int(0)`. -/
theorem C19_member_getter_witness :
    exampleGetterBool.ReturnType.Name = "bool"
      ∧ getterValue exampleGetterBool = "t.c.isConst"
      ∧ getterReturn exampleGetterBool = "value != C.int(0)"
      ∧ generateFunctionStructMemberGetter exampleGetterBool
        = "\nfunc (t Type) IsConst() bool \x7b\n\tvalue := t.c.isConst\n"
            ++ "\treturn value != C.int(0)\n\x7d\n" :=
  ⟨rfl, ((C19_member_getter exampleGetterBool).2.1 rfl).1,
    ((C19_member_getter exampleGetterBool).2.1 rfl).2, by decide⟩

/-- C19, the claim refuted: getters that do not return the field reshaped by the
synthesizer's rule.  For a struct member held by pointer the getter reshapes the
dereferenced field and returns `&value`; for a return type flagged primitive that
names no primitive it casts, where the synthesizer's rule makes a composite
literal. -/
theorem C19_same_rule_counterexample :
    (exampleGetterPointer.ReturnType.Name ≠ "bool"
        ∧ getterValue exampleGetterPointer = "Cursor\x7b*c.c.parent\x7d"
        ∧ getterReturn exampleGetterPointer = "&value"
        ∧ reshapedBySynthesizerRule exampleGetterPointer "c.c.parent"
            = "Cursor\x7bc.c.parent\x7d"
        ∧ getterValue exampleGetterPointer
            ≠ reshapedBySynthesizerRule exampleGetterPointer "c.c.parent")
      ∧ (exampleGetterFlagged.ReturnType.Name ≠ "bool"
        ∧ exampleGetterFlagged.ReturnType.Primitive = ""
        ∧ getterValue exampleGetterFlagged = "CursorKind(c.c.kind)"
        ∧ reshapedBySynthesizerRule exampleGetterFlagged "c.c.kind"
            = "CursorKind\x7bc.c.kind\x7d"
        ∧ getterValue exampleGetterFlagged
            ≠ reshapedBySynthesizerRule exampleGetterFlagged "c.c.kind") := by
  decide

/-! ## Arity of the return statement (C21) -/

theorem returnEmit_stmts_hasReturn (CSChar : String) (f : Function) (call : Expr)
    (hra : Bool) : hasReturnList (returnEmit CSChar f call hra).stmts = false := by
  unfold returnEmit
  repeat' split
  all_goals simp [hasReturnList, Stmt.hasReturn, emptyLineStmt]

theorem returnEmit_results_of_not_void (CSChar : String) (f : Function) (call : Expr)
    (hra : Bool) (hv : f.ReturnType.Name ≠ "void") :
    (returnEmit CSChar f call hra).results.length = 1 := by
  unfold returnEmit
  repeat' split
  all_goals simp_all

theorem returnEmit_items_length (CSChar : String) (f : Function) (call : Expr)
    (hra : Bool) :
    (returnEmit CSChar f call hra).items.length
      = (returnEmit CSChar f call hra).results.length
        + (if isVoidCharPointer CSChar f then 1 else 0) := by
  unfold returnEmit isVoidCharPointer
  by_cases h1 : f.ReturnType.Name = "cxstring"
  · simp [h1]
  · by_cases h2 : f.ReturnType.Name = "bool" ∧ ¬f.ReturnType.Primitive = ""
    · simp [h1, h2]
    · by_cases h3 : f.ReturnType.CName = CSChar ∧ f.ReturnType.PointerLevel = 1
      · by_cases hv : f.ReturnType.Name = "void" <;> simp [h1, h2, h3, hv]
      · by_cases h4 : f.ReturnType.Name = "time.Time"
        · simp [h1, h2, h3, h4]
        · by_cases h5 : f.ReturnType.Name = "void"
          · simp [h1, h2, h3, h4, h5]
          · cases hra <;> simp [h1, h2, h3, h4, h5]

theorem outArgValues_length (CSChar : String) (f : Function) :
    (outArgValues f).length = (outArgFields CSChar f).length := by
  simp [outArgValues, outArgFields]

/-- The arity of the emitted declaration: a return statement is emitted exactly when
a result is declared, it is then the only one and the last statement of the body,
and it returns as many expressions as results are declared, plus one when the return
type is named `void` and is a depth-1 character pointer. -/
theorem return_arity (CSChar : String) (f : Function) :
    ((generateAST CSChar f).1.Body.filter Stmt.isReturn ≠ [] ↔
        (generateAST CSChar f).1.Typ.Results ≠ [])
      ∧ (∀ rs, Stmt.ReturnStmt rs ∈ (generateAST CSChar f).1.Body →
          (generateAST CSChar f).1.Body.filter Stmt.isReturn = [.ReturnStmt rs]
            ∧ (generateAST CSChar f).1.Body.getLast? = some (.ReturnStmt rs)
            ∧ rs.length = (generateAST CSChar f).1.Typ.Results.length
                + (if isVoidCharPointer CSChar f then 1 else 0)) := by
  have hps := paramStmts_hasReturn CSChar f
  have hes := returnEmit_stmts_hasReturn CSChar f (foreignCall CSChar f) (hasOutputArgument f)
  have hpf := filter_isReturn_of_hasReturnList hps
  have hef := filter_isReturn_of_hasReturnList hes
  rw [generateAST_body, generateAST_results]
  by_cases hc : (f.ReturnType.Name != "void" || hasOutputArgument f) = true
  · simp only [hc, if_true]
    constructor
    · have hne : outArgFields CSChar f
          ++ (returnEmit CSChar f (foreignCall CSChar f) (hasOutputArgument f)).results
          ≠ [] := by
        by_cases hv : f.ReturnType.Name = "void"
        · have hra : hasOutputArgument f = true := by simpa [hv] using hc
          obtain ⟨i, p, hp, hio⟩ := (hasOutputArgument_iff f).mp hra
          have hmem : (i, p) ∈ outputArguments f :=
            List.mem_filter.mpr ⟨List.mk_mem_enum_iff_getElem?.mpr hp, hio⟩
          intro h
          have h1 := (List.append_eq_nil.mp h).1
          simp only [outArgFields, List.map_eq_nil_iff] at h1
          simp [h1] at hmem
        · intro h
          have h1 := (List.append_eq_nil.mp h).2
          have h2 := returnEmit_results_of_not_void CSChar f (foreignCall CSChar f)
            (hasOutputArgument f) hv
          simp [h1] at h2
      simp [hpf, hef, Stmt.isReturn, List.filter_cons, hne]
    · intro rs hrs
      simp only [List.mem_append, List.mem_singleton, Stmt.ReturnStmt.injEq] at hrs
      rcases hrs with (hrs | hrs) | hrs
      · have := isReturn_of_hasReturnList hps _ hrs
        simp [Stmt.isReturn] at this
      · have := isReturn_of_hasReturnList hes _ hrs
        simp [Stmt.isReturn] at this
      · subst hrs
        refine ⟨by simp [hpf, hef, Stmt.isReturn, List.filter_cons], by simp, ?_⟩
        rw [List.length_append, List.length_append, returnEmit_items_length,
          outArgValues_length CSChar f]
        omega
  · simp only [hc]
    have hra : hasOutputArgument f = false := by
      rw [Bool.eq_false_iff]
      intro h
      exact hc (by simp [h])
    constructor
    · simp [hpf, Stmt.isReturn, List.filter_cons, outArgFields,
        outputArguments_eq_nil f hra]
    · intro rs hrs
      simp only [Bool.false_eq_true, if_false, List.mem_append, List.mem_singleton] at hrs
      rcases hrs with hrs | hrs
      · have := isReturn_of_hasReturnList hps _ hrs
        simp [Stmt.isReturn] at this
      · cases hrs

/-- The descriptor shape the consistency theorem below leaves out: for a return
type named `void` that is a depth-1 character pointer, with one output argument
`line`, the declaration has the single result `uint16` while the return statement
returns the two expressions `uint16(line)` and `C.GoString(C.clang_getLine(&line))`.
The branch of line 643 adds a return value for which line 621 declared no result. -/
theorem void_char_pointer_arity :
    isVoidCharPointer "schar" exampleVoidCharPointer = true
      ∧ (generateAST "schar" exampleVoidCharPointer).1.Typ.Results
        = [{ Names := [], Typ := some (.Ident "uint16") }]
      ∧ (generateAST "schar" exampleVoidCharPointer).1.Body
        = [ .DeclStmt .VAR ["line"] (doCType "uint"),
            emptyLineStmt,
            .ReturnStmt
              [ doCast "uint16" [.Ident "line"],
                doCCast "GoString"
                  [doCCast "clang_getLine" [.UnaryExpr .AND (.Ident "line")]] ] ]
      ∧ [ doCast "uint16" [.Ident "line"],
          doCCast "GoString"
            [doCCast "clang_getLine" [.UnaryExpr .AND (.Ident "line")]] ].length
        ≠ (generateAST "schar" exampleVoidCharPointer).1.Typ.Results.length := by
  have h : (generateAST "schar" exampleVoidCharPointer).1.Typ.Results
      = [{ Names := [], Typ := some (.Ident "uint16") }] := rfl
  refine ⟨rfl, h, rfl, ?_⟩
  rw [h]
  decide

theorem isVoidCharPointer_eq_false (CSChar : String) (f : Function)
    (hvc : ¬(f.ReturnType.Name = "void" ∧ f.ReturnType.CName = CSChar
              ∧ f.ReturnType.PointerLevel = 1)) :
    isVoidCharPointer CSChar f = false := by
  rw [Bool.eq_false_iff]
  intro h
  simp only [isVoidCharPointer, Bool.and_eq_true, beq_iff_eq] at h
  exact hvc ⟨h.1.1, h.1.2, h.2⟩

theorem hasReturnList_body (CSChar : String) (f : Function) :
    hasReturnList (generateAST CSChar f).1.Body
      = (f.ReturnType.Name != "void" || hasOutputArgument f) := by
  have hps := paramStmts_hasReturn CSChar f
  have hes := returnEmit_stmts_hasReturn CSChar f (foreignCall CSChar f) (hasOutputArgument f)
  rw [generateAST_body]
  split
  · rename_i hc
    rw [hasReturnList_append, hasReturnList_append, hps, hes, hc]
    simp [hasReturnList, Stmt.hasReturn]
  · rename_i hc
    rw [hasReturnList_append, hps]
    simp [hasReturnList, Stmt.hasReturn, hc]

theorem results_ne_nil_iff (CSChar : String) (f : Function) :
    (generateAST CSChar f).1.Typ.Results ≠ [] ↔
      (f.ReturnType.Name != "void" || hasOutputArgument f) = true := by
  have h := (return_arity CSChar f).1
  rw [← h]
  have hps := filter_isReturn_of_hasReturnList (paramStmts_hasReturn CSChar f)
  have hes := filter_isReturn_of_hasReturnList
    (returnEmit_stmts_hasReturn CSChar f (foreignCall CSChar f) (hasOutputArgument f))
  rw [generateAST_body]
  split
  · rename_i hc
    simp [hps, hes, Stmt.isReturn, List.filter_cons, hc]
  · rename_i hc
    simp [hps, Stmt.isReturn, List.filter_cons, hc]

/-- C21: the emitted declaration is arity-consistent for every `Function` whose return
type is not at once named `void` and a depth-1 character pointer.  A `return` occurs
in the body, at any depth, exactly when the declared result list is non-empty; the
return statement is then the only one and the last statement of the body; it returns
as many expressions as results are declared; and both lists start with the entries of
the output arguments, in parameter order, followed by at most one entry for the call
result. -/
theorem C21_arity_consistent (CSChar : String) (f : Function)
    (hvc : ¬(f.ReturnType.Name = "void" ∧ f.ReturnType.CName = CSChar
              ∧ f.ReturnType.PointerLevel = 1)) :
    (hasReturnList (generateAST CSChar f).1.Body = true ↔
        (generateAST CSChar f).1.Typ.Results ≠ [])
      ∧ ((generateAST CSChar f).1.Typ.Results ≠ [] →
          ∃ rs, (generateAST CSChar f).1.Body.getLast? = some (.ReturnStmt rs))
      ∧ (∀ rs, Stmt.ReturnStmt rs ∈ (generateAST CSChar f).1.Body →
          (generateAST CSChar f).1.Body.filter Stmt.isReturn = [.ReturnStmt rs]
            ∧ (generateAST CSChar f).1.Body.getLast? = some (.ReturnStmt rs)
            ∧ rs.length = (generateAST CSChar f).1.Typ.Results.length
            ∧ ∃ ri rf, rs = outArgValues f ++ ri
                ∧ (generateAST CSChar f).1.Typ.Results = outArgFields CSChar f ++ rf
                ∧ (outArgValues f).length = (outArgFields CSChar f).length
                ∧ ri.length = rf.length ∧ ri.length ≤ 1) := by
  have hvf := isVoidCharPointer_eq_false CSChar f hvc
  have hps := paramStmts_hasReturn CSChar f
  have hes := returnEmit_stmts_hasReturn CSChar f (foreignCall CSChar f) (hasOutputArgument f)
  have hlen := returnEmit_items_length CSChar f (foreignCall CSChar f) (hasOutputArgument f)
  simp only [hvf, Bool.false_eq_true, if_false, Nat.add_zero] at hlen
  refine ⟨?_, ?_, ?_⟩
  · rw [hasReturnList_body, results_ne_nil_iff]
  · intro hne
    have hc := (results_ne_nil_iff CSChar f).mp hne
    rw [generateAST_body]
    simp only [hc, if_true]
    exact ⟨outArgValues f
      ++ (returnEmit CSChar f (foreignCall CSChar f) (hasOutputArgument f)).items, by simp⟩
  · intro rs hrs
    obtain ⟨h1, h2, h3⟩ := (return_arity CSChar f).2 rs hrs
    refine ⟨h1, h2, by simpa [hvf] using h3, ?_⟩
    have hbody := generateAST_body CSChar f
    by_cases hc : (f.ReturnType.Name != "void" || hasOutputArgument f) = true
    · simp only [hc, if_true] at hbody
      rw [hbody] at h2
      have h2b : outArgValues f
          ++ (returnEmit CSChar f (foreignCall CSChar f) (hasOutputArgument f)).items = rs := by
        simpa using h2
      refine ⟨_, (returnEmit CSChar f (foreignCall CSChar f) (hasOutputArgument f)).results,
        h2b.symm, ?_, outArgValues_length CSChar f, hlen, ?_⟩
      · rw [generateAST_results]; simp only [hc, if_true]
      · rw [hlen]; exact returnEmit_results_length CSChar f _ _
    · simp only [hc] at hbody
      rw [hbody] at hrs
      simp only [Bool.false_eq_true, if_false, List.mem_append, List.mem_singleton] at hrs
      rcases hrs with hrs | hrs
      · have := isReturn_of_hasReturnList hps _ hrs
        simp [Stmt.isReturn] at this
      · cases hrs

/-- C21 at `exampleStringWithOutput`: two declared results, `uint16` for the output
argument and `string` for the call result, and two returned expressions in the same
order. -/
theorem C21_arity_consistent_witness :
    ¬(exampleStringWithOutput.ReturnType.Name = "void"
        ∧ exampleStringWithOutput.ReturnType.CName = "schar"
        ∧ exampleStringWithOutput.ReturnType.PointerLevel = 1)
      ∧ (generateAST "schar" exampleStringWithOutput).1.Typ.Results
        = [{ Names := [], Typ := some (.Ident "uint16") }, stringField]
      ∧ (generateAST "schar" exampleStringWithOutput).1.Body.getLast?
        = some (.ReturnStmt [doCast "uint16" [.Ident "line"], doCall "o" "String" []])
      ∧ [doCast "uint16" [.Ident "line"], doCall "o" "String" []].length
        = (generateAST "schar" exampleStringWithOutput).1.Typ.Results.length :=
  ⟨by decide, rfl, rfl,
    ((C21_arity_consistent "schar" exampleStringWithOutput (by decide)).2.2
      [doCast "uint16" [.Ident "line"], doCall "o" "String" []]
      (List.mem_of_mem_getLast? (show _ = some _ from rfl))).2.2.1⟩

/-! ## The pointer into the backing array (C5) -/

theorem starLoop_indexesZero (a : String) (n : Nat) (e : Expr) :
    (starLoop n e).indexesZero a = e.indexesZero a := by
  induction n generalizing e with
  | zero => rfl
  | succ n ih => rw [starLoop, ih]; simp [Expr.indexesZero]

theorem sliceType_indexesZero (CSChar a : String) (p : FunctionParameter) :
    (sliceType CSChar p).indexesZero a = false := by
  unfold sliceType
  simp only [starLoop_indexesZero]
  split <;> simp [doCType, accessMember, Expr.indexesZero]

theorem callArg_indexesZero (CSChar a : String) (p : FunctionParameter) :
    (callArg CSChar p).indexesZero a = false := by
  unfold callArg callArgBase
  repeat' split
  all_goals simp [Expr.indexesZero, indexesZeroList, accessMember, doCCast, doCall, doCast]

theorem indexesZeroList_append (a : String) (l₁ l₂ : List Expr) :
    indexesZeroList a (l₁ ++ l₂) = (indexesZeroList a l₁ || indexesZeroList a l₂) := by
  induction l₁ with
  | nil => simp [indexesZeroList]
  | cons e l ih => simp [indexesZeroList, ih, Bool.or_assoc]

theorem indexesZeroList_map {α : Type} (a : String) (g : α → Expr) (l : List α)
    (h : ∀ x, (g x).indexesZero a = false) : indexesZeroList a (l.map g) = false := by
  induction l with
  | nil => rfl
  | cons x l ih => simp [indexesZeroList, h, ih]

theorem foreignCall_indexesZero (CSChar a : String) (f : Function) :
    (foreignCall CSChar f).indexesZero a = false := by
  rw [foreignCall_eq]
  simp [doCCast, doCall, accessMember, Expr.indexesZero,
    indexesZeroList_map a (callArg CSChar) _ (callArg_indexesZero CSChar a)]

theorem outArgValue_indexesZero (a : String) (p : FunctionParameter) :
    (outArgValue p).indexesZero a = false := by
  unfold outArgValue
  repeat' split
  all_goals simp [Expr.indexesZero, indexesZeroList, accessMember, doCall, doCast]

theorem loopStatements_clean (CSChar name : String) (q : FunctionParameter) :
    assignsList ("cp_" ++ name) (loopStatements CSChar q) = false
      ∧ stmtsIndexZero ("ca_" ++ name) (loopStatements CSChar q) = false := by
  unfold loopStatements
  split <;>
    simp [assignsList, stmtsIndexZero, Stmt.assigns, Stmt.indexesZero, Expr.isIdent,
      Expr.isZero, Expr.indexesZero, indexesZeroList, doCCast, doCall, accessMember,
      String.ext_iff]

theorem touchesBacking_sliceGuard (name other : String)
    (h : (sliceGuard other).touchesBacking name = true) : other = name := by
  simp only [Stmt.touchesBacking, sliceGuard, Stmt.assigns, assignsList, Stmt.indexesZero,
    stmtsIndexZero, Expr.indexesZero, indexesZeroList, Expr.isIdent, Expr.isZero, doCast,
    doZero, List.any_cons, List.any_nil, Bool.or_false, Bool.false_or, Bool.and_true,
    Bool.or_eq_true, beq_iff_eq] at h
  rcases h with h | h <;> simpa [String.ext_iff] using h

theorem touchesBacking_sliceStmts (CSChar name : String) (q : FunctionParameter) (s : Stmt)
    (hs : s ∈ sliceStmts CSChar q) (ht : s.touchesBacking name = true) :
    s = sliceGuard name := by
  simp only [sliceStmts, List.mem_cons, List.mem_singleton, List.not_mem_nil, or_false] at hs
  rcases hs with rfl | rfl | rfl | rfl
  · simp [Stmt.touchesBacking, Stmt.assigns, Stmt.indexesZero, Expr.isIdent,
      Expr.indexesZero, indexesZeroList, doCast, sliceType_indexesZero,
      String.ext_iff] at ht
  · simp [Stmt.touchesBacking, Stmt.assigns, Stmt.indexesZero, Expr.indexesZero,
      sliceType_indexesZero] at ht
  · have h := touchesBacking_sliceGuard name q.Name ht
    rw [← h]; rfl
  · have hl := loopStatements_clean CSChar name q
    simp [Stmt.touchesBacking, Stmt.assigns, Stmt.indexesZero, Expr.isIdent,
      Expr.indexesZero, hl.1, hl.2, String.ext_iff] at ht

theorem touchesBacking_outArgStmts (name : String) (q : FunctionParameter) (s : Stmt)
    (hs : s ∈ outArgStmts q) : s.touchesBacking name = false := by
  simp only [outArgStmts, List.mem_cons] at hs
  rcases hs with rfl | hs
  · simp only [Stmt.touchesBacking, Stmt.assigns, Stmt.indexesZero, Bool.false_or]
    repeat' split
    all_goals simp [Expr.indexesZero, doCType, accessMember]
  · split at hs
    · simp only [List.mem_singleton] at hs
      subst hs
      simp [Stmt.touchesBacking, Stmt.assigns, Stmt.indexesZero, Expr.indexesZero,
        indexesZeroList, doCall, accessMember]
    · simp at hs

theorem touchesBacking_cstringStmts (name : String) (q : FunctionParameter) (s : Stmt)
    (hs : s ∈ cstringStmts q) : s.touchesBacking name = false := by
  simp only [cstringStmts, List.mem_cons, List.mem_singleton, List.not_mem_nil,
    or_false] at hs
  rcases hs with rfl | rfl <;>
    simp [Stmt.touchesBacking, Stmt.assigns, Stmt.indexesZero, Expr.isIdent,
      Expr.indexesZero, indexesZeroList, doCCast, doCall, accessMember, String.ext_iff]

theorem touchesBacking_emptyLine (name : String) :
    emptyLineStmt.touchesBacking name = false := by
  simp [Stmt.touchesBacking, emptyLineStmt, Stmt.assigns, Stmt.indexesZero,
    Expr.indexesZero, indexesZeroList]

theorem convCall_indexesZero (a : String) (f : Function) (call : Expr)
    (hc : call.indexesZero a = false) : (convCall f call).indexesZero a = false := by
  unfold convCall
  split <;> simp [doCompose, doCast, Expr.indexesZero, indexesZeroList, hc]

theorem touchesBacking_returnEmit (CSChar name : String) (f : Function) (call : Expr)
    (hra : Bool) (hc : call.indexesZero ("ca_" ++ name) = false) :
    (∀ s ∈ (returnEmit CSChar f call hra).stmts, s.touchesBacking name = false)
      ∧ indexesZeroList ("ca_" ++ name) (returnEmit CSChar f call hra).items = false := by
  have hcc := convCall_indexesZero ("ca_" ++ name) f call hc
  unfold returnEmit
  repeat' split
  all_goals
    simp [Stmt.touchesBacking, emptyLineStmt, Stmt.assigns, Stmt.indexesZero, Expr.isIdent,
      Expr.indexesZero, indexesZeroList, doCompose, doCall, doCCast, doCast, accessMember,
      doZero, hc, hcc, String.ext_iff]

theorem touchesBacking_paramStmts (CSChar name : String) (f : Function) (s : Stmt)
    (hs : s ∈ paramStmts CSChar f) (ht : s.touchesBacking name = true) :
    s = sliceGuard name := by
  rw [paramStmts_eq] at hs
  simp only [List.mem_append, List.mem_flatMap] at hs
  rcases hs with ((⟨ip, _, hs⟩ | hs) | ⟨q, _, hs⟩) | hs
  · simp only [declEmit] at hs
    split at hs
    · exact touchesBacking_sliceStmts CSChar name ip.2 s hs ht
    · split at hs
      · rw [touchesBacking_outArgStmts name ip.2 s hs] at ht
        cases ht
      · simp at hs
  · split at hs
    · simp only [List.mem_singleton] at hs
      subst hs
      rw [touchesBacking_emptyLine] at ht
      cases ht
    · simp at hs
  · simp only [callEmit] at hs
    split at hs
    · rw [touchesBacking_cstringStmts name q s hs] at ht
      cases ht
    · simp at hs
  · split at hs
    · simp only [List.mem_singleton] at hs
      subst hs
      rw [touchesBacking_emptyLine] at ht
      cases ht
    · simp at hs

/-- In the whole body the pointer `cp_name` is assigned, and `ca_name[0]` is indexed,
in one statement only, at any depth: the guard `if len(name) > 0 { ... }` of a slice
parameter of that name. -/
theorem touchesBacking_body (CSChar name : String) (f : Function) (s : Stmt)
    (hs : s ∈ (generateAST CSChar f).1.Body) (ht : s.touchesBacking name = true) :
    s = sliceGuard name := by
  have hcall := foreignCall_indexesZero CSChar ("ca_" ++ name) f
  have hre := touchesBacking_returnEmit CSChar name f (foreignCall CSChar f)
    (hasOutputArgument f) hcall
  rw [generateAST_body] at hs
  split at hs
  · simp only [List.mem_append, List.mem_singleton] at hs
    rcases hs with (hs | hs) | hs
    · exact touchesBacking_paramStmts CSChar name f s hs ht
    · rw [hre.1 s hs] at ht
      cases ht
    · subst hs
      have hov : indexesZeroList ("ca_" ++ name) (outArgValues f) = false :=
        indexesZeroList_map _ _ _ (fun ip => outArgValue_indexesZero _ ip.2)
      simp [Stmt.touchesBacking, Stmt.assigns, Stmt.indexesZero, indexesZeroList_append,
        hov, hre.2] at ht
  · simp only [List.mem_append, List.mem_singleton] at hs
    rcases hs with hs | hs
    · exact touchesBacking_paramStmts CSChar name f s hs ht
    · subst hs
      simp [Stmt.touchesBacking, Stmt.assigns, Stmt.indexesZero, hcall] at ht

/-- C5 (amended): for every slice parameter `p` that the first loop reaches (it is
not the receiver parameter and is not itself a length-of-slice parameter) the body
holds, in a row, the backing array `ca_p := make([]T, len(p))`, the pointer
`var cp_p *T` without initialiser, the guard `if len(p) > 0 { cp_p = &ca_p[0] }` and
the copy loop `for i := range p`.  That guard is the only statement of the body, at
any depth, that assigns to `cp_p` or indexes `ca_p[0]`.  The foreign call receives
`cp_p` at the position of `p`, behind the address operator when `p` is also flagged
as return argument. -/
theorem C5_slice_marshalling (CSChar : String) (f : Function) (i : Nat)
    (p : FunctionParameter) (hp : f.Parameters[i]? = some p)
    (hs : p.Typ.IsSlice = true) (hl : p.Typ.LengthOfSlice = "")
    (hr : i ≠ 0 ∨ f.Receiver.Name = "") :
    [ Stmt.AssignStmt [.Ident ("ca_" ++ p.Name)] .DEFINE
        [doCast "make" [.ArrayType (sliceType CSChar p), doCast "len" [.Ident p.Name]]],
      .DeclStmt .VAR ["cp_" ++ p.Name] (.StarExpr (sliceType CSChar p)),
      .IfStmt (.BinaryExpr (doCast "len" [.Ident p.Name]) .GTR doZero)
        [ .AssignStmt [.Ident ("cp_" ++ p.Name)] .ASSIGN
            [.UnaryExpr .AND (.IndexExpr (.Ident ("ca_" ++ p.Name)) doZero)] ],
      .RangeStmt (.Ident "i") .DEFINE (.Ident p.Name) (loopStatements CSChar p) ]
        <:+: (generateAST CSChar f).1.Body
      ∧ (∀ s ∈ (generateAST CSChar f).1.Body,
          (s.assigns ("cp_" ++ p.Name) = true ∨ s.indexesZero ("ca_" ++ p.Name) = true) →
          s = .IfStmt (.BinaryExpr (doCast "len" [.Ident p.Name]) .GTR doZero)
                [ .AssignStmt [.Ident ("cp_" ++ p.Name)] .ASSIGN
                    [.UnaryExpr .AND (.IndexExpr (.Ident ("ca_" ++ p.Name)) doZero)] ])
      ∧ ∃ args, foreignCall CSChar f = doCCast f.CName args
          ∧ args.length = f.Parameters.length
          ∧ args[i]? = some
              (if p.Typ.IsReturnArgument then .UnaryExpr .AND (.Ident ("cp_" ++ p.Name))
               else .Ident ("cp_" ++ p.Name)) := by
  have hnr : isReceiverParam f.Receiver.Name (i, p) = false := by
    rcases hr with h | h <;> simp [isReceiverParam, h]
  refine ⟨?_, ?_, ?_⟩
  · have h := declStmts_infix_body CSChar f i p hp
    have hsl : isSliceParam f.Receiver.Name (i, p) = true := by
      simp [isSliceParam, hnr, hs, hl]
    simpa [declEmit, hsl, sliceStmts] using h
  · intro s hmem ht
    have h := touchesBacking_body CSChar p.Name f s hmem
      (by simpa [Stmt.touchesBacking] using ht)
    simpa [sliceGuard] using h
  · have hfin : (finalFunction f).Parameters[i]? = some p := by
      rw [finalFunction_getElem? f i hr, hp]
    obtain ⟨args, h1, h2, h3⟩ := foreignCall_arg CSChar f i p hfin
    refine ⟨args, h1, h2, ?_⟩
    rw [h3]
    simp [callArg, callArgBase, hs]

/-- C5 (amended) at the slice parameter `files` of `exampleSlice`. -/
theorem C5_slice_marshalling_witness :
    (exampleSlice.Parameters[0]?
        = some { Name := "files",
                 Typ := { Name := "File", Primitive := "CXFile", IsSlice := true } }
      ∧ exampleSlice.Receiver.Name = "")
    ∧ ([ Stmt.AssignStmt [.Ident "ca_files"] .DEFINE
          [doCast "make" [.ArrayType (doCType "CXFile"), doCast "len" [.Ident "files"]]],
        .DeclStmt .VAR ["cp_files"] (.StarExpr (doCType "CXFile")),
        .IfStmt (.BinaryExpr (doCast "len" [.Ident "files"]) .GTR doZero)
          [ .AssignStmt [.Ident "cp_files"] .ASSIGN
              [.UnaryExpr .AND (.IndexExpr (.Ident "ca_files") doZero)] ],
        .RangeStmt (.Ident "i") .DEFINE (.Ident "files")
          [ .AssignStmt [.IndexExpr (.Ident "ca_files") (.Ident "i")] .ASSIGN
              [.SelectorExpr (.IndexExpr (.Ident "files") (.Ident "i")) "c"] ] ]
        <:+: (generateAST "schar" exampleSlice).1.Body
      ∧ (∀ s ∈ (generateAST "schar" exampleSlice).1.Body,
          (s.assigns "cp_files" = true ∨ s.indexesZero "ca_files" = true) →
          s = .IfStmt (.BinaryExpr (doCast "len" [.Ident "files"]) .GTR doZero)
                [ .AssignStmt [.Ident "cp_files"] .ASSIGN
                    [.UnaryExpr .AND (.IndexExpr (.Ident "ca_files") doZero)] ])
      ∧ ∃ args, foreignCall "schar" exampleSlice = doCCast "clang_parse" args
          ∧ args.length = 2 ∧ args[0]? = some (.Ident "cp_files")) :=
  ⟨⟨rfl, rfl⟩, C5_slice_marshalling "schar" exampleSlice 0
    { Name := "files", Typ := { Name := "File", Primitive := "CXFile", IsSlice := true } }
    rfl rfl rfl (Or.inr rfl)⟩

/-- C5, the claim refuted: the slice parameter `files` of `exampleSliceOutput` is also
flagged as return argument.  The first loop tests `IsSlice` first (line 259) and
marshals it like every slice, and line 590 puts the address operator in front of
every return argument: the foreign call receives `&cp_files`, not `cp_files`. -/
theorem C5_call_receives_pointer_counterexample :
    exampleSliceOutput.Parameters[0]?
        = some { Name := "files",
                 Typ := { Name := "File", Primitive := "CXFile", IsSlice := true,
                          IsReturnArgument := true } }
      ∧ (generateAST "schar" exampleSliceOutput).1.Typ.Params
        = some [{ Names := ["files"], Typ := some (.ArrayType (.Ident "File")) }]
      ∧ (generateAST "schar" exampleSliceOutput).1.Body
        = [ .AssignStmt [.Ident "ca_files"] .DEFINE
              [doCast "make" [.ArrayType (doCType "CXFile"), doCast "len" [.Ident "files"]]],
            .DeclStmt .VAR ["cp_files"] (.StarExpr (doCType "CXFile")),
            .IfStmt (.BinaryExpr (doCast "len" [.Ident "files"]) .GTR doZero)
              [ .AssignStmt [.Ident "cp_files"] .ASSIGN
                  [.UnaryExpr .AND (.IndexExpr (.Ident "ca_files") doZero)] ],
            .RangeStmt (.Ident "i") .DEFINE (.Ident "files")
              [ .AssignStmt [.IndexExpr (.Ident "ca_files") (.Ident "i")] .ASSIGN
                  [.SelectorExpr (.IndexExpr (.Ident "files") (.Ident "i")) "c"] ],
            emptyLineStmt,
            .ExprStmt (doCCast "clang_fill" [.UnaryExpr .AND (.Ident "cp_files")]) ]
      ∧ foreignCall "schar" exampleSliceOutput
          = doCCast "clang_fill" [.UnaryExpr .AND (.Ident "cp_files")]
      ∧ foreignCall "schar" exampleSliceOutput
          ≠ doCCast "clang_fill" [.Ident "cp_files"] := by
  have h3 : foreignCall "schar" exampleSliceOutput
      = doCCast "clang_fill" [.UnaryExpr .AND (.Ident "cp_files")] := rfl
  refine ⟨rfl, rfl, rfl, h3, ?_⟩
  rw [h3]; simp [doCCast, doCall]

/-- The slices the first loop does not reach: for a slice in receiver position
(lines 250-252) and for a slice that is itself a length-of-slice parameter (lines
255-257) the body is the bare foreign call, which names `cp_r` resp. `cp_files`
(line 527) although no statement declares them. -/
theorem slice_skipped_by_first_loop :
    (generateAST "schar" exampleSliceReceiver).1.Body
        = [.ExprStmt (doCCast "clang_reset" [.Ident "cp_r"])]
      ∧ (generateAST "schar" exampleSliceLength).1.Body
        = [.ExprStmt (doCCast "clang_reset" [.Ident "cp_files"])] :=
  ⟨rfl, rfl⟩

end GoClang
